import Mathlib

/-!
# Herald for C++: ring-buffer sample store and BLE connection engine

A shallow embedding of `herald/analysis/sampling.h` (`Sample`, `SampleList`,
`SampleIterator`) and of the connection-state engine of
`herald/src/ble/zephyr/concrete_ble_receiver.cpp`, with the properties proved about them.

Conventions of the embedding

* `std::size_t` is an unsigned 64-bit integer: values are naturals and every arithmetic
  result is reduced modulo `2 ^ 64` (`wrap`, `wsub`).
* `Date` is declared in `herald/datatype/date.h`; a date is represented by its
  `secondsSinceUnixEpoch()` and `operator<` on dates by `<` on those numbers.
* Reading `std::array` outside its bounds is undefined behaviour; reads return `Option`
  and `none` stands for such a read.
-/

namespace Herald

/-! ## Machine integers -/

/-- The constant `SIZE_MAX` of a 64-bit `std::size_t`. -/
def SIZE_MAX : Nat := 2 ^ 64 - 1

/-- Reduction of an arithmetic result to `std::size_t`. -/
def wrap (x : Nat) : Nat := x % 2 ^ 64

/-- Subtraction `a - b` on `std::size_t`, wrapping below zero. -/
def wsub (a b : Nat) : Nat := (a % 2 ^ 64 + (2 ^ 64 - b % 2 ^ 64)) % 2 ^ 64

/-- The constant `PTRDIFF_MAX`: no object, and so no `std::array`, has more elements than this. -/
def PTRDIFF_MAX : Nat := 2 ^ 63 - 1

/-! ## `Sample` and `SampleList` -/

/-- The struct `Sample<ValT>`: the date the sample was taken and its value. -/
structure Sample (ValT : Type) where
  taken : Nat
  value : ValT
deriving DecidableEq, Repr

/-- The struct `SampleList<SampleT, MaxSize>`. `data` is the backing `std::array`; its length is
`MaxSize` (`data.size()` in the source). -/
structure SampleList (ValT : Type) where
  data : List (Sample ValT)
  oldestPosition : Nat
  newestPosition : Nat
deriving DecidableEq, Repr

namespace SampleList

variable {ValT : Type}

/-- The constructor `SampleList()`: both positions are `SIZE_MAX`. The argument is the content of
the default-constructed backing array. -/
def empty (data : List (Sample ValT)) : SampleList ValT :=
  { data := data, oldestPosition := SIZE_MAX, newestPosition := SIZE_MAX }

/-- The method `SampleList::push` (sampling.h, lines 105-126). `o1` and `n1` are the two positions
after the first `if`/`else` (lines 106-117), `o2` and `n2` after the second `if` (lines 118-124);
the sample is then stored at `n2` (a store outside the array, which `push_nonfull` and
`push_full` exclude for the lists of the theorems, stores nothing). -/
def push (sl : SampleList ValT) (taken : Nat) (val : ValT) : SampleList ValT :=
  let o1 : Nat :=
    if SIZE_MAX = sl.newestPosition then 0
    else if sl.newestPosition = wsub sl.oldestPosition 1 then
      (if wrap (sl.oldestPosition + 1) = sl.data.length then 0 else wrap (sl.oldestPosition + 1))
    else sl.oldestPosition
  let n1 : Nat :=
    if SIZE_MAX = sl.newestPosition then 0 else wrap (sl.newestPosition + 1)
  let o2 : Nat :=
    if n1 = sl.data.length then (if 0 = o1 then wrap (o1 + 1) else o1) else o1
  let n2 : Nat :=
    if n1 = sl.data.length then 0 else n1
  { data := sl.data.set n2 { taken := taken, value := val },
    oldestPosition := o2,
    newestPosition := n2 }

/-- The method `SampleList::size` (sampling.h, lines 128-136). -/
def size (sl : SampleList ValT) : Nat :=
  if sl.newestPosition = SIZE_MAX then 0
  else if sl.newestPosition ≥ sl.oldestPosition then
    wrap (wsub sl.newestPosition sl.oldestPosition + 1)
  else
    wrap (wrap (1 + sl.newestPosition) + wsub sl.data.length sl.oldestPosition)

/-- The index into the backing array that `SampleList::operator[]` computes for `idx`
(sampling.h, lines 138-147). -/
def slot (sl : SampleList ValT) (idx : Nat) : Nat :=
  if sl.newestPosition ≥ sl.oldestPosition then
    wrap (idx + sl.oldestPosition)
  else if wrap (idx + sl.oldestPosition) ≥ sl.data.length then
    wsub (wrap (idx + sl.oldestPosition)) sl.data.length
  else
    wrap (idx + sl.oldestPosition)

/-- The method `SampleList::operator[]`: the element of the backing array at `slot`. -/
def get (sl : SampleList ValT) (idx : Nat) : Option (Sample ValT) :=
  sl.data[sl.slot idx]?

/-- The `while` loop and the final test of `SampleList::clearBeforeDate` (sampling.h,
lines 151-167). One unit of fuel is used for each evaluation of the loop condition; `none` is
returned when the fuel runs out or the backing array is read outside its bounds. -/
def clearLoop : Nat → SampleList ValT → Nat → Option (SampleList ValT)
  | 0, _, _ => none
  | fuel + 1, sl, before =>
    if sl.oldestPosition ≠ sl.newestPosition then
      match sl.data[sl.oldestPosition]? with
      | none => none
      | some s =>
        if s.taken < before then
          let o := wrap (sl.oldestPosition + 1)
          clearLoop fuel { sl with oldestPosition := if sl.data.length = o then 0 else o } before
        else
          some sl
    else
      match sl.data[sl.oldestPosition]? with
      | none => none
      | some s =>
        if s.taken < before then
          some { sl with oldestPosition := SIZE_MAX, newestPosition := SIZE_MAX }
        else
          some sl

/-- The method `SampleList::clearBeforeDate` run with the given amount of fuel. -/
def clearBeforeDateFuel (fuel : Nat) (sl : SampleList ValT) (before : Nat) :
    Option (SampleList ValT) :=
  if SIZE_MAX = sl.oldestPosition then some sl else clearLoop fuel sl before

/-- The method `SampleList::clearBeforeDate` (sampling.h, lines 149-168). The loop is given
`MaxSize` evaluations of its condition. -/
def clearBeforeDate (sl : SampleList ValT) (before : Nat) : Option (SampleList ValT) :=
  clearBeforeDateFuel sl.data.length sl before

/-- The method `SampleList::clear` (sampling.h, lines 170-173). -/
def clear (sl : SampleList ValT) : SampleList ValT :=
  { sl with oldestPosition := SIZE_MAX, newestPosition := SIZE_MAX }

/-- The abstract contents of a list: `[operator[](0), ..., operator[](size()-1)]`. -/
def contents (sl : SampleList ValT) : List (Option (Sample ValT)) :=
  (List.range sl.size).map sl.get

/-- A run of `push` calls, in the order of the list. -/
def pushAll (sl : SampleList ValT) (xs : List (Nat × ValT)) : SampleList ValT :=
  xs.foldl (fun s x => s.push x.1 x.2) sl

end SampleList

/-- The struct `SampleIterator<SampleListT>`: the list iterated over and a position. -/
structure SampleIterator (ValT : Type) where
  list : SampleList ValT
  pos : Nat

namespace SampleIterator

variable {ValT : Type}

/-- The method `SampleIterator::operator*`. -/
def deref (it : SampleIterator ValT) : Option (Sample ValT) :=
  it.list.get it.pos

/-- The prefix `SampleIterator::operator++`. -/
def inc (it : SampleIterator ValT) : SampleIterator ValT :=
  { it with pos := wrap (it.pos + 1) }

/-- The method `SampleIterator::operator==`: only the positions are compared. -/
def eq (a b : SampleIterator ValT) : Bool :=
  a.pos == b.pos

end SampleIterator

namespace SampleList

variable {ValT : Type}

/-- The method `SampleList::begin` (sampling.h, lines 175-177). -/
def begin (sl : SampleList ValT) : SampleIterator ValT :=
  { list := sl, pos := 0 }

/-- The method `SampleList::end` (sampling.h, lines 179-182). -/
def «end» (sl : SampleList ValT) : SampleIterator ValT :=
  if sl.size = 0 then { list := sl, pos := 0 } else { list := sl, pos := sl.size }

end SampleList

/-! ## Reachable lists and the representation invariant -/

namespace SampleList

variable {ValT : Type}

/-- The lists of capacity `N` that can be reached from a freshly constructed list by any
interleaving of `push`, `clearBeforeDate` and `clear`. -/
inductive Reachable (N : Nat) : SampleList ValT → Prop
  | fresh (data : List (Sample ValT)) (h : data.length = N) : Reachable N (empty data)
  | push {sl : SampleList ValT} (taken : Nat) (val : ValT) :
      Reachable N sl → Reachable N (sl.push taken val)
  | clearBeforeDate {sl sl2 : SampleList ValT} (before : Nat) :
      Reachable N sl → sl.clearBeforeDate before = some sl2 → Reachable N sl2
  | clear {sl : SampleList ValT} : Reachable N sl → Reachable N sl.clear

/-- The representation invariant: the backing array has `N` slots and the two positions are
either both the sentinel `SIZE_MAX` or both indices into the array. -/
def Valid (N : Nat) (sl : SampleList ValT) : Prop :=
  sl.data.length = N ∧
    ((sl.oldestPosition = SIZE_MAX ∧ sl.newestPosition = SIZE_MAX) ∨
      (sl.oldestPosition < N ∧ sl.newestPosition < N))

/-- The test `taken < before` of `clearBeforeDate`, on an entry of `contents`. -/
def olderThan (before : Nat) (x : Option (Sample ValT)) : Bool :=
  match x with
  | some s => decide (s.taken < before)
  | none => false

/-- The list obtained from `L` by keeping its last `N` elements. -/
def lastN {α : Type} (N : Nat) (L : List α) : List α :=
  L.drop (L.length - N)

/-- The sample that a pushed pair becomes. -/
def toSample (x : Nat × ValT) : Sample ValT :=
  { taken := x.1, value := x.2 }

end SampleList

/-- The ten pushes of the `clearBeforeDate` tests of `sample-tests.cpp`. -/
def tenPushes : List (Nat × Int) :=
  [(1234, -55), (1244, -60), (1265, -58), (1282, -61), (1294, -54), (1302, -47), (1304, -48),
    (1305, -49), (1306, -45), (1307, -44)]

/-- The eight pushes of the test `samplelist-threeover` of `sample-tests.cpp`. -/
def eightPushes : List (Nat × Int) :=
  [(1234, -55), (1244, -60), (1265, -58), (1282, -61), (1294, -54), (1302, -47), (1304, -48),
    (1305, -49)]

/-! ## The connection-state engine (`concrete_ble_receiver.cpp`)

`std::map<TargetIdentifier, ConnectedDeviceState>` is an association list kept in key order;
a C++ reference to an entry is the entry's key. The radio (the Zephyr host stack) is seen through
the calls the engine issues, recorded in order, and through what it answers (`Env`). -/

/-- The type `Data`: a sequence of bytes. -/
abbrev Data := List Nat

/-- The type `TargetIdentifier`: the bytes identifying a peer. -/
abbrev TargetIdentifier := List Nat

/-- The struct `bt_addr_le_t`: address type and the six address bytes `a.val`. -/
structure BtAddrLe where
  type : Nat
  val : List Nat
deriving DecidableEq, Repr

/-- The enum `BLEDeviceState`, with the values this file uses. -/
inductive BLEDeviceState where
  | disconnected
  | connecting
  | connected
deriving DecidableEq, Repr

/-- The enum `BLEDeviceOperatingSystem`, with `unknown` for a guess not yet made. -/
inductive BLEDeviceOperatingSystem where
  | unknown
  | android
  | ios
deriving DecidableEq, Repr

/-- The struct `ConnectedDeviceState` (lines 78-94); `connection` is the nullable `bt_conn*`. -/
structure ConnectedDeviceState where
  target : TargetIdentifier
  state : BLEDeviceState
  connection : Option Nat
  address : BtAddrLe
  readPayload : Data
  immediateSend : Data
  remoteInstigated : Bool
deriving DecidableEq, Repr

/-- The constructor `ConnectedDeviceState(const TargetIdentifier&)` (lines 79-82). -/
def ConnectedDeviceState.new (id : TargetIdentifier) : ConnectedDeviceState :=
  { target := id, state := BLEDeviceState.disconnected, connection := none,
    address := { type := 0, val := [0, 0, 0, 0, 0, 0] }, readPayload := [],
    immediateSend := [], remoteInstigated := false }

/-- The constant `herald_uuid` of `zephyrinternal` (lines 104-106), bytes in source order, as
for the three constants that follow. -/
def herald_uuid : List Nat :=
  [0x9b, 0xfd, 0x5b, 0xd6, 0x72, 0x45, 0x1e, 0x80, 0xd3, 0x42, 0x46, 0x47, 0xaf, 0x32, 0x81, 0x42]

/-- The constant `herald_char_signal_android_uuid` (lines 107-109). -/
def herald_char_signal_android_uuid : List Nat :=
  [0x11, 0x1a, 0x82, 0x80, 0x9a, 0xe0, 0x24, 0x83, 0x7a, 0x43, 0x2e, 0x09, 0x13, 0xb8, 0x17, 0xf6]

/-- The constant `herald_char_signal_ios_uuid` (lines 110-112). -/
def herald_char_signal_ios_uuid : List Nat :=
  [0x63, 0x43, 0x2d, 0xb0, 0xad, 0xa4, 0xf3, 0x8a, 0x9a, 0x4a, 0xe4, 0xea, 0xf2, 0xd5, 0xb0, 0x0e]

/-- The constant `herald_char_payload_uuid` (lines 113-115). -/
def herald_char_payload_uuid : List Nat :=
  [0xe7, 0x33, 0x89, 0x8f, 0xe3, 0x43, 0x21, 0xa1, 0x29, 0x48, 0x05, 0x8f, 0xf8, 0xc0, 0x98, 0x3e]

/-- Modelled from the spec: the UUID constants of `BLESensorConfiguration`, declared in
`ble_sensor_configuration.h`; the bytes are those of section 6 of the specification, as
written there. -/
def BLESensorConfiguration.serviceUUID : List Nat :=
  [0x42, 0x81, 0x32, 0xaf, 0x47, 0x46, 0x42, 0xd3, 0x80, 0x1e, 0x45, 0x72, 0xd6, 0x5b, 0xfd, 0x9b]

/-- Modelled from the spec: `BLESensorConfiguration::androidSignalCharacteristicUUID`. -/
def BLESensorConfiguration.androidSignalCharacteristicUUID : List Nat :=
  [0xf6, 0x17, 0xb8, 0x13, 0x09, 0x2e, 0x43, 0x7a, 0x83, 0x24, 0xe0, 0x9a, 0x80, 0x82, 0xa1, 0xa1]

/-- Modelled from the spec: `BLESensorConfiguration::iosSignalCharacteristicUUID`. -/
def BLESensorConfiguration.iosSignalCharacteristicUUID : List Nat :=
  [0x0e, 0xb0, 0xd5, 0xf2, 0xea, 0xe4, 0x4a, 0x9a, 0x8a, 0xf3, 0xa4, 0xad, 0xb0, 0x2d, 0x43, 0x63]

/-- Modelled from the spec: `BLESensorConfiguration::payloadCharacteristicUUID`. -/
def BLESensorConfiguration.payloadCharacteristicUUID : List Nat :=
  [0x3e, 0x98, 0xc0, 0xf8, 0x8f, 0x05, 0x48, 0x29, 0xa1, 0x21, 0x43, 0xe3, 0x8f, 0x89, 0x33, 0xe7]

/-- Modelled from the spec: the Device Record of section 3 (`BLEDevice`, declared in
`ble_device.h`), with the fields the engine writes. Each setter of `BLEDevice` is the update of
its field. -/
structure BLEDevice where
  payloadData : Option Data
  ignore : Bool
  operatingSystem : BLEDeviceOperatingSystem
  state : BLEDeviceState
  services : Option (List (List Nat))
  payloadCharacteristic : Option (List Nat)
  signalCharacteristic : Option (List Nat)
  rssi : Option Int
deriving DecidableEq, Repr

/-- Modelled from the spec: a Device Record as the database creates it. -/
def BLEDevice.new : BLEDevice :=
  { payloadData := none, ignore := false, operatingSystem := BLEDeviceOperatingSystem.unknown,
    state := BLEDeviceState.disconnected, services := none, payloadCharacteristic := none,
    signalCharacteristic := none, rssi := none }

/-- The call `find(key)` on a `std::map` held as an association list: the value under `key`.
The keys of a `std::map` are pairwise different, so there is at most one such entry. -/
def mapFind {V : Type} (m : List (TargetIdentifier × V)) (key : TargetIdentifier) : Option V :=
  (m.find? (fun p => decide (p.1 = key))).map Prod.snd

/-- Insertion of a new key at its place in key order, before the first greater key. -/
def mapInsert {V : Type} (lt : TargetIdentifier → TargetIdentifier → Bool)
    (key : TargetIdentifier) (v : V) : List (TargetIdentifier × V) → List (TargetIdentifier × V)
  | [] => [(key, v)]
  | p :: rest => if lt key p.1 then (key, v) :: p :: rest else p :: mapInsert lt key v rest

/-- The call `emplace(key, v)`: nothing changes when `key` is present. -/
def mapEmplace {V : Type} (lt : TargetIdentifier → TargetIdentifier → Bool)
    (key : TargetIdentifier) (v : V) (m : List (TargetIdentifier × V)) :
    List (TargetIdentifier × V) :=
  if m.any (fun p => decide (p.1 = key)) then m else mapInsert lt key v m

/-- An assignment through a reference to the value under `key`. -/
def mapUpdate {V : Type} (key : TargetIdentifier) (f : V → V) (m : List (TargetIdentifier × V)) :
    List (TargetIdentifier × V) :=
  m.map (fun p => if p.1 = key then (p.1, f p.2) else p)

/-- The call `erase(iter)` for the entry under `key`. -/
def mapErase {V : Type} (key : TargetIdentifier) (m : List (TargetIdentifier × V)) :
    List (TargetIdentifier × V) :=
  m.filter (fun p => !decide (p.1 = key))

/-- Modelled from the spec: the Device Database of section 4.2 (`BLEDatabase`, implemented
outside these sources), the Device Records under their identifier. The record of a target is
`mapFind db target`; a setter called on the record that `db->device(target)` returned is
`mapUpdate target` of the field update. -/
abbrev BLEDatabase := List (TargetIdentifier × BLEDevice)

/-- Modelled from the spec: `db->device(target)` is get-or-create; this is the database after
the call. -/
def dbDevice (db : BLEDatabase) (target : TargetIdentifier) : BLEDatabase :=
  if db.any (fun p => decide (p.1 = target)) then db else db ++ [(target, BLEDevice.new)]

/-- A call issued to the radio. -/
inductive RadioCall where
  | scanStart
  | scanStop
  | advertiseStart
  | advertiseStop
  | connCreate (addr : BtAddrLe)
  | connDisconnect (conn : Nat)
  | connUnref (conn : Nat)
  | gattDmStart (conn : Nat)
  | gattRead (conn : Nat) (handle : Nat) (offset : Nat)
  | gattDmDataRelease
  | bluetoothStart
  | connCbRegister
deriving DecidableEq, Repr

/-- What the engine takes from outside these sources: the radio's `bt_conn_get_dst`, the
conversion of the six bytes of an address to the `Data` of a `TargetIdentifier` (through
`BLEMacAddress`), and `operator<` of `TargetIdentifier`, which orders the `std::map`. -/
structure Env where
  dst : Nat → BtAddrLe
  macData : List Nat → TargetIdentifier
  lt : TargetIdentifier → TargetIdentifier → Bool

/-- The members of `ConcreteBLEReceiver::Impl` that the engine writes (lines 373-381), and the
calls issued to the radio so far, oldest first. -/
structure Engine where
  connectionStates : List (TargetIdentifier × ConnectedDeviceState)
  isScanning : Bool
  db : BLEDatabase
  radioCalls : List RadioCall
deriving DecidableEq, Repr

/-- The loop of `findOrCreateStateByConnection` (lines 447-451): the key of the first state, in
key order, whose `connection` is `conn`. -/
def findConnection (m : List (TargetIdentifier × ConnectedDeviceState)) (conn : Nat) :
    Option TargetIdentifier :=
  (m.find? (fun p => decide (p.2.connection = some conn))).map Prod.fst

namespace Engine

/-- The state a reference obtained for `key` reads. -/
def stateOf (e : Engine) (key : TargetIdentifier) : ConnectedDeviceState :=
  (mapFind e.connectionStates key).getD (ConnectedDeviceState.new key)

/-- The method `Impl::findOrCreateState` (lines 431-441); the returned reference is the state
under `forTarget`. -/
def findOrCreateState (env : Env) (e : Engine) (forTarget : TargetIdentifier) : Engine :=
  match mapFind e.connectionStates forTarget with
  | some _ => e
  | none =>
    { e with connectionStates :=
        (mapEmplace env.lt forTarget (ConnectedDeviceState.new forTarget) e.connectionStates) }

/-- The method `Impl::findOrCreateStateByConnection` (lines 443-460) on the map
`connectionStates`: the map afterwards and the key of the state returned. -/
def statesFindOrCreateByConnection (env : Env)
    (m : List (TargetIdentifier × ConnectedDeviceState)) (conn : Nat)
    (remoteInstigated : Bool) : List (TargetIdentifier × ConnectedDeviceState) × TargetIdentifier :=
  match findConnection m conn with
  | some key => (m, key)
  | none =>
    let addr := env.dst conn
    let target := env.macData addr.val
    let m1 := mapEmplace env.lt target (ConnectedDeviceState.new target) m
    let m2 := mapUpdate target
      (fun s => { s with address := addr, remoteInstigated := remoteInstigated }) m1
    (m2, target)

/-- The method `Impl::findOrCreateStateByConnection` (lines 443-460): the engine afterwards and
the key of the state returned. -/
def findOrCreateStateByConnection (env : Env) (e : Engine) (conn : Nat)
    (remoteInstigated : Bool) : Engine × TargetIdentifier :=
  ({ e with connectionStates :=
      (statesFindOrCreateByConnection env e.connectionStates conn remoteInstigated).1 },
    (statesFindOrCreateByConnection env e.connectionStates conn remoteInstigated).2)

/-- The method `Impl::removeState` (lines 462-470). -/
def removeState (e : Engine) (forTarget : TargetIdentifier) : Engine :=
  { e with connectionStates := mapErase forTarget e.connectionStates }

/-- The method `ConcreteBLEReceiver::closeConnection` (lines 1090-1116): the engine afterwards
and the value returned. -/
def closeConnection (env : Env) (e : Engine) (toTarget : TargetIdentifier) : Engine × Bool :=
  let e1 := findOrCreateState env e toTarget
  let state := e1.stateOf toTarget
  let e2 : Engine :=
    match state.connection with
    | some conn =>
      if state.remoteInstigated then e1
      else { e1 with radioCalls := e1.radioCalls ++ [RadioCall.connDisconnect conn] }
    | none =>
      { e1 with connectionStates :=
          (mapUpdate toTarget (fun s => { s with remoteInstigated := false })
            e1.connectionStates) }
  if !(e2.stateOf toTarget).remoteInstigated then
    (e2.removeState toTarget, false)
  else
    (e2, true)

end Engine

/-- A characteristic as `bt_gatt_dm_attr_chrc_val` gives it: its UUID and value handle. -/
structure GattChrc where
  uuid : List Nat
  value_handle : Nat
deriving DecidableEq, Repr

/-- The discovery data `struct bt_gatt_dm`: the connection (`bt_gatt_dm_conn_get`) and the
characteristics in the order `bt_gatt_dm_char_next` walks them. -/
structure GattDm where
  conn : Nat
  chars : List GattChrc
deriving DecidableEq, Repr

namespace Engine

/-- One turn of the `do`/`while` loop of `discovery_completed_cb` (lines 650-701) for the
characteristic `chrc`; `key` is the state of the connection, `target` its `target` field, and
the flag is the local `found`. -/
def discoveryStep (key target : TargetIdentifier) (conn : Nat) (acc : Engine × Bool)
    (chrc : GattChrc) : Engine × Bool :=
  let e := acc.1
  if chrc.uuid = herald_char_payload_uuid then
    ({ e with
        db := (mapUpdate target (fun d => { d with payloadCharacteristic :=
          (some BLESensorConfiguration.payloadCharacteristicUUID) }) e.db),
        connectionStates := (mapUpdate key (fun s => { s with readPayload := [] })
          e.connectionStates),
        radioCalls := e.radioCalls ++ [RadioCall.gattRead conn chrc.value_handle 0] }, true)
  else if chrc.uuid = herald_char_signal_android_uuid then
    ({ e with
        db := (mapUpdate target (fun d => { d with
          signalCharacteristic := some BLESensorConfiguration.androidSignalCharacteristicUUID,
          operatingSystem := BLEDeviceOperatingSystem.android }) e.db) }, acc.2)
  else if chrc.uuid = herald_char_signal_ios_uuid then
    ({ e with
        db := (mapUpdate target (fun d => { d with
          signalCharacteristic := some BLESensorConfiguration.iosSignalCharacteristicUUID,
          operatingSystem := BLEDeviceOperatingSystem.ios }) e.db) }, acc.2)
  else
    acc

/-- The method `Impl::discovery_completed_cb` (lines 640-720). -/
def discovery_completed_cb (env : Env) (e : Engine) (dm : GattDm) : Engine :=
  let r := findOrCreateStateByConnection env e dm.conn false
  let key := r.2
  let target := (r.1.stateOf key).target
  let e1 : Engine := { r.1 with db := dbDevice r.1.db target }
  let l := dm.chars.foldl (discoveryStep key target dm.conn) (e1, false)
  let e2 : Engine :=
    if !l.2 then { l.1 with db := mapUpdate target (fun d => { d with ignore := true }) l.1.db }
    else l.1
  let e3 : Engine := { e2 with radioCalls := e2.radioCalls ++ [RadioCall.gattDmDataRelease] }
  { e3 with db := (mapUpdate target
      (fun d => { d with services := some [BLESensorConfiguration.serviceUUID] }) e3.db) }

/-- The method `Impl::gatt_read_cb` (lines 748-768): the engine afterwards and the value
returned. `data` is the nullable pointer with the bytes behind it, `length` is a `uint16_t`, and
the value returned is a `uint8_t`. -/
def gatt_read_cb (env : Env) (e : Engine) (conn : Nat) (err : Nat) (data : Option (List Nat))
    (length : Nat) : Engine × Nat :=
  let _ := err
  let r := findOrCreateStateByConnection env e conn false
  let key := r.2
  let state := r.1.stateOf key
  match data with
  | none =>
    ({ r.1 with db := (mapUpdate state.target
        (fun d => { d with payloadData := some state.readPayload })
        (dbDevice r.1.db state.target)) }, 0)
  | some bytes =>
    ({ r.1 with connectionStates :=
        (mapUpdate key (fun s => { s with readPayload := s.readPayload ++ bytes.take length })
          r.1.connectionStates) }, length % 2 ^ 8)

/-- A run of `gatt_read_cb` calls on `conn` that deliver the chunks of the list, in order, each
with its own length. -/
def readChunks (env : Env) (e : Engine) (conn : Nat) (err : Nat) (chunks : List (List Nat)) :
    Engine :=
  chunks.foldl (fun e1 c => (gatt_read_cb env e1 conn err (some c) c.length).1) e

end Engine

/-! ## Radio callbacks, activities and the reconciliation sweep -/

/-- The bytes `val[0]`, ..., `val[5]` that `openConnection` takes from the data of the target
(lines 884-904): byte `i` of the data, and 0 where the data is shorter. -/
def addressBytes (toTarget : TargetIdentifier) : List Nat :=
  (List.range 6).map (fun i => toTarget.getD i 0)

/-- What the outside answers during one call of `restartScanningAndAdvertising`: the radio's
`bt_conn_lookup_addr_le` for an address, `device->timeIntervalSinceConnected()` of the Device
Record of a target in seconds (`none` for `TimeInterval::never()`), and the value returned by
`bt_le_scan_start`. -/
structure SweepAnswers where
  lookup : BtAddrLe → Option Nat
  sinceConnected : TargetIdentifier → Option Nat
  scanStartErr : Int

namespace Engine

/-- The method `Impl::stopScanning` (lines 472-480). -/
def stopScanning (e : Engine) : Engine :=
  if e.isScanning then
    { e with isScanning := false, radioCalls := e.radioCalls ++ [RadioCall.scanStop] }
  else e

/-- The method `Impl::startScanning` (lines 482-496); `err` is the value returned by
`bt_le_scan_start`. -/
def startScanning (e : Engine) (err : Int) : Engine :=
  if e.isScanning then e
  else if err ≠ 0 then { e with radioCalls := e.radioCalls ++ [RadioCall.scanStart] }
  else { e with radioCalls := e.radioCalls ++ [RadioCall.scanStart], isScanning := true }

/-- The method `ConcreteBLEReceiver::start` (lines 805-834); `scanningEnabled` is the constant
`BLESensorConfiguration::scanningEnabled`, `scanErr` the value returned by `bt_le_scan_start`. -/
def start (scanningEnabled : Bool) (e : Engine) (scanErr : Int) : Engine :=
  if !scanningEnabled then e
  else
    startScanning
      { e with radioCalls :=
          (e.radioCalls ++ [RadioCall.bluetoothStart, RadioCall.connCbRegister]) }
      scanErr

/-- The method `ConcreteBLEReceiver::stop` (lines 836-853). -/
def stop (scanningEnabled : Bool) (e : Engine) : Engine :=
  if !scanningEnabled then e else stopScanning e

/-- The method `Impl::connected` (lines 553-603); `err` is a `uint8_t`. -/
def connected (env : Env) (e : Engine) (conn : Nat) (err : Nat) : Engine :=
  let r := findOrCreateStateByConnection env e conn true
  let key := r.2
  let mac := env.macData (env.dst conn).val
  let e1 : Engine := { r.1 with db := dbDevice r.1.db mac }
  if err ≠ 0 then
    { e1 with
      radioCalls := e1.radioCalls ++ [RadioCall.connUnref conn],
      connectionStates :=
        (mapUpdate key
          (fun s => { s with state := BLEDeviceState.disconnected, connection := none })
          e1.connectionStates),
      db := (mapUpdate mac (fun d => { d with state := BLEDeviceState.disconnected }) e1.db) }
  else
    { e1 with
      connectionStates :=
        (mapUpdate key
          (fun s => { s with connection := some conn, address := env.dst conn,
                             state := BLEDeviceState.connected })
          e1.connectionStates),
      db := (mapUpdate mac (fun d => { d with state := BLEDeviceState.connected }) e1.db) }

/-- The method `Impl::disconnected` (lines 605-636). -/
def disconnected (env : Env) (e : Engine) (conn : Nat) (reason : Nat) : Engine :=
  let _ := reason
  let e0 : Engine := { e with radioCalls := e.radioCalls ++ [RadioCall.connUnref conn] }
  let r := findOrCreateStateByConnection env e0 conn false
  let key := r.2
  let mac := env.macData (env.dst conn).val
  { r.1 with
    connectionStates :=
      (mapUpdate key
        (fun s => { s with state := BLEDeviceState.disconnected, connection := none })
        r.1.connectionStates),
    db := (mapUpdate mac (fun d => { d with state := BLEDeviceState.disconnected })
      (dbDevice r.1.db mac)) }

/-- The method `Impl::discovery_service_not_found_cb` (lines 722-735). -/
def discovery_service_not_found_cb (env : Env) (e : Engine) (conn : Nat) : Engine :=
  let r := findOrCreateStateByConnection env e conn false
  let target := (r.1.stateOf r.2).target
  { r.1 with db :=
      (mapUpdate target (fun d => { d with ignore := true })
        (mapUpdate target (fun d => { d with services := some [] })
          (dbDevice r.1.db target))) }

/-- The method `Impl::discovery_error_found_cb` (lines 737-746): it only writes to the log. -/
def discovery_error_found_cb (env : Env) (e : Engine) (conn : Nat) (err : Int) : Engine :=
  let _ := env
  let _ := conn
  let _ := err
  e

/-- The method `ConcreteBLEReceiver::openConnection` (lines 876-1058) up to its first `return`
or to the call of `waitWithTimeout`: the engine at that point, and the value returned if the
method returns there (`none` when it goes on to wait). `success` is the value returned by
`bt_conn_le_create` and `handle` the connection it stores in `state.connection` when it
succeeds. -/
def openConnectionStart (env : Env) (e : Engine) (toTarget : TargetIdentifier) (success : Int)
    (handle : Nat) : Engine × Option Bool :=
  let e1 := findOrCreateState env e toTarget
  let tempAddress : BtAddrLe := { type := 1, val := addressBytes toTarget }
  let e2 : Engine :=
    { e1 with connectionStates :=
        (mapUpdate toTarget (fun s => { s with address := tempAddress }) e1.connectionStates) }
  let newMac := env.macData tempAddress.val
  let e3 := stopScanning e2
  let e4 : Engine := { e3 with radioCalls := e3.radioCalls ++ [RadioCall.advertiseStop] }
  match (e4.stateOf toTarget).connection with
  | none =>
    let e5 : Engine :=
      { e4 with
        connectionStates :=
          (mapUpdate toTarget
            (fun s => { s with state := BLEDeviceState.connecting, remoteInstigated := false })
            e4.connectionStates),
        radioCalls := e4.radioCalls ++ [RadioCall.connCreate tempAddress] }
    if success ≠ 0 then
      ({ e5 with
          db := (mapUpdate newMac (fun d => { d with state := BLEDeviceState.disconnected })
            (dbDevice e5.db newMac)),
          radioCalls := e5.radioCalls ++ [RadioCall.advertiseStart] }, some false)
    else
      ({ e5 with connectionStates :=
          (mapUpdate toTarget (fun s => { s with connection := some handle })
            e5.connectionStates) }, none)
  | some _ => (e4, some true)

/-- The method `Impl::gatt_discover` (lines 527-543); `err` is the value returned by
`bt_gatt_dm_start`. -/
def gatt_discover (e : Engine) (conn : Nat) (err : Int) : Engine :=
  let e1 : Engine := { e with radioCalls := e.radioCalls ++ [RadioCall.gattDmStart conn] }
  if err ≠ 0 then { e1 with radioCalls := e1.radioCalls ++ [RadioCall.connDisconnect conn] }
  else e1

/-- The method `ConcreteBLEReceiver::serviceDiscovery` (lines 1179-1212) up to the call of
`waitWithTimeout`; `currentTargetOpt` is the target of the first prerequisite of the activity
and `err` the value returned by `bt_gatt_dm_start`. -/
def serviceDiscoveryStart (env : Env) (e : Engine) (currentTargetOpt : Option TargetIdentifier)
    (err : Int) : Engine :=
  match currentTargetOpt with
  | none => e
  | some target =>
    let e1 := findOrCreateState env e target
    let state := e1.stateOf target
    if state.state ≠ BLEDeviceState.connected then e1
    else
      match state.connection with
      | none => e1
      | some conn => gatt_discover { e1 with db := dbDevice e1.db target } conn err

/-- The body of the first loop of `restartScanningAndAdvertising` (lines 1125-1163) for the state
`value`: the state, the Device Database and the radio calls afterwards. -/
def sweepEntry (ans : SweepAnswers) (value : ConnectedDeviceState) (db : BLEDatabase)
    (calls : List RadioCall) : ConnectedDeviceState × BLEDatabase × List RadioCall :=
  let looked : Option Nat :=
    if value.state = BLEDeviceState.disconnected then none else ans.lookup value.address
  match looked with
  | some conn =>
    if value.remoteInstigated then
      match ans.sinceConnected value.target with
      | some secs =>
        if 30 < secs then
          ({ value with connection := none }, dbDevice db value.target,
            calls ++ [RadioCall.connDisconnect conn])
        else ({ value with connection := some conn }, dbDevice db value.target, calls)
      | none => ({ value with connection := some conn }, dbDevice db value.target, calls)
    else ({ value with connection := some conn }, db, calls)
  | none => ({ value with connection := none }, db, calls)

/-- The first loop of `restartScanningAndAdvertising` (lines 1125-1163) over the states in key
order. -/
def sweepLoop (ans : SweepAnswers) :
    List (TargetIdentifier × ConnectedDeviceState) → BLEDatabase → List RadioCall →
      List (TargetIdentifier × ConnectedDeviceState) × BLEDatabase × List RadioCall
  | [], db, calls => ([], db, calls)
  | p :: rest, db, calls =>
    let r := sweepEntry ans p.2 db calls
    let t := sweepLoop ans rest r.2.1 r.2.2
    ((p.1, r.1) :: t.1, t.2.1, t.2.2)

/-- The second loop of `restartScanningAndAdvertising` (lines 1166-1170):
`for (iter = begin(); end() != iter; ++iter) if (NULL == iter->second.connection) erase(iter);`.
The call `erase(iter)` invalidates `iter` and the loop then evaluates `++iter`, which is
undefined behaviour: the result is `none` as soon as a state with a null handle is met, and
the map as it is when there is none. -/
def eraseLoop :
    List (TargetIdentifier × ConnectedDeviceState) →
      Option (List (TargetIdentifier × ConnectedDeviceState))
  | [] => some []
  | p :: rest =>
    if p.2.connection = none then none else (eraseLoop rest).map (fun t => p :: t)

/-- The method `ConcreteBLEReceiver::restartScanningAndAdvertising` (lines 1118-1177); `none`
when the second loop is undefined. -/
def restartScanningAndAdvertising (ans : SweepAnswers) (e : Engine) : Option Engine :=
  let swept : Option Engine :=
    if e.connectionStates.isEmpty then some e
    else
      (eraseLoop (sweepLoop ans e.connectionStates e.db e.radioCalls).1).map
        (fun m =>
          { e with
            connectionStates := m,
            db := (sweepLoop ans e.connectionStates e.db e.radioCalls).2.1,
            radioCalls := (sweepLoop ans e.connectionStates e.db e.radioCalls).2.2 })
  swept.map
    (fun e1 =>
      { startScanning e1 ans.scanStartErr with
        radioCalls :=
          ((startScanning e1 ans.scanStartErr).radioCalls ++ [RadioCall.advertiseStart]) })

end Engine

/-- The state under `key` is the one the callbacks of the connection `conn` work on. -/
def Engine.Serves (env : Env) (conn : Nat) (key : TargetIdentifier) (e : Engine) : Prop :=
  Engine.statesFindOrCreateByConnection env e.connectionStates conn false =
      (e.connectionStates, key) ∧
    ∃ s, mapFind e.connectionStates key = some s

/-- An environment for evaluations: every connection leads to the address `01:02:03:04:05:06`,
the target of an address is its six bytes, and keys are ordered as lists of numbers. -/
def testEnv : Env :=
  { dst := fun _ => { type := 1, val := [1, 2, 3, 4, 5, 6] },
    macData := fun v => v,
    lt := fun a b => decide (a < b) }

/-- The engine of a freshly constructed `ConcreteBLEReceiver`. -/
def Engine.init : Engine :=
  { connectionStates := [], isScanning := false, db := [], radioCalls := [] }

/-! ## `waitWithTimeout` and the activities that wait (`concrete_ble_receiver.cpp`) -/

/-- Subtraction of two `uint32_t` values. -/
def sub32 (a b : Nat) : Nat :=
  (a % 2 ^ 32 + 2 ^ 32 - b % 2 ^ 32) % 2 ^ 32

/-- What a call of `waitWithTimeout` leaves: the state of the program, the number of `k_sleep`
calls made, and the value returned. -/
structure WaitResult (σ : Type) where
  state : σ
  sleeps : Nat
  value : Nat
deriving DecidableEq, Repr

/-- The `while` loop of `waitWithTimeout` (lines 60-68). `k_sleep n` is what happens to the state
of the program during the `n`-th sleep (counted from 0), `k_uptime_get_32 i` is the `i`-th
reading of the clock (counted from 0), and the first argument bounds the number of turns: with
no turn left and the loop condition still true there is no result. -/
def waitLoop {σ : Type} (timeoutMillis : Nat) (k_sleep : Nat → σ → σ) (keepWaiting : σ → Bool)
    (k_uptime_get_32 : Nat → Nat) (start_time : Nat) :
    Nat → Nat → σ → Nat → Bool → Option (WaitResult σ)
  | 0, n, s, millis_spent, notComplete =>
    if millis_spent < timeoutMillis ∧ notComplete = true then none
    else some { state := s, sleeps := n, value := if notComplete then millis_spent else 0 }
  | fuel + 1, n, s, millis_spent, notComplete =>
    if millis_spent < timeoutMillis ∧ notComplete = true then
      waitLoop timeoutMillis k_sleep keepWaiting k_uptime_get_32 start_time fuel (n + 1)
        (k_sleep n s) (sub32 (k_uptime_get_32 (n + 2)) start_time) (keepWaiting (k_sleep n s))
    else some { state := s, sleeps := n, value := if notComplete then millis_spent else 0 }

/-- The function `waitWithTimeout` (lines 43-75) on the state `s`, with at most `fuel` turns of
its loop. The period of the sleep shows in the readings of the clock only. -/
def waitWithTimeout {σ : Type} (timeoutMillis : Nat) (k_sleep : Nat → σ → σ)
    (keepWaiting : σ → Bool) (k_uptime_get_32 : Nat → Nat) (fuel : Nat) (s : σ) :
    Option (WaitResult σ) :=
  if !keepWaiting s then some { state := s, sleeps := 0, value := 0 }
  else
    waitLoop timeoutMillis k_sleep keepWaiting k_uptime_get_32 (k_uptime_get_32 0 % 2 ^ 32)
      fuel 0 s (sub32 (k_uptime_get_32 1) (k_uptime_get_32 0)) true

namespace Engine

/-- The method `ConcreteBLEReceiver::openConnection` from its entry to the point where it is
about to call `bt_conn_le_create` (lines 883-985), for a state without a connection: the engine
at that point. -/
def openConnectionPrepare (env : Env) (e : Engine) (toTarget : TargetIdentifier) : Engine :=
  let e1 := findOrCreateState env e toTarget
  let tempAddress : BtAddrLe := { type := 1, val := addressBytes toTarget }
  let e2 : Engine := { e1 with connectionStates :=
    (mapUpdate toTarget (fun s => { s with address := tempAddress }) e1.connectionStates) }
  let e3 := stopScanning e2
  let e4 : Engine := { e3 with radioCalls := e3.radioCalls ++ [RadioCall.advertiseStop] }
  { e4 with connectionStates :=
    (mapUpdate toTarget
      (fun s => { s with state := BLEDeviceState.connecting, remoteInstigated := false })
      e4.connectionStates) }

/-- The method `ConcreteBLEReceiver::openConnection` (lines 876-1058): `openConnectionStart`
and then, when the connect call succeeded, the wait of lines 1042-1052 for the state of the
target to leave `connecting`. `k_sleep` is what the callbacks that run during a sleep do to the
engine. The result is the engine afterwards and the value returned. -/
def openConnection (env : Env) (e : Engine) (toTarget : TargetIdentifier) (success : Int)
    (handle : Nat) (k_sleep : Nat → Engine → Engine) (k_uptime_get_32 : Nat → Nat)
    (fuel : Nat) : Option (Engine × Bool) :=
  match openConnectionStart env e toTarget success handle with
  | (e1, some r) => some (e1, r)
  | (e1, none) =>
    (waitWithTimeout 5000 k_sleep
        (fun x => decide ((x.stateOf toTarget).state = BLEDeviceState.connecting))
        k_uptime_get_32 fuel e1).map
      (fun w => if w.value ≠ 0 then (w.state, false)
        else (w.state, decide ((w.state.stateOf toTarget).state = BLEDeviceState.connected)))

/-- Modelled from the spec: `BLEDevice::hasServicesSet` for the record of `target`. -/
def hasServicesSet (e : Engine) (target : TargetIdentifier) : Bool :=
  ((mapFind e.db target).bind (fun d => d.services)).isSome

/-- The method `ConcreteBLEReceiver::serviceDiscovery` (lines 1179-1212): `serviceDiscoveryStart`
and then, when discovery was started, the wait of lines 1202-1204 for the services of the
Device Record to be set. The value returned is the empty optional on every path; the result is
the engine afterwards. -/
def serviceDiscovery (env : Env) (e : Engine) (currentTargetOpt : Option TargetIdentifier)
    (err : Int) (k_sleep : Nat → Engine → Engine) (k_uptime_get_32 : Nat → Nat) (fuel : Nat) :
    Option Engine :=
  match currentTargetOpt with
  | none => some e
  | some target =>
    let e1 := findOrCreateState env e target
    if (e1.stateOf target).state ≠ BLEDeviceState.connected then some e1
    else
      match (e1.stateOf target).connection with
      | none => some e1
      | some _ =>
        (waitWithTimeout 5000 k_sleep (fun x => !hasServicesSet x target) k_uptime_get_32 fuel
          (serviceDiscoveryStart env e currentTargetOpt err)).map (fun w => w.state)

end Engine

/-! ## `BluetoothUUID` (`ble.cpp`) -/

/-- The enum `BluetoothUUIDSize`. -/
inductive BluetoothUUIDSize where
  | EMPTY
  | SHORT_16
  | MEDIUM_32
  | LONG_64
  | FULL_128
deriving DecidableEq, Repr

/-- The class `BluetoothUUID`: its members `m_size` and `m_data`. -/
structure BluetoothUUID where
  m_size : BluetoothUUIDSize
  m_data : Data
deriving DecidableEq, Repr

namespace BluetoothUUID

/-- The assignments to `m_size` in the body of both sizing constructors (lines 100-113 and
120-133), from the initial value `EMPTY`. -/
def classify (sz : Nat) : BluetoothUUIDSize :=
  let m0 := BluetoothUUIDSize.EMPTY
  let m1 := if sz < 2 then BluetoothUUIDSize.EMPTY else m0
  let m2 := if sz < 4 then BluetoothUUIDSize.SHORT_16 else m1
  let m3 := if sz < 8 then BluetoothUUIDSize.MEDIUM_32 else m2
  let m4 := if sz < 16 then BluetoothUUIDSize.LONG_64 else m3
  let _ := m4
  BluetoothUUIDSize.FULL_128

/-- The constructor `BluetoothUUID()` (lines 90-95). -/
def default : BluetoothUUID :=
  { m_size := BluetoothUUIDSize.EMPTY, m_data := [] }

/-- The constructor `BluetoothUUID(Data&& from)` (lines 97-114). -/
def ofData (src : Data) : BluetoothUUID :=
  { m_size := classify src.length, m_data := src }

/-- The constructor `BluetoothUUID(const std::size_t sz)` (lines 116-134); `Data(sz)` is `sz`
zero bytes. -/
def ofSize (sz : Nat) : BluetoothUUID :=
  { m_size := classify sz, m_data := List.replicate sz 0 }

/-- The conversion `operator std::size_t` (lines 136-151). -/
def toSizeT (u : BluetoothUUID) : Nat :=
  match u.m_size with
  | BluetoothUUIDSize.SHORT_16 => 2
  | BluetoothUUIDSize.MEDIUM_32 => 4
  | BluetoothUUIDSize.LONG_64 => 8
  | BluetoothUUIDSize.FULL_128 => 16
  | BluetoothUUIDSize.EMPTY => 0

/-- The method `BluetoothUUID::size` (lines 153-157). -/
def size (u : BluetoothUUID) : BluetoothUUIDSize :=
  u.m_size

end BluetoothUUID

/-! ## `BLECharacteristicType`, `BLECharacteristic` and `BLEService` (`ble.cpp`) -/

/-- The enum `BLECharacteristicTypeValue`. -/
inductive BLECharacteristicTypeValue where
  | READ
  | WRITE_WITHOUT_ACK
  | WRITE_WITH_ACK
  | NOTIFY
deriving DecidableEq, Repr

/-- The class `BLECharacteristicType`: the bits 0 to 3 of its member `m_type`, a `std::bitset`. -/
structure BLECharacteristicType where
  bit0 : Bool
  bit1 : Bool
  bit2 : Bool
  bit3 : Bool
deriving DecidableEq, Repr

namespace BLECharacteristicType

/-- The call `m_type.set(i, true)`. -/
def set (t : BLECharacteristicType) (i : Nat) : BLECharacteristicType :=
  match i with
  | 0 => { t with bit0 := true }
  | 1 => { t with bit1 := true }
  | 2 => { t with bit2 := true }
  | 3 => { t with bit3 := true }
  | _ => t

/-- The call `m_type.test(i)`. -/
def test (t : BLECharacteristicType) (i : Nat) : Bool :=
  match i with
  | 0 => t.bit0
  | 1 => t.bit1
  | 2 => t.bit2
  | 3 => t.bit3
  | _ => false

/-- The constructor `BLECharacteristicType()` (lines 12-16): an empty bitset with bit 0 set. -/
def default : BLECharacteristicType :=
  set { bit0 := false, bit1 := false, bit2 := false, bit3 := false } 0

/-- The operator `|=` with a `BLECharacteristicTypeValue` (lines 24-43). -/
def orValue (toUpdate : BLECharacteristicType) (src : BLECharacteristicTypeValue) :
    BLECharacteristicType :=
  match src with
  | BLECharacteristicTypeValue.WRITE_WITHOUT_ACK => toUpdate.set 1
  | BLECharacteristicTypeValue.WRITE_WITH_ACK => toUpdate.set 2
  | BLECharacteristicTypeValue.NOTIFY => toUpdate.set 3
  | BLECharacteristicTypeValue.READ => toUpdate.set 0

/-- The operator `|=` with a `BLECharacteristicType` (lines 45-50): `m_type |= from.m_type`. -/
def orType (toUpdate src : BLECharacteristicType) : BLECharacteristicType :=
  { bit0 := toUpdate.bit0 || src.bit0, bit1 := toUpdate.bit1 || src.bit1,
    bit2 := toUpdate.bit2 || src.bit2, bit3 := toUpdate.bit3 || src.bit3 }

/-- The operator `==` with a `BLECharacteristicTypeValue` (lines 52-67). -/
def eqValue (t : BLECharacteristicType) (value : BLECharacteristicTypeValue) : Bool :=
  match value with
  | BLECharacteristicTypeValue.WRITE_WITHOUT_ACK => t.test 1
  | BLECharacteristicTypeValue.WRITE_WITH_ACK => t.test 2
  | BLECharacteristicTypeValue.NOTIFY => t.test 3
  | BLECharacteristicTypeValue.READ => t.test 0

/-- The operator `!=` with a `BLECharacteristicTypeValue` (lines 69-73). -/
def neValue (t : BLECharacteristicType) (value : BLECharacteristicTypeValue) : Bool :=
  !(t.eqValue value)

/-- The operator `==` with a `BLECharacteristicType` (lines 75-79). -/
def eq (t other : BLECharacteristicType) : Bool :=
  decide (t = other)

/-- The operator `!=` with a `BLECharacteristicType` (lines 81-85). -/
def ne (t other : BLECharacteristicType) : Bool :=
  decide (t ≠ other)

end BLECharacteristicType

namespace BluetoothUUID

/-- The operator `==` of `BluetoothUUID` (lines 165-169). -/
def eq (u other : BluetoothUUID) : Bool :=
  decide (u.m_size = other.m_size) && decide (u.m_data = other.m_data)

/-- The operator `!=` of `BluetoothUUID` (lines 171-175). -/
def ne (u other : BluetoothUUID) : Bool :=
  decide (u.m_size ≠ other.m_size) || decide (u.m_data ≠ other.m_data)

end BluetoothUUID

/-- The class `BLECharacteristic`: its members `uuid`, `type` and `callbacks`; a value of the
type `BLECallbacks`, which these sources do not define, is given by a number. -/
structure BLECharacteristic where
  uuid : BluetoothUUID
  type : BLECharacteristicType
  callbacks : Nat
deriving DecidableEq, Repr

namespace BLECharacteristic

/-- The operator `==` with a `BLECharacteristic` (lines 236-241). -/
def eq (c other : BLECharacteristic) : Bool :=
  c.uuid.eq other.uuid

/-- The operator `!=` with a `BLECharacteristic` (lines 243-248). -/
def ne (c other : BLECharacteristic) : Bool :=
  c.uuid.ne other.uuid

/-- The operator `==` with a `BluetoothUUID` (lines 250-254). -/
def eqUUID (c : BLECharacteristic) (id : BluetoothUUID) : Bool :=
  c.uuid.eq id

/-- The operator `!=` with a `BluetoothUUID` (lines 256-260), whose body is
`return uuid == id;`. -/
def neUUID (c : BLECharacteristic) (id : BluetoothUUID) : Bool :=
  c.uuid.eq id

/-- The operator `|=` with a `BLECharacteristic` (lines 275-280). -/
def orCharacteristic (toUpdate toMerge : BLECharacteristic) : BLECharacteristic :=
  { toUpdate with type := toUpdate.type.orType toMerge.type }

end BLECharacteristic

/-- The class `BLEService`: its members `uuid` and `characteristics`. The container
`BLECharacteristicList` is not defined in these sources; it is a list in the order of
iteration, and `add` appends. -/
structure BLEService where
  uuid : BluetoothUUID
  characteristics : List BLECharacteristic
deriving DecidableEq, Repr

namespace BLEService

/-- The inner loop of `operator|=(BLEService&, const BLEService&)` (lines 381-387) for the
characteristic `ch`, from the value of `found` given: the characteristics of `toUpdate`
afterwards and `found`. -/
def mergeMatching (ch : BLECharacteristic) :
    List BLECharacteristic → Bool → List BLECharacteristic × Bool
  | [], found => ([], found)
  | mych :: rest, found =>
    if mych.eq ch then
      ((mych.orCharacteristic ch) :: (mergeMatching ch rest true).1,
        (mergeMatching ch rest true).2)
    else
      (mych :: (mergeMatching ch rest found).1, (mergeMatching ch rest found).2)

/-- One turn of the outer loop of `operator|=(BLEService&, const BLEService&)` (lines 379-391):
the characteristics of `toUpdate` afterwards. -/
def mergeStep (chars : List BLECharacteristic) (ch : BLECharacteristic) :
    List BLECharacteristic :=
  if !(mergeMatching ch chars false).2 then (mergeMatching ch chars false).1 ++ [ch]
  else (mergeMatching ch chars false).1

/-- The operator `|=` of a `BLEService` with a `BLEService` (lines 375-393). -/
def orService (toUpdate toMerge : BLEService) : BLEService :=
  { toUpdate with
    characteristics := toMerge.characteristics.foldl mergeStep toUpdate.characteristics }

/-- The loop of `operator|=(BLEService&, const BLECharacteristic&)` (lines 398-403): the
characteristics afterwards when the loop returns from the function, `none` when it ends
without a match. -/
def mergeFirst (toMerge : BLECharacteristic) :
    List BLECharacteristic → Option (List BLECharacteristic)
  | [] => none
  | mych :: rest =>
    if mych.eq toMerge then some ((mych.orCharacteristic toMerge) :: rest)
    else (mergeFirst toMerge rest).map (fun t => mych :: t)

/-- The operator `|=` of a `BLEService` with a `BLECharacteristic` (lines 395-406). -/
def orCharacteristic (toUpdate : BLEService) (toMerge : BLECharacteristic) : BLEService :=
  match mergeFirst toMerge toUpdate.characteristics with
  | some cs => { toUpdate with characteristics := cs }
  | none => { toUpdate with characteristics := toUpdate.characteristics ++ [toMerge] }

end BLEService

/-! ## `scan_cb` (`concrete_ble_receiver.cpp`) -/

/-- The method `Impl::scan_cb` (lines 498-525). `device db mac advert` is what the call
`db->device(bleMacAddress, advert)` of the Device Database, which is outside these sources,
makes of the database, with the identifier of the record it returns. -/
def Engine.scan_cb (env : Env)
    (device : BLEDatabase → TargetIdentifier → Data → BLEDatabase × TargetIdentifier)
    (e : Engine) (addr : BtAddrLe) (rssi : Int) (adv_type : Nat) (buf : Data) : Engine :=
  let _ := adv_type
  let bleMacAddress := env.macData addr.val
  let advert := buf
  let r := device e.db bleMacAddress advert
  if ((mapFind r.1 r.2).getD BLEDevice.new).ignore then { e with db := r.1 }
  else { e with db := mapUpdate r.2 (fun d => { d with rssi := some rssi }) r.1 }

/-- Modelled from the spec: the get-or-create of section 4.2 by MAC address, for an
advertisement without a pseudo-address. -/
def deviceByMac (db : BLEDatabase) (mac : TargetIdentifier) (advert : Data) :
    BLEDatabase × TargetIdentifier :=
  let _ := advert
  (dbDevice db mac, mac)

/-! ## The constructors of `Sample` (`sampling.h`, lines 27-43) -/

namespace Sample

/-- The constructor `Sample(Date sampled, ValT v)` (line 28). A `Date` is given by its
`secondsSinceUnixEpoch()`, and `Date{n}` is the date of `n` seconds. -/
def construct {ValT : Type} (sampled : Nat) (v : ValT) : Sample ValT :=
  { taken := sampled, value := v }

/-- The copy constructor `Sample(const Sample& other)` (line 29). -/
def copy {ValT : Type} (other : Sample ValT) : Sample ValT :=
  { taken := other.taken, value := other.value }

/-- The copy assignment `operator=(const Sample& other)` (lines 39-43) on the sample `self`. -/
def assign {ValT : Type} (self other : Sample ValT) : Sample ValT :=
  { self with taken := other.taken, value := other.value }

end Sample

/-- The hexadecimal digit of a number below 16, in upper case. -/
def hexDigit (n : Nat) : Char :=
  match n with
  | 0 => '0' | 1 => '1' | 2 => '2' | 3 => '3' | 4 => '4' | 5 => '5' | 6 => '6' | 7 => '7'
  | 8 => '8' | 9 => '9' | 10 => 'A' | 11 => 'B' | 12 => 'C' | 13 => 'D' | 14 => 'E'
  | _ => 'F'

/-- The two hexadecimal digits of each byte of the list. -/
def hexBytes (bytes : List Nat) : List Char :=
  bytes.flatMap (fun b => [hexDigit (b / 16 % 16), hexDigit (b % 16)])

/-- The text of a UUID given by its bytes, most significant first: the hexadecimal digits in
the groups 8-4-4-4-12. -/
def uuidText (bytes : List Nat) : List Char :=
  hexBytes (bytes.take 4) ++ '-' :: hexBytes ((bytes.drop 4).take 2) ++
    '-' :: hexBytes ((bytes.drop 6).take 2) ++ '-' :: hexBytes ((bytes.drop 8).take 2) ++
    '-' :: hexBytes (bytes.drop 10)

/-! ## Helpers of the statements about discovery and the sweep -/

/-- The operating system that the last signal characteristic of a list stands for: `android`
for the Android signal characteristic, `ios` for the iOS one; `none` when the list holds no
signal characteristic. -/
def lastSignal (chars : List GattChrc) : Option BLEDeviceOperatingSystem :=
  (chars.reverse.find?
      (fun c => decide (c.uuid = herald_char_signal_android_uuid ∨
        c.uuid = herald_char_signal_ios_uuid))).map
    (fun c => if c.uuid = herald_char_signal_android_uuid then BLEDeviceOperatingSystem.android
      else BLEDeviceOperatingSystem.ios)

/-- The radio's answers when it holds no connection at all and scanning starts. -/
def noLiveConnection : SweepAnswers :=
  { lookup := fun _ => none, sinceConnected := fun _ => none, scanStartErr := 0 }

/-- The radio's answers when connection 7 is live for every address and the Device Record has
been connected for `secs` seconds. -/
def liveFor (secs : Nat) : SweepAnswers :=
  { lookup := fun _ => some 7, sinceConnected := fun _ => some secs, scanStartErr := 0 }

/-- Whether a radio call is `bt_conn_le_create`. -/
def RadioCall.isConnCreate : RadioCall → Bool
  | RadioCall.connCreate _ => true
  | _ => false

/-- The engine in which the peer `01:02:03:04:05:06` is connected under the handle 7 and
discovery has found the payload characteristic, so that a read of the payload is under way. -/
def readStarted : Engine :=
  Engine.discovery_completed_cb testEnv (Engine.connected testEnv Engine.init 7 0)
    { conn := 7, chars := [{ uuid := herald_char_payload_uuid, value_handle := 3 }] }

/-- The flags of `a` are among the flags of `b`: every `BLECharacteristicTypeValue` that `a`
compares equal to, `b` compares equal to. -/
def flagsIncluded (a b : BLECharacteristicType) : Prop :=
  ∀ w, a.eqValue w = true → b.eqValue w = true

/-- A characteristic with a 16-bit UUID, for evaluations. -/
def sampleCharacteristic (lo : Nat) (t : BLECharacteristicType) : BLECharacteristic :=
  { uuid := BluetoothUUID.ofData [0x2A, lo], type := t, callbacks := 0 }

/-- A service with the UUID `180F` and the characteristics given, for evaluations. -/
def sampleService (chars : List BLECharacteristic) : BLEService :=
  { uuid := BluetoothUUID.ofData [0x18, 0x0F], characteristics := chars }

/-- Every characteristic of `l1` has in `l2` a characteristic with its UUID and at least its
flags. -/
def Covers (l2 l1 : List BLECharacteristic) : Prop :=
  ∀ c ∈ l1, ∃ m ∈ l2, m.uuid = c.uuid ∧ flagsIncluded c.type m.type

/-- An engine whose Device Database holds the record of `01:02:03:04:05:06`, ignored and
without an RSSI reading. -/
def ignoredPeer : Engine :=
  { Engine.init with db := [([1, 2, 3, 4, 5, 6], { BLEDevice.new with ignore := true })] }

/-! # Theorems

## Arithmetic of `std::size_t` -/

theorem wrap_of_lt {x : Nat} (h : x < 2 ^ 64) : wrap x = x := Nat.mod_eq_of_lt h

theorem wsub_of_le {a b : Nat} (h : b ≤ a) (ha : a < 2 ^ 64) : wsub a b = a - b := by
  unfold wsub; omega

theorem wsub_one_eq_iff {o n : Nat} (ho : o < 2 ^ 64) (hn : n < 2 ^ 64 - 1) :
    n = wsub o 1 ↔ n + 1 = o := by
  unfold wsub; omega

namespace SampleList

variable {ValT : Type}

/-! ## Normal forms of the list operations on lists that satisfy the invariant -/

/-- `push` on a non-empty list, without modular arithmetic. -/
theorem push_nf {N : Nat} (hN : N ≤ PTRDIFF_MAX) (d : List (Sample ValT)) (o n : Nat)
    (hd : d.length = N) (ho : o < N) (hn : n < N) (t : Nat) (v : ValT) :
    push ⟨d, o, n⟩ t v =
      ⟨d.set (if n + 1 = N then 0 else n + 1) ⟨t, v⟩,
        if n + 1 = N then (if o = 0 then 1 else o)
        else (if n + 1 = o then (if o + 1 = N then 0 else o + 1) else o),
        if n + 1 = N then 0 else n + 1⟩ := by
  unfold PTRDIFF_MAX at hN
  have h1 : ¬ SIZE_MAX = n := by unfold SIZE_MAX; omega
  have h2 : wrap (n + 1) = n + 1 := wrap_of_lt (by omega)
  have h3 : wrap (o + 1) = o + 1 := wrap_of_lt (by omega)
  have h4 : (n = wsub o 1) = (n + 1 = o) := propext (wsub_one_eq_iff (by omega) (by omega))
  simp only [push, if_neg h1, h2, h3, h4, hd]
  by_cases ha : n + 1 = N
  · by_cases hb : n + 1 = o
    · omega
    · simp only [if_pos ha, if_neg hb]
      by_cases hc : o = 0
      · subst hc; simp [wrap]
      · have : ¬ 0 = o := fun h => hc h.symm
        simp only [if_neg hc, if_neg this]
  · simp only [if_neg ha]

/-- `size` of a non-empty list, without modular arithmetic. -/
theorem size_nf {N : Nat} (hN : N ≤ PTRDIFF_MAX) (d : List (Sample ValT)) (o n : Nat)
    (hd : d.length = N) (ho : o < N) (hn : n < N) :
    size ⟨d, o, n⟩ = if o ≤ n then n - o + 1 else 1 + n + (N - o) := by
  unfold PTRDIFF_MAX at hN
  have h1 : ¬ n = SIZE_MAX := by unfold SIZE_MAX; omega
  simp only [size, if_neg h1, hd, ge_iff_le]
  by_cases h : o ≤ n
  · rw [if_pos h, if_pos h, wsub_of_le h (by omega), wrap_of_lt (by omega)]
  · have e1 : wrap (1 + n) = 1 + n := wrap_of_lt (by omega)
    have e2 : wsub N o = N - o := wsub_of_le (by omega) (by omega)
    rw [if_neg h, if_neg h, e1, e2, wrap_of_lt (by omega)]

/-- `slot` of a non-empty list, without modular arithmetic. -/
theorem slot_nf {N : Nat} (hN : N ≤ PTRDIFF_MAX) (d : List (Sample ValT)) (o n : Nat)
    (hd : d.length = N) (ho : o < N) (i : Nat) (hi : i ≤ N) :
    slot ⟨d, o, n⟩ i = if o ≤ n then i + o else if N ≤ i + o then i + o - N else i + o := by
  unfold PTRDIFF_MAX at hN
  have h2 : wrap (i + o) = i + o := wrap_of_lt (by omega)
  simp only [slot, hd, ge_iff_le, h2]
  by_cases h : N ≤ i + o
  · rw [if_pos h, if_pos h, wsub_of_le h (by omega)]
  · rw [if_neg h, if_neg h]

theorem size_empty (d : List (Sample ValT)) : size (⟨d, SIZE_MAX, SIZE_MAX⟩ : SampleList ValT) = 0 := by
  simp [size]

theorem push_empty (d : List (Sample ValT)) (hd : d.length ≠ 0) (t : Nat) (v : ValT) :
    push ⟨d, SIZE_MAX, SIZE_MAX⟩ t v = ⟨d.set 0 ⟨t, v⟩, 0, 0⟩ := by
  have : ¬ 0 = d.length := fun h => hd h.symm
  simp [push, this]

theorem push_nonfull {N : Nat} (hN : N ≤ PTRDIFF_MAX) {sl : SampleList ValT}
    (hv : Valid N sl) (hs : sl.size < N) (t : Nat) (v : ValT) :
    Valid N (sl.push t v) ∧ (sl.push t v).size = sl.size + 1 ∧
      (∀ i, i < sl.size → (sl.push t v).get i = sl.get i) ∧
      (sl.push t v).get sl.size = some ⟨t, v⟩ := by
  obtain ⟨d, o, n⟩ := sl
  obtain ⟨hlen, h⟩ := hv
  simp only at hlen h
  have hlen2 : ∀ k x, (d.set k x).length = N := fun k x => by rw [List.length_set, hlen]
  rcases h with ⟨h1, h2⟩ | ⟨ho, hn⟩
  · subst h1 h2
    rw [size_empty] at hs ⊢
    rw [push_empty d (by omega)]
    refine ⟨⟨hlen2 _ _, Or.inr ⟨hs, hs⟩⟩, ?_, fun i hi => absurd hi (Nat.not_lt_zero i), ?_⟩
    · rw [size_nf hN _ 0 0 (hlen2 _ _) hs hs]; simp
    · simp only [SampleList.get]
      rw [slot_nf hN _ 0 0 (hlen2 _ _) hs 0 (Nat.zero_le N), List.getElem?_set]
      simp only [Nat.le_refl, if_true, Nat.add_zero]
      rw [if_pos (by omega)]
  · have hsz := size_nf hN d o n hlen ho hn
    have hp := push_nf hN d o n hlen ho hn t v
    rw [hsz] at hs
    split_ifs at hp hs hsz
    all_goals try omega
    all_goals
      rw [hp, hsz]
      refine ⟨⟨hlen2 _ _, Or.inr ⟨by dsimp only; omega, by dsimp only; omega⟩⟩, ?_, ?_, ?_⟩
      · rw [size_nf hN _ _ _ (hlen2 _ _) (by omega) (by omega)]
        split_ifs <;> omega
      · intro i hi
        simp only [SampleList.get]
        rw [slot_nf hN _ _ _ (hlen2 _ _) (by omega) i (by omega),
          slot_nf hN _ _ _ hlen ho i (by omega), List.getElem?_set]
        split_ifs <;> first | rfl | omega
      · simp only [SampleList.get]
        rw [slot_nf hN _ _ _ (hlen2 _ _) (by omega) _ (by omega), List.getElem?_set]
        split_ifs <;> first | rfl | omega

theorem push_full {N : Nat} (h2 : 2 ≤ N) (hN : N ≤ PTRDIFF_MAX) {sl : SampleList ValT}
    (hv : Valid N sl) (hs : sl.size = N) (t : Nat) (v : ValT) :
    Valid N (sl.push t v) ∧ (sl.push t v).size = N ∧
      (∀ i, i + 1 < N → (sl.push t v).get i = sl.get (i + 1)) ∧
      (sl.push t v).get (N - 1) = some ⟨t, v⟩ := by
  obtain ⟨d, o, n⟩ := sl
  obtain ⟨hlen, h⟩ := hv
  simp only at hlen h
  have hlen2 : ∀ k x, (d.set k x).length = N := fun k x => by rw [List.length_set, hlen]
  rcases h with ⟨h1, h2⟩ | ⟨ho, hn⟩
  · subst h1 h2
    rw [size_empty] at hs
    omega
  · have hp := push_nf hN d o n hlen ho hn t v
    rw [size_nf hN d o n hlen ho hn] at hs
    split_ifs at hp hs
    all_goals try omega
    all_goals
      rw [hp]
      refine ⟨⟨hlen2 _ _, Or.inr ⟨by dsimp only; omega, by dsimp only; omega⟩⟩, ?_, ?_, ?_⟩
      · rw [size_nf hN _ _ _ (hlen2 _ _) (by omega) (by omega)]
        split_ifs <;> omega
      · intro i hi
        simp only [SampleList.get]
        rw [slot_nf hN _ _ _ (hlen2 _ _) (by omega) i (by omega),
          slot_nf hN _ _ _ hlen ho (i + 1) (by omega), List.getElem?_set]
        split_ifs <;> first | rfl | omega | (congr 1; omega) | (exfalso; assumption)
      · simp only [SampleList.get]
        rw [slot_nf hN _ _ _ (hlen2 _ _) (by omega) _ (by omega), List.getElem?_set]
        split_ifs <;> first | rfl | omega

/-- The list with its oldest position moved on by one slot, as in the loop of
`clearBeforeDate`. -/
theorem advance_spec {N : Nat} (hN : N ≤ PTRDIFF_MAX) (d : List (Sample ValT)) (o n : Nat)
    (hd : d.length = N) (ho : o < N) (hn : n < N) (hne : o ≠ n) :
    ∃ o2, (if d.length = wrap (o + 1) then 0 else wrap (o + 1)) = o2 ∧ o2 < N ∧
      size ⟨d, o2, n⟩ + 1 = size ⟨d, o, n⟩ ∧
      SampleList.get ⟨d, o, n⟩ 0 = d[o]? ∧
      ∀ i, i < size ⟨d, o2, n⟩ → SampleList.get ⟨d, o2, n⟩ i = SampleList.get ⟨d, o, n⟩ (i + 1) := by
  have hw : wrap (o + 1) = o + 1 := wrap_of_lt (by unfold PTRDIFF_MAX at hN; omega)
  rw [hw, hd]
  refine ⟨_, rfl, ?_⟩
  have ho2 : (if N = o + 1 then 0 else o + 1) < N := by split_ifs <;> omega
  refine ⟨ho2, ?_, ?_, ?_⟩
  · rw [size_nf hN _ _ _ hd ho2 hn, size_nf hN _ _ _ hd ho hn]
    split_ifs <;> omega
  · simp only [SampleList.get]
    rw [slot_nf hN _ _ _ hd ho 0 (by omega)]
    split_ifs <;> (congr 1; omega)
  · intro i hi
    rw [size_nf hN _ _ _ hd ho2 hn] at hi
    simp only [SampleList.get]
    rw [slot_nf hN _ _ _ hd ho2 i (by split_ifs at hi <;> omega),
      slot_nf hN _ _ _ hd ho (i + 1) (by split_ifs at hi <;> omega)]
    split_ifs at hi ⊢ <;> (congr 1; omega)

theorem contents_empty (d : List (Sample ValT)) :
    contents (⟨d, SIZE_MAX, SIZE_MAX⟩ : SampleList ValT) = [] := by
  simp [contents, size_empty]

theorem contents_single {N : Nat} (hN : N ≤ PTRDIFF_MAX) (d : List (Sample ValT)) (o : Nat)
    (hd : d.length = N) (ho : o < N) :
    contents ⟨d, o, o⟩ = [d[o]?] := by
  have h1 : size ⟨d, o, o⟩ = 1 := by rw [size_nf hN _ _ _ hd ho ho]; simp
  have h2 : SampleList.get ⟨d, o, o⟩ 0 = d[o]? := by
    simp only [SampleList.get]
    rw [slot_nf hN _ _ _ hd ho 0 (by omega)]
    simp
  simp [contents, h1, h2, List.range_succ]

theorem contents_cons {N : Nat} (hN : N ≤ PTRDIFF_MAX) (d : List (Sample ValT)) (o n : Nat)
    (hd : d.length = N) (ho : o < N) (hn : n < N) (hne : o ≠ n) :
    contents ⟨d, o, n⟩ =
      d[o]? :: contents ⟨d, if d.length = wrap (o + 1) then 0 else wrap (o + 1), n⟩ := by
  obtain ⟨o2, e, _, hsz, h0, hi⟩ := advance_spec hN d o n hd ho hn hne
  rw [e]
  simp only [contents]
  rw [← hsz, List.range_succ_eq_map, List.map_cons, h0, List.map_map]
  congr 1
  apply List.map_congr_left
  intro i hi2
  rw [List.mem_range] at hi2
  exact (hi i hi2).symm

theorem size_pos_nf {N : Nat} (hN : N ≤ PTRDIFF_MAX) (d : List (Sample ValT)) (o n : Nat)
    (hd : d.length = N) (ho : o < N) (hn : n < N) : 0 < size ⟨d, o, n⟩ := by
  rw [size_nf hN _ _ _ hd ho hn]; split_ifs <;> omega

theorem clearLoop_spec {N : Nat} (hN : N ≤ PTRDIFF_MAX) (t : Nat) :
    ∀ (fuel : Nat) (d : List (Sample ValT)) (o n : Nat), d.length = N → o < N → n < N →
      size ⟨d, o, n⟩ ≤ fuel →
      ∃ s2, clearLoop fuel ⟨d, o, n⟩ t = some s2 ∧ Valid N s2 ∧ s2.data = d ∧
        contents s2 = (contents ⟨d, o, n⟩).dropWhile (olderThan t) := by
  intro fuel
  induction fuel with
  | zero =>
    intro d o n hd ho hn hsz
    have := size_pos_nf hN d o n hd ho hn
    omega
  | succ fuel ih =>
    intro d o n hd ho hn hsz
    have hread : d[o]? = some d[o] := List.getElem?_eq_getElem (by omega)
    by_cases hne : o = n
    · subst hne
      rw [contents_single hN d o hd ho, hread]
      simp only [clearLoop, ne_eq, not_true_eq_false, if_false, hread]
      by_cases hlt : d[o].taken < t
      · refine ⟨_, by rw [if_pos hlt], ⟨hd, Or.inl ⟨rfl, rfl⟩⟩, rfl, ?_⟩
        rw [contents_empty]
        simp [olderThan, hlt]
      · refine ⟨_, by rw [if_neg hlt], ⟨hd, Or.inr ⟨ho, hn⟩⟩, rfl, ?_⟩
        rw [contents_single hN d o hd ho, hread]
        simp [olderThan, hlt]
    · rw [contents_cons hN d o n hd ho hn hne, hread]
      obtain ⟨o2, e, ho2, hsz2, _, _⟩ := advance_spec hN d o n hd ho hn hne
      simp only [clearLoop, ne_eq, hne, not_false_eq_true, if_true, hread]
      by_cases hlt : d[o].taken < t
      · rw [if_pos hlt, e]
        obtain ⟨s2, h1, h2, h3, h4⟩ := ih d o2 n hd ho2 hn (by omega)
        refine ⟨s2, h1, h2, h3, ?_⟩
        rw [h4]
        simp [olderThan, hlt]
      · rw [if_neg hlt]
        refine ⟨_, rfl, ⟨hd, Or.inr ⟨ho, hn⟩⟩, rfl, ?_⟩
        rw [contents_cons hN d o n hd ho hn hne, hread]
        simp [olderThan, hlt]

theorem clearBeforeDate_spec {N : Nat} (hN : N ≤ PTRDIFF_MAX) {sl : SampleList ValT}
    (hv : Valid N sl) (t : Nat) :
    ∃ s2, sl.clearBeforeDate t = some s2 ∧ Valid N s2 ∧ s2.data = sl.data ∧
      contents s2 = (contents sl).dropWhile (olderThan t) := by
  obtain ⟨d, o, n⟩ := sl
  obtain ⟨hlen, h⟩ := hv
  simp only at hlen h
  rcases h with ⟨h1, h2⟩ | ⟨ho, hn⟩
  · subst h1 h2
    refine ⟨_, by simp [clearBeforeDate, clearBeforeDateFuel], ⟨hlen, Or.inl ⟨rfl, rfl⟩⟩, rfl, ?_⟩
    rw [contents_empty]; rfl
  · have hne : ¬ SIZE_MAX = o := by unfold SIZE_MAX PTRDIFF_MAX at *; omega
    simp only [clearBeforeDate, clearBeforeDateFuel, if_neg hne]
    have hsz : size ⟨d, o, n⟩ ≤ d.length := by
      rw [size_nf hN _ _ _ hlen ho hn]; split_ifs <;> omega
    exact clearLoop_spec hN t d.length d o n hlen ho hn hsz

/-! ## Contents of reachable lists -/

theorem length_contents (sl : SampleList ValT) : sl.contents.length = sl.size := by
  simp [contents]

theorem size_le_of_valid {N : Nat} (hN : N ≤ PTRDIFF_MAX) {sl : SampleList ValT}
    (hv : Valid N sl) : sl.size ≤ N := by
  obtain ⟨d, o, n⟩ := sl
  obtain ⟨hlen, h⟩ := hv
  simp only at hlen h
  rcases h with ⟨h1, h2⟩ | ⟨ho, hn⟩
  · subst h1 h2; rw [size_empty]; omega
  · rw [size_nf hN _ _ _ hlen ho hn]; split_ifs <;> omega

theorem get_isSome_of_valid {N : Nat} (hN : N ≤ PTRDIFF_MAX) {sl : SampleList ValT}
    (hv : Valid N sl) {i : Nat} (hi : i < sl.size) : ∃ x, sl.get i = some x := by
  obtain ⟨d, o, n⟩ := sl
  obtain ⟨hlen, h⟩ := hv
  simp only at hlen h
  rcases h with ⟨h1, h2⟩ | ⟨ho, hn⟩
  · subst h1 h2; rw [size_empty] at hi; omega
  · rw [size_nf hN _ _ _ hlen ho hn] at hi
    simp only [SampleList.get]
    rw [slot_nf hN _ _ _ hlen ho i (by split_ifs at hi <;> omega)]
    refine ⟨_, List.getElem?_eq_getElem ?_⟩
    split_ifs at hi ⊢ <;> omega

theorem exists_map_some {α : Type} :
    ∀ l : List (Option α), (∀ x ∈ l, ∃ y, x = some y) → ∃ L : List α, l = L.map some
  | [], _ => ⟨[], rfl⟩
  | x :: l, h => by
    obtain ⟨y, hy⟩ := h x (List.mem_cons_self x l)
    obtain ⟨L, hL⟩ := exists_map_some l (fun z hz => h z (List.mem_cons_of_mem x hz))
    exact ⟨y :: L, by rw [hy, hL]; rfl⟩

/-- Every entry of the contents of a list that satisfies the invariant is a stored sample. -/
theorem contents_defined {N : Nat} (hN : N ≤ PTRDIFF_MAX) {sl : SampleList ValT}
    (hv : Valid N sl) : ∃ L : List (Sample ValT), sl.contents = L.map some := by
  apply exists_map_some
  intro x hx
  simp only [contents, List.mem_map, List.mem_range] at hx
  obtain ⟨i, hi, rfl⟩ := hx
  exact get_isSome_of_valid hN hv hi

theorem contents_push_nonfull {N : Nat} (hN : N ≤ PTRDIFF_MAX) {sl : SampleList ValT}
    (hv : Valid N sl) (hs : sl.size < N) (t : Nat) (v : ValT) :
    (sl.push t v).contents = sl.contents ++ [some ⟨t, v⟩] := by
  obtain ⟨_, hsz, hold, hnew⟩ := push_nonfull hN hv hs t v
  simp only [contents]
  rw [hsz, List.range_succ, List.map_append, List.map_singleton, hnew]
  congr 1
  apply List.map_congr_left
  intro i hi
  exact hold i (List.mem_range.mp hi)

theorem contents_push_full {N : Nat} (h2 : 2 ≤ N) (hN : N ≤ PTRDIFF_MAX) {sl : SampleList ValT}
    (hv : Valid N sl) (hs : sl.size = N) (t : Nat) (v : ValT) :
    (sl.push t v).contents = sl.contents.tail ++ [some ⟨t, v⟩] := by
  obtain ⟨_, hsz, hold, hnew⟩ := push_full h2 hN hv hs t v
  simp only [contents]
  rw [hsz, hs]
  obtain ⟨M, rfl⟩ : ∃ M, N = M + 1 := ⟨N - 1, by omega⟩
  simp only [Nat.add_sub_cancel] at hnew
  conv_lhs => rw [List.range_succ, List.map_append, List.map_singleton, hnew]
  conv_rhs => rw [List.range_succ_eq_map, List.map_cons, List.tail_cons, List.map_map]
  congr 1
  apply List.map_congr_left
  intro i hi
  exact hold i (by have := List.mem_range.mp hi; omega)

theorem valid_empty {N : Nat} (d : List (Sample ValT)) (h : d.length = N) :
    Valid N (empty d) :=
  ⟨h, Or.inl ⟨rfl, rfl⟩⟩

theorem valid_clear {N : Nat} {sl : SampleList ValT} (hv : Valid N sl) : Valid N sl.clear :=
  ⟨hv.1, Or.inl ⟨rfl, rfl⟩⟩

theorem valid_push {N : Nat} (h2 : 2 ≤ N) (hN : N ≤ PTRDIFF_MAX) {sl : SampleList ValT}
    (hv : Valid N sl) (t : Nat) (v : ValT) : Valid N (sl.push t v) := by
  rcases Nat.lt_or_ge sl.size N with h | h
  · exact (push_nonfull hN hv h t v).1
  · exact (push_full h2 hN hv (Nat.le_antisymm (size_le_of_valid hN hv) h) t v).1

/-- Every reachable list of capacity at least two satisfies the representation invariant. -/
theorem Reachable.valid {N : Nat} (h2 : 2 ≤ N) (hN : N ≤ PTRDIFF_MAX) {sl : SampleList ValT}
    (hr : Reachable N sl) : Valid N sl := by
  induction hr with
  | fresh d h => exact valid_empty d h
  | push t v _ ih => exact valid_push h2 hN ih t v
  | clearBeforeDate t _ hc ih =>
    obtain ⟨s2, e, hv2, _⟩ := clearBeforeDate_spec hN ih t
    rw [e] at hc
    cases hc
    exact hv2
  | clear _ ih => exact valid_clear ih

theorem Reachable.pushAll {N : Nat} {sl : SampleList ValT} (hr : Reachable N sl)
    (xs : List (Nat × ValT)) : Reachable N (sl.pushAll xs) := by
  induction xs generalizing sl with
  | nil => exact hr
  | cons x xs ih => exact ih (Reachable.push x.1 x.2 hr)

theorem dropWhile_map_some (t : Nat) (L : List (Sample ValT)) :
    (L.map some).dropWhile (olderThan t) =
      (L.dropWhile (fun x => decide (x.taken < t))).map some := by
  induction L with
  | nil => rfl
  | cons x L ih =>
    simp only [List.map_cons, List.dropWhile_cons, olderThan]
    split_ifs
    · exact ih
    · rfl

theorem map_some_injective {α : Type} {L M : List α} (h : L.map some = M.map some) : L = M :=
  List.map_injective_iff.mpr (Option.some_injective α) h

theorem dropWhile_eq_filter_of_sorted (t : Nat) (L : List (Sample ValT))
    (hs : L.Pairwise (fun a b => a.taken ≤ b.taken)) :
    L.dropWhile (fun x => decide (x.taken < t)) = L.filter (fun x => decide (t ≤ x.taken)) := by
  induction L with
  | nil => rfl
  | cons x L ih =>
    rw [List.pairwise_cons] at hs
    by_cases hx : x.taken < t
    · have h1 : decide (x.taken < t) = true := decide_eq_true hx
      have h2 : ¬ (decide (t ≤ x.taken) = true) := by simp; omega
      rw [List.dropWhile_cons, if_pos h1, List.filter_cons, if_neg h2]
      exact ih hs.2
    · have h1 : ¬ (decide (x.taken < t) = true) := by simpa using hx
      have h2 : decide (t ≤ x.taken) = true := by simp; omega
      rw [List.dropWhile_cons, if_neg h1, List.filter_cons, if_pos h2]
      congr 1
      symm
      rw [List.filter_eq_self]
      intro a ha
      have := hs.1 a ha
      simp; omega

theorem pushAll_nonfull {N : Nat} (hN : N ≤ PTRDIFF_MAX) (xs : List (Nat × ValT)) :
    ∀ sl : SampleList ValT, Valid N sl → sl.size + xs.length ≤ N →
      Valid N (sl.pushAll xs) ∧
        (sl.pushAll xs).contents = sl.contents ++ xs.map (fun x => some (toSample x)) := by
  induction xs with
  | nil => intro sl hv _; exact ⟨hv, by simp [pushAll]⟩
  | cons x xs ih =>
    intro sl hv hk
    simp only [List.length_cons] at hk
    have hs : sl.size < N := by omega
    obtain ⟨hv2, hsz, _, _⟩ := push_nonfull hN hv hs x.1 x.2
    obtain ⟨h1, h2⟩ := ih (sl.push x.1 x.2) hv2 (by omega)
    refine ⟨h1, ?_⟩
    show ((sl.push x.1 x.2).pushAll xs).contents = _
    rw [h2, contents_push_nonfull hN hv hs]
    simp [toSample]

theorem lastN_of_le {α : Type} {N : Nat} {L : List α} (h : L.length ≤ N) : lastN N L = L := by
  simp [lastN, Nat.sub_eq_zero_of_le h]

theorem lastN_append {α : Type} (N : Nat) (A B : List α) :
    lastN N (lastN N A ++ B) = lastN N (A ++ B) := by
  rcases Nat.le_total A.length N with h | h
  · rw [lastN_of_le h]
  · simp only [lastN, List.length_append, List.length_drop]
    have e1 : A.length - (A.length - N) + B.length - N = B.length := by omega
    have e2 : A.length + B.length - N = (A.length - N) + B.length := by omega
    rw [e1, e2, ← List.drop_drop,
      List.drop_append_of_le_length (Nat.sub_le _ _)]

theorem lastN_snoc_lt {α : Type} {N : Nat} {L : List α} (x : α) (h : L.length < N) :
    lastN N (L ++ [x]) = L ++ [x] :=
  lastN_of_le (by simp; omega)

theorem lastN_snoc_eq {α : Type} {N : Nat} {L : List α} (x : α) (h1 : 1 ≤ N)
    (h : L.length = N) :
    lastN N (L ++ [x]) = L.tail ++ [x] := by
  simp only [lastN, List.length_append, List.length_singleton, h, Nat.add_sub_cancel_left]
  rw [List.drop_append_of_le_length (by omega), List.drop_one]

/-- After any run of pushes into a list of capacity at least two the contents are the last
`N` samples of the old contents followed by the pushed samples. -/
theorem pushAll_contents {N : Nat} (h2 : 2 ≤ N) (hN : N ≤ PTRDIFF_MAX) (xs : List (Nat × ValT)) :
    ∀ (sl : SampleList ValT) (L : List (Sample ValT)), Valid N sl → sl.contents = L.map some →
      (sl.pushAll xs).contents = (lastN N (L ++ xs.map toSample)).map some := by
  induction xs with
  | nil =>
    intro sl L hv hL
    have hlen : L.length ≤ N := by
      have := congrArg List.length hL
      rw [length_contents, List.length_map] at this
      have := size_le_of_valid hN hv
      omega
    simp [pushAll, hL, lastN_of_le hlen]
  | cons x xs ih =>
    intro sl L hv hL
    have hlen : L.length = sl.size := by
      have := congrArg List.length hL
      rw [length_contents, List.length_map] at this
      omega
    have hle := size_le_of_valid hN hv
    have hstep : (sl.push x.1 x.2).contents = (lastN N (L ++ [toSample x])).map some := by
      rcases Nat.lt_or_ge sl.size N with h | h
      · rw [contents_push_nonfull hN hv h, lastN_snoc_lt _ (by omega), hL]
        simp [toSample]
      · have he : sl.size = N := Nat.le_antisymm hle h
        rw [contents_push_full h2 hN hv he, lastN_snoc_eq _ (by omega) (by omega), hL]
        simp [toSample, List.map_tail]
    have := ih (sl.push x.1 x.2) _ (valid_push h2 hN hv x.1 x.2) hstep
    show ((sl.push x.1 x.2).pushAll xs).contents = _
    rw [this, lastN_append]
    simp

theorem iterate_inc (it : SampleIterator ValT) (k : Nat) (h : it.pos + k < 2 ^ 64) :
    (SampleIterator.inc^[k] it).pos = it.pos + k ∧ (SampleIterator.inc^[k] it).list = it.list := by
  induction k with
  | zero => exact ⟨rfl, rfl⟩
  | succ k ih =>
    obtain ⟨h1, h2⟩ := ih (by omega)
    rw [Function.iterate_succ_apply']
    refine ⟨?_, h2⟩
    show wrap ((SampleIterator.inc^[k] it).pos + 1) = _
    rw [h1, wrap_of_lt (by omega)]
    omega

theorem clearBeforeDate_contents {N : Nat} (hN : N ≤ PTRDIFF_MAX) {sl : SampleList ValT}
    (hv : Valid N sl) (t : Nat) (L : List (Sample ValT)) (hL : sl.contents = L.map some) :
    ∃ s2, sl.clearBeforeDate t = some s2 ∧ Valid N s2 ∧
      s2.contents = (L.dropWhile (fun x => decide (x.taken < t))).map some := by
  obtain ⟨s2, e, hv2, _, hc⟩ := clearBeforeDate_spec hN hv t
  exact ⟨s2, e, hv2, by rw [hc, hL, dropWhile_map_some]⟩

theorem size_eq_length_of_contents {sl : SampleList ValT} {L : List (Sample ValT)}
    (hL : sl.contents = L.map some) : sl.size = L.length := by
  have := congrArg List.length hL
  rw [length_contents, List.length_map] at this
  exact this

theorem size_clear (sl : SampleList ValT) : sl.clear.size = 0 := by
  simp [SampleList.clear, size]

/-- More than `N` pushes into a fresh list of capacity `N ≥ 2` leave exactly the last `N`
pushed samples, in push order. -/
theorem pushAll_fresh_overflow {N : Nat} (h2 : 2 ≤ N) (hN : N ≤ PTRDIFF_MAX)
    (data : List (Sample ValT)) (hd : data.length = N) (xs : List (Nat × ValT))
    (hk : N < xs.length) :
    ((empty data).pushAll xs).size = N ∧
      ((empty data).pushAll xs).contents = (lastN N (xs.map toSample)).map some := by
  have hc := pushAll_contents h2 hN xs (empty data) [] (valid_empty data hd)
    (by rw [show (empty data).contents = [] from contents_empty data]; rfl)
  rw [List.nil_append] at hc
  refine ⟨?_, hc⟩
  rw [size_eq_length_of_contents hc]
  simp only [lastN, List.length_drop, List.length_map]
  omega

end SampleList

/-! ## The claims about `SampleList` -/

section SampleListClaims

open SampleList

variable {ValT : Type}

/-- C1. For every capacity `N ≥ 2` (and at most `PTRDIFF_MAX`), in every list reachable by
`push`, `clearBeforeDate` and `clear`, the contents `[operator[](0), ..., operator[](size()-1)]`
are a list `L` of stored samples with at most `N` elements, and `push(t, v)` changes them to
`L ++ [(t, v)]` when `|L| < N` and to `tail L ++ [(t, v)]` when `|L| = N`. -/
theorem C1_push_refines_bounded_fifo {N : Nat} (h2 : 2 ≤ N) (hN : N ≤ PTRDIFF_MAX)
    {sl : SampleList ValT} (hr : Reachable N sl) (t : Nat) (v : ValT) :
    ∃ L : List (Sample ValT), sl.contents = L.map some ∧ L.length ≤ N ∧
      (L.length < N → (sl.push t v).contents = (L ++ [Sample.mk t v]).map some) ∧
      (L.length = N → (sl.push t v).contents = (L.tail ++ [Sample.mk t v]).map some) := by
  have hv := hr.valid h2 hN
  obtain ⟨L, hL⟩ := contents_defined hN hv
  have hlen : L.length = sl.size := by
    have := congrArg List.length hL
    rw [length_contents, List.length_map] at this
    omega
  refine ⟨L, hL, by rw [hlen]; exact size_le_of_valid hN hv, ?_, ?_⟩
  · intro h
    rw [contents_push_nonfull hN hv (by omega), hL]
    simp
  · intro h
    rw [contents_push_full h2 hN hv (by omega), hL]
    simp [List.map_tail]


/-- C1 at a list of capacity two that holds one sample. -/
theorem C1_push_refines_bounded_fifo_witness :
    ∃ L : List (Sample Int),
      (((empty [⟨0, 0⟩, ⟨0, 0⟩]).push 1234 (-55)).contents = L.map some) ∧ L.length ≤ 2 ∧
      (L.length < 2 → (((empty [⟨0, 0⟩, ⟨0, 0⟩]).push 1234 (-55)).push 1244 (-60)).contents =
        (L ++ [Sample.mk 1244 (-60)]).map some) ∧
      (L.length = 2 → (((empty [⟨0, 0⟩, ⟨0, 0⟩]).push 1234 (-55)).push 1244 (-60)).contents =
        (L.tail ++ [Sample.mk 1244 (-60)]).map some) :=
  C1_push_refines_bounded_fifo (N := 2) (by decide) (by decide)
    (Reachable.push 1234 (-55) (Reachable.fresh [⟨0, 0⟩, ⟨0, 0⟩] rfl)) 1244 (-60)

/-- C2, on the code: a list of capacity one reports `size() = 0` after three pushes, where the
claim says `size() = 1`. -/
theorem C2_capacity_one_three_pushes :
    ((empty [(⟨0, 0⟩ : Sample Int)]).pushAll [(1234, -55), (1244, -60), (1265, -58)]).size = 0 ∧
      ((empty [(⟨0, 0⟩ : Sample Int)]).pushAll [(1234, -55), (1244, -60), (1265, -58)]).contents
        = [] := by
  decide

/-- The test `samplelist-threeover`, named in C2: eight pushes into a list of capacity five leave
`size() = 5` and the values `[-61, -54, -47, -48, -49]`. -/
theorem pushes_threeover_values :
    ((empty (List.replicate 5 (⟨0, 0⟩ : Sample Int))).pushAll
        [(1234, -55), (1244, -60), (1265, -58), (1282, -61), (1294, -54), (1302, -47),
          (1304, -48), (1305, -49)]).size = 5 ∧
      ((empty (List.replicate 5 (⟨0, 0⟩ : Sample Int))).pushAll
        [(1234, -55), (1244, -60), (1265, -58), (1282, -61), (1294, -54), (1302, -47),
          (1304, -48), (1305, -49)]).contents.map (Option.map Sample.value) =
        [some (-61), some (-54), some (-47), some (-48), some (-49)] := by
  decide

/-- C3. For every capacity `N` (at most `PTRDIFF_MAX`) and every run of `k ≤ N` pushes into a
freshly constructed list, `size() = k` and `operator[](i)` is the `i`-th pushed sample for every
`i < k`; a fresh list has `size() = 0`. -/
theorem C3_pushes_up_to_capacity {N : Nat} (hN : N ≤ PTRDIFF_MAX) (data : List (Sample ValT))
    (hd : data.length = N) (xs : List (Nat × ValT)) (hk : xs.length ≤ N) :
    (empty data).size = 0 ∧ ((empty data).pushAll xs).size = xs.length ∧
      ∀ (i : Nat) (hi : i < xs.length),
        ((empty data).pushAll xs).get i = some (toSample (xs.get ⟨i, hi⟩)) := by
  have h0 : (empty data).size = 0 := size_empty data
  obtain ⟨_, hc⟩ := pushAll_nonfull hN xs (empty data) (valid_empty data hd) (by rw [h0]; omega)
  have hc0 : (empty data).contents = [] := contents_empty data
  rw [hc0, List.nil_append] at hc
  have hsz : ((empty data).pushAll xs).size = xs.length := by
    have := congrArg List.length hc
    rw [length_contents, List.length_map] at this
    exact this
  refine ⟨h0, hsz, ?_⟩
  intro i hi
  have := congrArg (fun l => l[i]?) hc
  simp only [contents, List.getElem?_map] at this
  rw [List.getElem?_range (by omega), List.getElem?_eq_getElem hi] at this
  simpa using this

/-- C3 at three pushes into a list of capacity five (the test `samplelist-notfull`). -/
theorem C3_pushes_up_to_capacity_witness :
    (empty (List.replicate 5 (⟨0, 0⟩ : Sample Int))).size = 0 ∧
      ((empty (List.replicate 5 (⟨0, 0⟩ : Sample Int))).pushAll
        [(1234, -55), (1244, -60), (1265, -58)]).size = 3 ∧
      ∀ (i : Nat) (hi : i < 3),
        ((empty (List.replicate 5 (⟨0, 0⟩ : Sample Int))).pushAll
          [(1234, -55), (1244, -60), (1265, -58)]).get i =
          some (toSample ([(1234, -55), (1244, -60), (1265, -58)].get ⟨i, hi⟩)) :=
  C3_pushes_up_to_capacity (N := 5) (by decide) (List.replicate 5 ⟨0, 0⟩) rfl
    [(1234, -55), (1244, -60), (1265, -58)] (by decide)


/-- C4. For every capacity `N ≥ 2` (and at most `PTRDIFF_MAX`), every reachable list with
contents `L` (oldest first) and every date `t`, `clearBeforeDate(t)` returns and leaves the
contents `dropWhile (taken < t) L`; the list becomes empty exactly when every sample of `L` has
`taken < t`. -/
theorem C4_clearBeforeDate_drops_leading_run {N : Nat} (h2 : 2 ≤ N) (hN : N ≤ PTRDIFF_MAX)
    {sl : SampleList ValT} (hr : Reachable N sl) (t : Nat) :
    ∃ (L : List (Sample ValT)) (s2 : SampleList ValT),
      sl.contents = L.map some ∧ sl.clearBeforeDate t = some s2 ∧
      s2.contents = (L.dropWhile (fun x => decide (x.taken < t))).map some ∧
      (s2.size = 0 ↔ ∀ x ∈ L, x.taken < t) := by
  have hv := hr.valid h2 hN
  obtain ⟨L, hL⟩ := contents_defined hN hv
  obtain ⟨s2, e, _, hc⟩ := clearBeforeDate_contents hN hv t L hL
  refine ⟨L, s2, hL, e, hc, ?_⟩
  rw [size_eq_length_of_contents hc, List.length_eq_zero, List.dropWhile_eq_nil_iff]
  simp

/-- C4 at the ten test pushes into a list of capacity five and the date 1304. -/
theorem C4_clearBeforeDate_drops_leading_run_witness :
    ∃ (L : List (Sample Int)) (s2 : SampleList Int),
      ((empty (List.replicate 5 ⟨0, 0⟩)).pushAll tenPushes).contents = L.map some ∧
      ((empty (List.replicate 5 ⟨0, 0⟩)).pushAll tenPushes).clearBeforeDate 1304 = some s2 ∧
      s2.contents = (L.dropWhile (fun x => decide (x.taken < 1304))).map some ∧
      (s2.size = 0 ↔ ∀ x ∈ L, x.taken < 1304) :=
  C4_clearBeforeDate_drops_leading_run (N := 5) (by decide) (by decide)
    (Reachable.pushAll (Reachable.fresh (List.replicate 5 ⟨0, 0⟩) rfl) tenPushes) 1304

/-- The two evaluations named in C4: after the ten test pushes `clearBeforeDate(1304)` leaves the
values `[-48, -49, -45, -44]` and `clearBeforeDate(1308)` leaves an empty list. -/
theorem clearBeforeDate_test_values :
    (((empty (List.replicate 5 ⟨0, 0⟩)).pushAll tenPushes).clearBeforeDate 1304).map
        (fun s => s.contents.map (Option.map Sample.value)) =
        some [some (-48), some (-49), some (-45), some (-44)] ∧
      (((empty (List.replicate 5 ⟨0, 0⟩)).pushAll tenPushes).clearBeforeDate 1308).map size =
        some 0 := by
  decide

/-- C5. For every capacity `N ≥ 2` (and at most `PTRDIFF_MAX`) and every reachable list whose
contents `L` are in non-decreasing order of `taken`, `clearBeforeDate(t)` returns and leaves
contents `L2` in which every sample has `taken ≥ t` and which holds every sample of `L` with
`taken ≥ t`; `L2` is `L` restricted to the samples with `taken ≥ t`. -/
theorem C5_clearBeforeDate_on_time_ordered {N : Nat} (h2 : 2 ≤ N) (hN : N ≤ PTRDIFF_MAX)
    {sl : SampleList ValT} (hr : Reachable N sl) (t : Nat) (L : List (Sample ValT))
    (hL : sl.contents = L.map some) (hsorted : L.Pairwise (fun a b => a.taken ≤ b.taken)) :
    ∃ (s2 : SampleList ValT) (L2 : List (Sample ValT)),
      sl.clearBeforeDate t = some s2 ∧ s2.contents = L2.map some ∧
      (∀ x ∈ L2, t ≤ x.taken) ∧ (∀ x ∈ L, t ≤ x.taken → x ∈ L2) ∧
      L2 = L.filter (fun x => decide (t ≤ x.taken)) := by
  have hv := hr.valid h2 hN
  obtain ⟨s2, e, _, hc⟩ := clearBeforeDate_contents hN hv t L hL
  rw [dropWhile_eq_filter_of_sorted t L hsorted] at hc
  refine ⟨s2, _, e, hc, ?_, ?_, rfl⟩
  · intro x hx
    simpa using (List.mem_filter.mp hx).2
  · intro x hx ht
    exact List.mem_filter.mpr ⟨hx, by simpa using ht⟩

/-- C5 at the ten test pushes into a list of capacity five and the date 1307 (the test
`samplelist-clearfourold`). -/
theorem C5_clearBeforeDate_on_time_ordered_witness :
    ∃ (s2 : SampleList Int) (L2 : List (Sample Int)),
      ((empty (List.replicate 5 ⟨0, 0⟩)).pushAll tenPushes).clearBeforeDate 1307 = some s2 ∧
      s2.contents = L2.map some ∧
      (∀ x ∈ L2, 1307 ≤ x.taken) ∧
      (∀ x ∈ [Sample.mk 1302 (-47), ⟨1304, -48⟩, ⟨1305, -49⟩, ⟨1306, -45⟩, ⟨1307, -44⟩],
        1307 ≤ x.taken → x ∈ L2) ∧
      L2 = [Sample.mk 1302 (-47), ⟨1304, -48⟩, ⟨1305, -49⟩, ⟨1306, -45⟩, ⟨1307, -44⟩].filter
        (fun x => decide (1307 ≤ x.taken)) :=
  C5_clearBeforeDate_on_time_ordered (N := 5) (by decide) (by decide)
    (Reachable.pushAll (Reachable.fresh (List.replicate 5 ⟨0, 0⟩) rfl) tenPushes) 1307
    [⟨1302, -47⟩, ⟨1304, -48⟩, ⟨1305, -49⟩, ⟨1306, -45⟩, ⟨1307, -44⟩] (by decide) (by decide)

/-- C6. For every capacity `N ≥ 2` (and at most `PTRDIFF_MAX`) and every reachable list, the
iterator obtained from `begin()` by `k ≤ size()` increments equals `end()` exactly when
`k = size()`; for `k < size()` its dereference is `operator[](k)`, a stored sample; and
`begin() == end()` exactly when `size() = 0`. -/
theorem C6_iteration_visits_size_samples {N : Nat} (h2 : 2 ≤ N) (hN : N ≤ PTRDIFF_MAX)
    {sl : SampleList ValT} (hr : Reachable N sl) :
    (∀ k, k ≤ sl.size → ((SampleIterator.inc^[k] sl.begin).eq sl.«end» = true ↔ k = sl.size)) ∧
      (∀ k, k < sl.size →
        (SampleIterator.inc^[k] sl.begin).deref = sl.get k ∧ ∃ x, sl.get k = some x) ∧
      (sl.begin.eq sl.«end» = true ↔ sl.size = 0) := by
  have hv := hr.valid h2 hN
  have hsz := size_le_of_valid hN hv
  have hend : sl.«end».pos = sl.size := by
    unfold SampleList.«end»
    split_ifs with h
    · exact h.symm
    · rfl
  have hpos : ∀ k, k ≤ sl.size → (SampleIterator.inc^[k] sl.begin).pos = k ∧
      (SampleIterator.inc^[k] sl.begin).list = sl := by
    intro k hk
    have := iterate_inc sl.begin k (by unfold PTRDIFF_MAX at hN; simp [SampleList.begin]; omega)
    simpa [SampleList.begin] using this
  refine ⟨?_, ?_, ?_⟩
  · intro k hk
    simp [SampleIterator.eq, hend, (hpos k hk).1]
  · intro k hk
    obtain ⟨h1, h3⟩ := hpos k (by omega)
    refine ⟨?_, get_isSome_of_valid hN hv hk⟩
    simp [SampleIterator.deref, h1, h3]
  · simp only [SampleIterator.eq, hend, SampleList.begin, beq_iff_eq]
    exact eq_comm

/-- C6 at the ten test pushes into a list of capacity five. -/
theorem C6_iteration_visits_size_samples_witness :
    (∀ k, k ≤ ((empty (List.replicate 5 ⟨0, 0⟩)).pushAll tenPushes).size →
        ((SampleIterator.inc^[k] ((empty (List.replicate 5 ⟨0, 0⟩)).pushAll tenPushes).begin).eq
          ((empty (List.replicate 5 ⟨0, 0⟩)).pushAll tenPushes).«end» = true ↔
          k = ((empty (List.replicate 5 ⟨0, 0⟩)).pushAll tenPushes).size)) ∧
      (∀ k, k < ((empty (List.replicate 5 ⟨0, 0⟩)).pushAll tenPushes).size →
        (SampleIterator.inc^[k]
            ((empty (List.replicate 5 ⟨0, 0⟩)).pushAll tenPushes).begin).deref =
          ((empty (List.replicate 5 ⟨0, 0⟩)).pushAll tenPushes).get k ∧
        ∃ x, ((empty (List.replicate 5 ⟨0, 0⟩)).pushAll tenPushes).get k = some x) ∧
      (((empty (List.replicate 5 ⟨0, 0⟩)).pushAll tenPushes).begin.eq
        ((empty (List.replicate 5 ⟨0, 0⟩)).pushAll tenPushes).«end» = true ↔
        ((empty (List.replicate 5 ⟨0, 0⟩)).pushAll tenPushes).size = 0) :=
  C6_iteration_visits_size_samples (N := 5) (by decide) (by decide)
    (Reachable.pushAll (Reachable.fresh (List.replicate 5 ⟨0, 0⟩) rfl) tenPushes)

/-- C7. For every list state whatever, after `clear()` the list has `size() = 0` and
`begin() == end()`. -/
theorem C7_clear_empties (sl : SampleList ValT) :
    sl.clear.size = 0 ∧ sl.clear.begin.eq sl.clear.«end» = true := by
  have h : sl.clear.size = 0 := size_clear sl
  refine ⟨h, ?_⟩
  simp [SampleIterator.eq, SampleList.«end», SampleList.begin, h]

/-- C8. For every capacity `N ≥ 2` (and at most `PTRDIFF_MAX`), every reachable list has
`size() ≤ N`; `push` does not decrease `size()` and keeps it at most `N`; `clearBeforeDate`
returns and does not increase `size()`; `clear` does not increase it. -/
theorem C8_size_bounded {N : Nat} (h2 : 2 ≤ N) (hN : N ≤ PTRDIFF_MAX)
    {sl : SampleList ValT} (hr : Reachable N sl) :
    sl.size ≤ N ∧
      (∀ (t : Nat) (v : ValT), sl.size ≤ (sl.push t v).size ∧ (sl.push t v).size ≤ N) ∧
      (∀ t : Nat, ∃ s2, sl.clearBeforeDate t = some s2 ∧ s2.size ≤ sl.size ∧ s2.size ≤ N) ∧
      sl.clear.size ≤ sl.size := by
  have hv := hr.valid h2 hN
  have hsz := size_le_of_valid hN hv
  refine ⟨hsz, ?_, ?_, ?_⟩
  · intro t v
    refine ⟨?_, size_le_of_valid hN (valid_push h2 hN hv t v)⟩
    rcases Nat.lt_or_ge sl.size N with h | h
    · rw [(push_nonfull hN hv h t v).2.1]; omega
    · rw [(push_full h2 hN hv (Nat.le_antisymm hsz h) t v).2.1]; exact hsz
  · intro t
    obtain ⟨s2, e, hv2, _, hc⟩ := clearBeforeDate_spec hN hv t
    refine ⟨s2, e, ?_, size_le_of_valid hN hv2⟩
    rw [← length_contents, ← length_contents, hc]
    exact (List.dropWhile_sublist _).length_le
  · rw [size_clear sl]; exact Nat.zero_le _

/-- C8 at the ten test pushes into a list of capacity five. -/
theorem C8_size_bounded_witness :
    ((empty (List.replicate 5 ⟨0, 0⟩)).pushAll tenPushes).size ≤ 5 ∧
      (∀ (t : Nat) (v : Int),
        ((empty (List.replicate 5 ⟨0, 0⟩)).pushAll tenPushes).size ≤
          (((empty (List.replicate 5 ⟨0, 0⟩)).pushAll tenPushes).push t v).size ∧
        (((empty (List.replicate 5 ⟨0, 0⟩)).pushAll tenPushes).push t v).size ≤ 5) ∧
      (∀ t : Nat, ∃ s2,
        ((empty (List.replicate 5 ⟨0, 0⟩)).pushAll tenPushes).clearBeforeDate t = some s2 ∧
        s2.size ≤ ((empty (List.replicate 5 ⟨0, 0⟩)).pushAll tenPushes).size ∧ s2.size ≤ 5) ∧
      ((empty (List.replicate 5 ⟨0, 0⟩)).pushAll tenPushes).clear.size ≤
        ((empty (List.replicate 5 ⟨0, 0⟩)).pushAll tenPushes).size :=
  C8_size_bounded (N := 5) (by decide) (by decide)
    (Reachable.pushAll (Reachable.fresh (List.replicate 5 ⟨0, 0⟩) rfl) tenPushes)

end SampleListClaims

/-! ## The `std::map` of connection states -/

section MapLemmas

variable {V : Type}

theorem mapFind_cons (p : TargetIdentifier × V) (m : List (TargetIdentifier × V))
    (k : TargetIdentifier) :
    mapFind (p :: m) k = if p.1 = k then some p.2 else mapFind m k := by
  unfold mapFind
  rw [List.find?_cons]
  by_cases h : p.1 = k
  · simp [h]
  · simp [h]

theorem mapFind_eq_none_iff (m : List (TargetIdentifier × V)) (k : TargetIdentifier) :
    mapFind m k = none ↔ m.any (fun p => decide (p.1 = k)) = false := by
  induction m with
  | nil => simp [mapFind]
  | cons p m ih =>
    rw [mapFind_cons, List.any_cons]
    by_cases h : p.1 = k
    · simp [h]
    · simp only [h, if_false, decide_False, Bool.false_or]
      exact ih

theorem any_key_of_mapFind {m : List (TargetIdentifier × V)} {k : TargetIdentifier} {v : V}
    (h : mapFind m k = some v) : m.any (fun p => decide (p.1 = k)) = true := by
  cases ha : m.any (fun p => decide (p.1 = k)) with
  | true => rfl
  | false => rw [(mapFind_eq_none_iff m k).mpr ha] at h; cases h

theorem mapFind_mapUpdate (k : TargetIdentifier) (f : V → V) (m : List (TargetIdentifier × V))
    (k2 : TargetIdentifier) :
    mapFind (mapUpdate k f m) k2 = if k = k2 then (mapFind m k2).map f else mapFind m k2 := by
  induction m with
  | nil => simp [mapUpdate, mapFind]
  | cons p m ih =>
    have hcons : mapUpdate k f (p :: m) =
        (if p.1 = k then (p.1, f p.2) else p) :: mapUpdate k f m := rfl
    rw [hcons, mapFind_cons, mapFind_cons, ih]
    by_cases h1 : p.1 = k <;> by_cases h2 : k = k2 <;> by_cases h3 : p.1 = k2 <;>
      simp_all

theorem mapFind_mapErase (k : TargetIdentifier) (m : List (TargetIdentifier × V)) :
    mapFind (mapErase k m) k = none := by
  rw [mapFind_eq_none_iff]
  simp [mapErase, List.any_filter]

theorem mapFind_mapInsert (lt : TargetIdentifier → TargetIdentifier → Bool)
    (k : TargetIdentifier) (v : V) (m : List (TargetIdentifier × V)) (h : mapFind m k = none) :
    mapFind (mapInsert lt k v m) k = some v := by
  induction m with
  | nil => simp [mapInsert, mapFind_cons]
  | cons p m ih =>
    rw [mapFind_cons] at h
    by_cases hp : p.1 = k
    · simp [hp] at h
    · rw [if_neg hp] at h
      unfold mapInsert
      split_ifs
      · simp [mapFind_cons]
      · rw [mapFind_cons, if_neg hp]
        exact ih h

theorem mapFind_mapEmplace_self (lt : TargetIdentifier → TargetIdentifier → Bool)
    (k : TargetIdentifier) (v : V) (m : List (TargetIdentifier × V)) (h : mapFind m k = none) :
    mapFind (mapEmplace lt k v m) k = some v := by
  unfold mapEmplace
  rw [(mapFind_eq_none_iff m k).mp h]
  exact mapFind_mapInsert lt k v m h

theorem mapEmplace_of_mem (lt : TargetIdentifier → TargetIdentifier → Bool)
    (k : TargetIdentifier) (v : V) (m : List (TargetIdentifier × V)) {w : V}
    (h : mapFind m k = some w) : mapEmplace lt k v m = m := by
  unfold mapEmplace
  rw [any_key_of_mapFind h]
  rfl

theorem mapFind_mapEmplace_isSome (lt : TargetIdentifier → TargetIdentifier → Bool)
    (k : TargetIdentifier) (v : V) (m : List (TargetIdentifier × V)) :
    ∃ w, mapFind (mapEmplace lt k v m) k = some w := by
  cases h : mapFind m k with
  | none => exact ⟨v, mapFind_mapEmplace_self lt k v m h⟩
  | some w => exact ⟨w, by rw [mapEmplace_of_mem lt k v m h, h]⟩

theorem mapUpdate_mapUpdate (k : TargetIdentifier) (f g : V → V)
    (m : List (TargetIdentifier × V)) :
    mapUpdate k f (mapUpdate k g m) = mapUpdate k (fun s => f (g s)) m := by
  unfold mapUpdate
  rw [List.map_map]
  apply List.map_congr_left
  intro p _
  by_cases h : p.1 = k <;> simp [h]

end MapLemmas

section ConnectionLookup

open Engine

theorem findConnection_cons (p : TargetIdentifier × ConnectedDeviceState)
    (m : List (TargetIdentifier × ConnectedDeviceState)) (c : Nat) :
    findConnection (p :: m) c =
      if p.2.connection = some c then some p.1 else findConnection m c := by
  unfold findConnection
  rw [List.find?_cons]
  by_cases h : p.2.connection = some c
  · simp [h]
  · simp [h]

theorem findConnection_mapUpdate (k : TargetIdentifier)
    (f : ConnectedDeviceState → ConnectedDeviceState)
    (hf : ∀ s, (f s).connection = s.connection)
    (m : List (TargetIdentifier × ConnectedDeviceState)) (c : Nat) :
    findConnection (mapUpdate k f m) c = findConnection m c := by
  induction m with
  | nil => rfl
  | cons p m ih =>
    have hcons : mapUpdate k f (p :: m) =
        (if p.1 = k then (p.1, f p.2) else p) :: mapUpdate k f m := rfl
    rw [hcons, findConnection_cons, findConnection_cons, ih]
    by_cases h : p.1 = k
    · simp [h, hf]
    · simp [h]

theorem findConnection_mapInsert (lt : TargetIdentifier → TargetIdentifier → Bool)
    (k : TargetIdentifier) (v : ConnectedDeviceState)
    (m : List (TargetIdentifier × ConnectedDeviceState)) (c : Nat)
    (hv : ¬ v.connection = some c) (h : findConnection m c = none) :
    findConnection (mapInsert lt k v m) c = none := by
  induction m with
  | nil => simp [mapInsert, findConnection_cons, hv, findConnection]
  | cons p m ih =>
    rw [findConnection_cons] at h
    by_cases hp : p.2.connection = some c
    · simp [hp] at h
    · rw [if_neg hp] at h
      unfold mapInsert
      split_ifs
      · simp [findConnection_cons, hv, hp, h]
      · rw [findConnection_cons, if_neg hp]
        exact ih h

theorem findConnection_mapEmplace (lt : TargetIdentifier → TargetIdentifier → Bool)
    (k : TargetIdentifier) (v : ConnectedDeviceState)
    (m : List (TargetIdentifier × ConnectedDeviceState)) (c : Nat)
    (hv : ¬ v.connection = some c) (h : findConnection m c = none) :
    findConnection (mapEmplace lt k v m) c = none := by
  unfold mapEmplace
  split_ifs
  · exact h
  · exact findConnection_mapInsert lt k v m c hv h

theorem mapFind_of_findConnection {m : List (TargetIdentifier × ConnectedDeviceState)} {c : Nat}
    {k : TargetIdentifier} (h : findConnection m c = some k) : ∃ s, mapFind m k = some s := by
  induction m with
  | nil => simp [findConnection] at h
  | cons p m ih =>
    rw [findConnection_cons] at h
    rw [mapFind_cons]
    by_cases hk : p.1 = k
    · exact ⟨p.2, by rw [if_pos hk]⟩
    · rw [if_neg hk]
      by_cases hp : p.2.connection = some c
      · rw [if_pos hp] at h
        exact absurd (Option.some.inj h) hk
      · rw [if_neg hp] at h
        exact ih h

/-- The state that `findOrCreateStateByConnection` returns is in the map, and a second call
for the same connection returns the same state and changes nothing. -/
theorem statesFindOrCreateByConnection_stable (env : Env)
    (m : List (TargetIdentifier × ConnectedDeviceState)) (conn : Nat) :
    statesFindOrCreateByConnection env (statesFindOrCreateByConnection env m conn false).1 conn
        false = statesFindOrCreateByConnection env m conn false ∧
      ∃ s, mapFind (statesFindOrCreateByConnection env m conn false).1
        (statesFindOrCreateByConnection env m conn false).2 = some s := by
  cases hf : findConnection m conn with
  | some k =>
    have e1 : statesFindOrCreateByConnection env m conn false = (m, k) := by
      simp [statesFindOrCreateByConnection, hf]
    rw [e1]
    exact ⟨e1, mapFind_of_findConnection hf⟩
  | none =>
    have e1 : statesFindOrCreateByConnection env m conn false =
        (mapUpdate (env.macData (env.dst conn).val)
          (fun s => { s with address := env.dst conn, remoteInstigated := false })
          (mapEmplace env.lt (env.macData (env.dst conn).val)
            (ConnectedDeviceState.new (env.macData (env.dst conn).val)) m),
          env.macData (env.dst conn).val) := by
      simp [statesFindOrCreateByConnection, hf]
    rw [e1]
    obtain ⟨w, hw⟩ := mapFind_mapEmplace_isSome env.lt (env.macData (env.dst conn).val)
      (ConnectedDeviceState.new (env.macData (env.dst conn).val)) m
    have hnone : findConnection (mapUpdate (env.macData (env.dst conn).val)
          (fun s => { s with address := env.dst conn, remoteInstigated := false })
          (mapEmplace env.lt (env.macData (env.dst conn).val)
            (ConnectedDeviceState.new (env.macData (env.dst conn).val)) m)) conn = none := by
      rw [findConnection_mapUpdate (env.macData (env.dst conn).val)
        (fun s => { s with address := env.dst conn, remoteInstigated := false })
        (fun _ => rfl)]
      exact findConnection_mapEmplace _ _ _ _ _ (by simp [ConnectedDeviceState.new]) hf
    have hpres : mapFind (mapUpdate (env.macData (env.dst conn).val)
          (fun s => { s with address := env.dst conn, remoteInstigated := false })
          (mapEmplace env.lt (env.macData (env.dst conn).val)
            (ConnectedDeviceState.new (env.macData (env.dst conn).val)) m))
          (env.macData (env.dst conn).val) =
        some { w with address := env.dst conn, remoteInstigated := false } := by
      rw [mapFind_mapUpdate, if_pos rfl, hw]
      rfl
    refine ⟨?_, _, hpres⟩
    simp only [statesFindOrCreateByConnection, hnone]
    rw [mapEmplace_of_mem _ _ _ _ hpres, mapUpdate_mapUpdate]

/-- An assignment to `readPayload` of the state of a connection does not change which state
`findOrCreateStateByConnection` returns for it. -/
theorem statesFindOrCreateByConnection_readPayload (env : Env)
    (m : List (TargetIdentifier × ConnectedDeviceState)) (conn : Nat) (key : TargetIdentifier)
    (h : statesFindOrCreateByConnection env m conn false = (m, key))
    (hs : ∃ s, mapFind m key = some s) (g : Data → Data) :
    statesFindOrCreateByConnection env
        (mapUpdate key (fun s => { s with readPayload := g s.readPayload }) m) conn false =
      (mapUpdate key (fun s => { s with readPayload := g s.readPayload }) m, key) := by
  obtain ⟨s0, hs0⟩ := hs
  have hpres : mapFind (mapUpdate key (fun s => { s with readPayload := g s.readPayload }) m)
      key = some { s0 with readPayload := g s0.readPayload } := by
    rw [mapFind_mapUpdate, if_pos rfl, hs0]; rfl
  cases hf : findConnection m conn with
  | some k =>
    have e1 : statesFindOrCreateByConnection env m conn false = (m, k) := by
      simp [statesFindOrCreateByConnection, hf]
    rw [e1] at h
    have hk : k = key := (Prod.mk.inj h).2
    subst hk
    have hfc := findConnection_mapUpdate k
      (fun s => { s with readPayload := g s.readPayload }) (fun _ => rfl) m conn
    rw [hf] at hfc
    simp only [statesFindOrCreateByConnection, hfc]
  | none =>
    have e1 : statesFindOrCreateByConnection env m conn false =
        (mapUpdate (env.macData (env.dst conn).val)
          (fun s => { s with address := env.dst conn, remoteInstigated := false })
          (mapEmplace env.lt (env.macData (env.dst conn).val)
            (ConnectedDeviceState.new (env.macData (env.dst conn).val)) m),
          env.macData (env.dst conn).val) := by
      simp [statesFindOrCreateByConnection, hf]
    rw [e1] at h
    obtain ⟨hm, hk⟩ := Prod.mk.inj h
    rw [hk] at hm
    rw [mapEmplace_of_mem _ _ _ _ hs0] at hm
    have hnone : findConnection
        (mapUpdate key (fun s => { s with readPayload := g s.readPayload }) m) conn = none := by
      rw [findConnection_mapUpdate key
        (fun s => { s with readPayload := g s.readPayload }) (fun _ => rfl)]
      exact hf
    simp only [statesFindOrCreateByConnection, hnone, hk]
    rw [mapEmplace_of_mem _ _ _ _ hpres, mapUpdate_mapUpdate]
    congr 1
    conv_rhs => rw [← hm]
    rw [mapUpdate_mapUpdate]

end ConnectionLookup


/-! ## Chunked payload read -/

section ChunkedRead

open Engine

theorem serves_after_lookup (env : Env) (e : Engine) (conn : Nat) :
    Serves env conn (findOrCreateStateByConnection env e conn false).2
      (findOrCreateStateByConnection env e conn false).1 := by
  obtain ⟨h1, h2⟩ := statesFindOrCreateByConnection_stable env e.connectionStates conn
  exact ⟨h1, h2⟩

theorem lookup_of_serves {env : Env} {conn : Nat} {key : TargetIdentifier} {e : Engine}
    (h : Serves env conn key e) : findOrCreateStateByConnection env e conn false = (e, key) := by
  unfold findOrCreateStateByConnection
  rw [h.1]

theorem serves_of_states {env : Env} {conn : Nat} {key : TargetIdentifier} {e e2 : Engine}
    (h : Serves env conn key e) (hs : e2.connectionStates = e.connectionStates) :
    Serves env conn key e2 := by
  unfold Serves
  rw [hs]
  exact h

theorem serves_readPayload {env : Env} {conn : Nat} {key : TargetIdentifier} {e e2 : Engine}
    (h : Serves env conn key e) (g : Data → Data)
    (hs : e2.connectionStates =
      mapUpdate key (fun s => { s with readPayload := g s.readPayload }) e.connectionStates) :
    Serves env conn key e2 ∧
      e2.stateOf key = { e.stateOf key with readPayload := g (e.stateOf key).readPayload } := by
  obtain ⟨s0, hs0⟩ := h.2
  have hfind : mapFind e2.connectionStates key =
      some { s0 with readPayload := g s0.readPayload } := by
    rw [hs, mapFind_mapUpdate, if_pos rfl, hs0]; rfl
  refine ⟨⟨?_, _, hfind⟩, ?_⟩
  · rw [hs]
    exact statesFindOrCreateByConnection_readPayload env _ conn key h.1 h.2 g
  · simp [stateOf, hfind, hs0]

/-- A call of `gatt_read_cb` with non-null data leaves the Device Database as it is. -/
theorem gatt_read_cb_chunk_db (env : Env) (e : Engine) (conn err : Nat) (bytes : List Nat)
    (length : Nat) : (gatt_read_cb env e conn err (some bytes) length).1.db = e.db := by
  simp [gatt_read_cb, findOrCreateStateByConnection]

/-- The value returned by `gatt_read_cb`: `length` as a `uint8_t` for non-null data, 0 for the
terminating call. -/
theorem gatt_read_cb_returns (env : Env) (e : Engine) (conn err : Nat) (bytes : List Nat)
    (length : Nat) :
    (gatt_read_cb env e conn err (some bytes) length).2 = length % 256 ∧
      (gatt_read_cb env e conn err none length).2 = 0 := by
  simp [gatt_read_cb]

theorem gatt_read_cb_chunk {env : Env} {conn : Nat} {key : TargetIdentifier} {e : Engine}
    (h : Serves env conn key e) (err : Nat) (bytes : List Nat) :
    Serves env conn key (gatt_read_cb env e conn err (some bytes) bytes.length).1 ∧
      ((gatt_read_cb env e conn err (some bytes) bytes.length).1.stateOf key).target =
        (e.stateOf key).target ∧
      ((gatt_read_cb env e conn err (some bytes) bytes.length).1.stateOf key).readPayload =
        (e.stateOf key).readPayload ++ bytes := by
  have hs : (gatt_read_cb env e conn err (some bytes) bytes.length).1.connectionStates =
      mapUpdate key (fun s => { s with readPayload := (fun rp => rp ++ bytes) s.readPayload })
        e.connectionStates := by
    simp [gatt_read_cb, lookup_of_serves h]
  obtain ⟨h1, h2⟩ := serves_readPayload h (fun rp => rp ++ bytes) hs
  exact ⟨h1, by rw [h2], by rw [h2]⟩

theorem readChunks_spec {env : Env} {conn : Nat} {key : TargetIdentifier} (err : Nat)
    (chunks : List (List Nat)) :
    ∀ e : Engine, Serves env conn key e →
      Serves env conn key (readChunks env e conn err chunks) ∧
        (readChunks env e conn err chunks).db = e.db ∧
        ((readChunks env e conn err chunks).stateOf key).target = (e.stateOf key).target ∧
        ((readChunks env e conn err chunks).stateOf key).readPayload =
          (e.stateOf key).readPayload ++ chunks.flatten := by
  induction chunks with
  | nil => intro e h; exact ⟨h, rfl, rfl, by simp [readChunks]⟩
  | cons c cs ih =>
    intro e h
    obtain ⟨h1, h2, h3⟩ := gatt_read_cb_chunk h err c
    obtain ⟨i1, i2, i3, i4⟩ := ih _ h1
    have hstep : readChunks env e conn err (c :: cs) =
        readChunks env (gatt_read_cb env e conn err (some c) c.length).1 conn err cs := rfl
    rw [hstep]
    refine ⟨i1, ?_, ?_, ?_⟩
    · rw [i2, gatt_read_cb_chunk_db]
    · rw [i3, h2]
    · rw [i4, h3, List.flatten_cons, List.append_assoc]

theorem mapFind_dbDevice (db : BLEDatabase) (target : TargetIdentifier) :
    ∃ d, mapFind (dbDevice db target) target = some d := by
  unfold dbDevice
  cases h : mapFind db target with
  | some d =>
    rw [any_key_of_mapFind h]
    exact ⟨d, h⟩
  | none =>
    rw [(mapFind_eq_none_iff db target).mp h]
    refine ⟨BLEDevice.new, ?_⟩
    simp only [Bool.false_eq_true, if_false]
    induction db with
    | nil => simp [mapFind]
    | cons p db ih =>
      rw [mapFind_cons] at h
      by_cases hp : p.1 = target
      · simp [hp] at h
      · rw [if_neg hp] at h
        rw [List.cons_append, mapFind_cons, if_neg hp]
        exact ih h

/-- The terminating call of `gatt_read_cb` stores the read buffer of the connection's state as
the payload of the Device Record of the state's target. -/
theorem gatt_read_cb_commit {env : Env} {conn : Nat} {key : TargetIdentifier} {e : Engine}
    (h : Serves env conn key e) (err length : Nat) :
    ∃ d, mapFind (gatt_read_cb env e conn err none length).1.db (e.stateOf key).target = some d ∧
      d.payloadData = some (e.stateOf key).readPayload := by
  obtain ⟨d0, hd0⟩ := mapFind_dbDevice e.db (e.stateOf key).target
  refine ⟨{ d0 with payloadData := some (e.stateOf key).readPayload }, ?_, rfl⟩
  simp [gatt_read_cb, lookup_of_serves h, mapFind_mapUpdate, hd0]

theorem stateOf_of_states {e e2 : Engine} (hs : e2.connectionStates = e.connectionStates)
    (key : TargetIdentifier) : e2.stateOf key = e.stateOf key := by
  unfold stateOf
  rw [hs]

theorem discoveryStep_spec {env : Env} {conn : Nat} {key : TargetIdentifier}
    (target : TargetIdentifier) (acc : Engine × Bool) (c : GattChrc)
    (h : Serves env conn key acc.1) :
    Serves env conn key (discoveryStep key target conn acc c).1 ∧
      ((discoveryStep key target conn acc c).1.stateOf key).target = (acc.1.stateOf key).target ∧
      (c.uuid = herald_char_payload_uuid →
        (discoveryStep key target conn acc c).2 = true ∧
          ((discoveryStep key target conn acc c).1.stateOf key).readPayload = []) ∧
      (¬ c.uuid = herald_char_payload_uuid →
        (discoveryStep key target conn acc c).2 = acc.2 ∧
          ((discoveryStep key target conn acc c).1.stateOf key).readPayload =
            (acc.1.stateOf key).readPayload) := by
  by_cases hp : c.uuid = herald_char_payload_uuid
  · have hs : (discoveryStep key target conn acc c).1.connectionStates =
        mapUpdate key (fun s => { s with readPayload := (fun _ => []) s.readPayload })
          acc.1.connectionStates := by
      simp [discoveryStep, hp]
    obtain ⟨h1, h2⟩ := serves_readPayload h (fun _ => []) hs
    refine ⟨h1, by rw [h2], fun _ => ⟨by simp [discoveryStep, hp], by rw [h2]⟩,
      fun hn => absurd hp hn⟩
  · have hs : (discoveryStep key target conn acc c).1.connectionStates =
        acc.1.connectionStates := by
      unfold discoveryStep
      simp only [if_neg hp]
      split_ifs <;> rfl
    have h2 : (discoveryStep key target conn acc c).2 = acc.2 := by
      unfold discoveryStep
      simp only [if_neg hp]
      split_ifs <;> rfl
    have h3 := stateOf_of_states hs key
    exact ⟨serves_of_states h hs, by rw [h3], fun hq => absurd hq hp, fun _ => ⟨h2, by rw [h3]⟩⟩

theorem discovery_fold {env : Env} {conn : Nat} {key : TargetIdentifier}
    (target : TargetIdentifier) (chars : List GattChrc) :
    ∀ acc : Engine × Bool, Serves env conn key acc.1 →
      Serves env conn key (chars.foldl (discoveryStep key target conn) acc).1 ∧
        ((chars.foldl (discoveryStep key target conn) acc).1.stateOf key).target =
          (acc.1.stateOf key).target ∧
        (((acc.2 = true ∧ (acc.1.stateOf key).readPayload = []) ∨
            ∃ c ∈ chars, c.uuid = herald_char_payload_uuid) →
          (chars.foldl (discoveryStep key target conn) acc).2 = true ∧
            ((chars.foldl (discoveryStep key target conn) acc).1.stateOf key).readPayload =
              []) := by
  induction chars with
  | nil =>
    intro acc h
    refine ⟨h, rfl, ?_⟩
    rintro (⟨h1, h2⟩ | ⟨c, hc, _⟩)
    · exact ⟨h1, h2⟩
    · cases hc
  | cons c cs ih =>
    intro acc h
    obtain ⟨s1, s2, s3, s4⟩ := discoveryStep_spec target acc c h
    obtain ⟨i1, i2, i3⟩ := ih (discoveryStep key target conn acc c) s1
    rw [List.foldl_cons]
    refine ⟨i1, by rw [i2, s2], ?_⟩
    intro hyp
    apply i3
    by_cases hp : c.uuid = herald_char_payload_uuid
    · exact Or.inl (s3 hp)
    · obtain ⟨t1, t2⟩ := s4 hp
      rcases hyp with ⟨h1, h2⟩ | ⟨c2, hc2, hu⟩
      · exact Or.inl ⟨by rw [t1, h1], by rw [t2, h2]⟩
      · rcases List.mem_cons.mp hc2 with rfl | hmem
        · exact absurd hu hp
        · exact Or.inr ⟨c2, hmem, hu⟩

/-- After `discovery_completed_cb` has found the payload characteristic, the state of the
connection has an empty read buffer and the target it had when the callback looked it up. -/
theorem discovery_completed_cb_clears (env : Env) (e : Engine) (dm : GattDm)
    (hfound : ∃ c ∈ dm.chars, c.uuid = herald_char_payload_uuid) :
    Serves env dm.conn (findOrCreateStateByConnection env e dm.conn false).2
        (discovery_completed_cb env e dm) ∧
      ((discovery_completed_cb env e dm).stateOf
          (findOrCreateStateByConnection env e dm.conn false).2).target =
        ((findOrCreateStateByConnection env e dm.conn false).1.stateOf
          (findOrCreateStateByConnection env e dm.conn false).2).target ∧
      ((discovery_completed_cb env e dm).stateOf
          (findOrCreateStateByConnection env e dm.conn false).2).readPayload = [] := by
  have h0 := serves_after_lookup env e dm.conn
  generalize hr : findOrCreateStateByConnection env e dm.conn false = r at h0 ⊢
  have h1 : Serves env dm.conn r.2
      (({ r.1 with db := dbDevice r.1.db (r.1.stateOf r.2).target } : Engine), false).1 :=
    serves_of_states h0 rfl
  obtain ⟨f1, f2, f3⟩ := discovery_fold (r.1.stateOf r.2).target dm.chars _ h1
  obtain ⟨g1, g2⟩ := f3 (Or.inr hfound)
  have hs : (discovery_completed_cb env e dm).connectionStates =
      (dm.chars.foldl (discoveryStep r.2 (r.1.stateOf r.2).target dm.conn)
        (({ r.1 with db := dbDevice r.1.db (r.1.stateOf r.2).target } : Engine),
          false)).1.connectionStates := by
    simp only [discovery_completed_cb, hr]
    split_ifs <;> rfl
  have h3 := stateOf_of_states hs r.2
  refine ⟨serves_of_states f1 hs, ?_, ?_⟩
  · rw [h3, f2]
    exact congrArg ConnectedDeviceState.target (stateOf_of_states rfl _)
  · rw [h3, g2]

/-- The chunked payload read, as the code performs it: once `discovery_completed_cb` has found
the payload characteristic, a run of `gatt_read_cb` calls on that connection with the non-null
chunks `c1, ..., ck` leaves the Device Database unchanged, and the terminating call returns 0
and stores `c1 ++ ... ++ ck` as the payload of the Device Record of the connection's target. -/
theorem chunked_read_commits (env : Env) (e : Engine) (dm : GattDm)
    (hfound : ∃ c ∈ dm.chars, c.uuid = herald_char_payload_uuid) (err err2 length2 : Nat)
    (chunks : List (List Nat)) :
    (readChunks env (discovery_completed_cb env e dm) dm.conn err chunks).db =
        (discovery_completed_cb env e dm).db ∧
      (gatt_read_cb env (readChunks env (discovery_completed_cb env e dm) dm.conn err chunks)
        dm.conn err2 none length2).2 = 0 ∧
      ∃ d, mapFind (gatt_read_cb env
            (readChunks env (discovery_completed_cb env e dm) dm.conn err chunks)
            dm.conn err2 none length2).1.db
          ((findOrCreateStateByConnection env e dm.conn false).1.stateOf
            (findOrCreateStateByConnection env e dm.conn false).2).target = some d ∧
        d.payloadData = some chunks.flatten := by
  obtain ⟨d1, d2, d3⟩ := discovery_completed_cb_clears env e dm hfound
  obtain ⟨r1, r2, r3, r4⟩ := readChunks_spec err chunks _ d1
  rw [d2] at r3
  rw [d3, List.nil_append] at r4
  obtain ⟨d, c1, c2⟩ := gatt_read_cb_commit r1 err2 length2
  rw [r3] at c1
  rw [r4] at c2
  exact ⟨r2, (gatt_read_cb_returns env _ dm.conn err2 [] length2).2, d, c1, c2⟩

end ChunkedRead

/-! ## The claims about the connection-state engine -/

/-- C9, on the code: `gatt_read_cb` called with a non-null chunk of 256 bytes returns 0, where
the claim says it returns the chunk's length; 0 is also what the terminating call returns. -/
theorem C9_chunk_of_256_bytes_returns_zero (env : Env) (e : Engine) (conn err : Nat) :
    (Engine.gatt_read_cb env e conn err (some (List.replicate 256 0xde)) 256).2 = 0 ∧
      (Engine.gatt_read_cb env e conn err none 0).2 = 0 := by
  refine ⟨?_, (gatt_read_cb_returns env e conn err [] 0).2⟩
  rw [(gatt_read_cb_returns env e conn err (List.replicate 256 0xde) 256).1]

/-- The scenario named in C9: discovery finds the payload characteristic, the chunks `DE AD`
and `BE EF` are delivered and then the null terminator; the device has the payload
`DE AD BE EF`. -/
theorem chunked_read_deadbeef :
    mapFind (Engine.gatt_read_cb testEnv
        (Engine.readChunks testEnv
          (Engine.discovery_completed_cb testEnv Engine.init
            { conn := 7, chars := [{ uuid := herald_char_payload_uuid, value_handle := 3 }] })
          7 0 [[0xde, 0xad], [0xbe, 0xef]]) 7 0 none 0).1.db [1, 2, 3, 4, 5, 6] =
      some { BLEDevice.new with
        payloadData := some [0xde, 0xad, 0xbe, 0xef],
        payloadCharacteristic := some BLESensorConfiguration.payloadCharacteristicUUID,
        services := some [BLESensorConfiguration.serviceUUID] } := by
  decide

/-- C10. For every engine state and target, `closeConnection(target)` returns `true` exactly
when the cached state of the target has a non-null handle and `remoteInstigated` set, and then
the engine is unchanged (no disconnect is issued, the state is kept); in every other case,
an unknown target included, it returns `false` and no state of the target remains in the cache.
A radio disconnect is issued exactly when the cached state has a non-null handle and
`remoteInstigated` unset, and it is issued for that handle; otherwise no radio call is made. -/
theorem C10_closeConnection_keeps_peer_connections (env : Env) (e : Engine)
    (target : TargetIdentifier) :
    ((Engine.closeConnection env e target).2 = true ↔
        ∃ st c, mapFind e.connectionStates target = some st ∧ st.connection = some c ∧
          st.remoteInstigated = true) ∧
      ((Engine.closeConnection env e target).2 = true →
        (Engine.closeConnection env e target).1 = e) ∧
      ((Engine.closeConnection env e target).2 = false →
        mapFind (Engine.closeConnection env e target).1.connectionStates target = none) ∧
      (∀ st c, mapFind e.connectionStates target = some st → st.connection = some c →
        st.remoteInstigated = false →
        (Engine.closeConnection env e target).1.radioCalls =
          e.radioCalls ++ [RadioCall.connDisconnect c]) ∧
      ((¬ ∃ st c, mapFind e.connectionStates target = some st ∧ st.connection = some c ∧
          st.remoteInstigated = false) →
        (Engine.closeConnection env e target).1.radioCalls = e.radioCalls) := by
  cases hf : mapFind e.connectionStates target with
  | none =>
    have h1 : Engine.findOrCreateState env e target =
        { e with connectionStates := (mapEmplace env.lt target (ConnectedDeviceState.new target)
          e.connectionStates) } := by
      simp [Engine.findOrCreateState, hf]
    have h2 : (Engine.findOrCreateState env e target).stateOf target =
        ConnectedDeviceState.new target := by
      rw [h1]
      simp [Engine.stateOf, mapFind_mapEmplace_self env.lt target _ _ hf]
    have h3 : Engine.closeConnection env e target =
        (Engine.removeState { e with connectionStates :=
          (mapUpdate target (fun s => { s with remoteInstigated := false })
            (mapEmplace env.lt target (ConnectedDeviceState.new target) e.connectionStates)) }
          target, false) := by
      simp [Engine.closeConnection, h2, ConnectedDeviceState.new, h1, Engine.stateOf,
        mapFind_mapUpdate, mapFind_mapEmplace_self env.lt target _ _ hf]
    rw [h3]
    simp [Engine.removeState, mapFind_mapErase]
  | some st =>
    have h1 : Engine.findOrCreateState env e target = e := by
      simp [Engine.findOrCreateState, hf]
    have h2 : e.stateOf target = st := by simp [Engine.stateOf, hf]
    cases hc : st.connection with
    | none =>
      have h3 : Engine.closeConnection env e target =
          (Engine.removeState { e with connectionStates :=
            (mapUpdate target (fun s => { s with remoteInstigated := false })
              e.connectionStates) } target, false) := by
        simp [Engine.closeConnection, h1, h2, hc, Engine.stateOf, mapFind_mapUpdate, hf]
      rw [h3]
      simp [Engine.removeState, mapFind_mapErase, hc]
      intro s1 c1 hs h4
      rw [← hs, hc] at h4
      cases h4
    | some c =>
      cases hr : st.remoteInstigated with
      | true =>
        have h3 : Engine.closeConnection env e target = (e, true) := by
          simp [Engine.closeConnection, h1, h2, hc, hr]
        rw [h3]
        simp [hc, hr]
        intro s1 c1 hs _
        rw [← hs]
        exact hr
      | false =>
        have h3 : Engine.closeConnection env e target =
            (Engine.removeState { e with radioCalls :=
              (e.radioCalls ++ [RadioCall.connDisconnect c]) } target, false) := by
          simp [Engine.closeConnection, h1, h2, hc, hr, Engine.stateOf, hf]
        rw [h3]
        simp [Engine.removeState, mapFind_mapErase, hc, hr]
        intro s1 c1 hs h4 _
        rw [← hs, hc] at h4
        exact Option.some.inj h4

/-! ## The connection callbacks -/

section Callbacks

open Engine

theorem statesFindOrCreateByConnection_found (env : Env)
    {m : List (TargetIdentifier × ConnectedDeviceState)} {conn : Nat} {k : TargetIdentifier}
    (h : findConnection m conn = some k) (ri : Bool) :
    statesFindOrCreateByConnection env m conn ri = (m, k) := by
  simp [statesFindOrCreateByConnection, h]

theorem statesFindOrCreateByConnection_new (env : Env)
    {m : List (TargetIdentifier × ConnectedDeviceState)} {conn : Nat}
    (h : findConnection m conn = none) (ri : Bool) :
    statesFindOrCreateByConnection env m conn ri =
      (mapUpdate (env.macData (env.dst conn).val)
        (fun s => { s with address := env.dst conn, remoteInstigated := ri })
        (mapEmplace env.lt (env.macData (env.dst conn).val)
          (ConnectedDeviceState.new (env.macData (env.dst conn).val)) m),
        env.macData (env.dst conn).val) := by
  simp [statesFindOrCreateByConnection, h]

/-- The state that `findOrCreateStateByConnection` returns is in the map afterwards. -/
theorem statesFindOrCreateByConnection_mem (env : Env)
    (m : List (TargetIdentifier × ConnectedDeviceState)) (conn : Nat) (ri : Bool) :
    ∃ s, mapFind (statesFindOrCreateByConnection env m conn ri).1
      (statesFindOrCreateByConnection env m conn ri).2 = some s := by
  cases hf : findConnection m conn with
  | some k =>
    rw [statesFindOrCreateByConnection_found env hf]
    exact mapFind_of_findConnection hf
  | none =>
    rw [statesFindOrCreateByConnection_new env hf]
    obtain ⟨w, hw⟩ := mapFind_mapEmplace_isSome env.lt (env.macData (env.dst conn).val)
      (ConnectedDeviceState.new (env.macData (env.dst conn).val)) m
    exact ⟨_, by rw [mapFind_mapUpdate, if_pos rfl, hw]; rfl⟩

theorem stateOf_eq_of_mapFind {e : Engine} {key : TargetIdentifier} {s : ConnectedDeviceState}
    (h : mapFind e.connectionStates key = some s) : e.stateOf key = s := by
  simp [stateOf, h]

end Callbacks

/-! ## The walk over the discovered characteristics -/

section Discovery

open Engine

theorem mapFind_dbDevice_eq (db : BLEDatabase) (target : TargetIdentifier) :
    mapFind (dbDevice db target) target = some ((mapFind db target).getD BLEDevice.new) := by
  obtain ⟨d, hd⟩ := mapFind_dbDevice db target
  cases h : mapFind db target with
  | some d0 =>
    unfold dbDevice
    rw [any_key_of_mapFind h]
    simp [h]
  | none =>
    rw [hd]
    unfold dbDevice at hd
    rw [(mapFind_eq_none_iff db target).mp h] at hd
    simp only [Bool.false_eq_true, if_false] at hd
    have : ∀ (l : BLEDatabase), mapFind l target = none →
        mapFind (l ++ [(target, BLEDevice.new)]) target = some BLEDevice.new := by
      intro l
      induction l with
      | nil => intro _; simp [mapFind]
      | cons p l ih =>
        intro hl
        rw [mapFind_cons] at hl
        by_cases hp : p.1 = target
        · simp [hp] at hl
        · rw [if_neg hp] at hl
          rw [List.cons_append, mapFind_cons, if_neg hp]
          exact ih hl
    rw [this db h] at hd
    simp [← hd]

theorem lastSignal_append_singleton (chars : List GattChrc) (c : GattChrc) :
    lastSignal (chars ++ [c]) =
      if c.uuid = herald_char_signal_android_uuid then some BLEDeviceOperatingSystem.android
      else if c.uuid = herald_char_signal_ios_uuid then some BLEDeviceOperatingSystem.ios
      else lastSignal chars := by
  unfold lastSignal
  rw [List.reverse_append, List.reverse_singleton, List.singleton_append, List.find?_cons]
  by_cases h1 : c.uuid = herald_char_signal_android_uuid
  · simp [h1]
  · by_cases h2 : c.uuid = herald_char_signal_ios_uuid
    · have h3 : ¬ herald_char_signal_ios_uuid = herald_char_signal_android_uuid := by decide
      simp [h2, h3]
    · simp [h1, h2]

theorem payload_ne_android : ¬ herald_char_payload_uuid = herald_char_signal_android_uuid := by
  decide

theorem payload_ne_ios : ¬ herald_char_payload_uuid = herald_char_signal_ios_uuid := by
  decide

/-- The operating system guess of the Device Record of `target` after one turn of the loop of
`discovery_completed_cb`. -/
theorem discoveryStep_operatingSystem (key target : TargetIdentifier) (conn : Nat)
    (acc : Engine × Bool) (c : GattChrc) (d : BLEDevice)
    (hd : mapFind acc.1.db target = some d) :
    ∃ d2, mapFind (discoveryStep key target conn acc c).1.db target = some d2 ∧
      d2.operatingSystem =
        if c.uuid = herald_char_signal_android_uuid then BLEDeviceOperatingSystem.android
        else if c.uuid = herald_char_signal_ios_uuid then BLEDeviceOperatingSystem.ios
        else d.operatingSystem := by
  by_cases hp : c.uuid = herald_char_payload_uuid
  · have h1 : ¬ c.uuid = herald_char_signal_android_uuid := by rw [hp]; exact payload_ne_android
    have h2 : ¬ c.uuid = herald_char_signal_ios_uuid := by rw [hp]; exact payload_ne_ios
    refine ⟨{ d with
      payloadCharacteristic := (some BLESensorConfiguration.payloadCharacteristicUUID) }, ?_, ?_⟩
    · simp [discoveryStep, hp, mapFind_mapUpdate, hd]
    · simp [h1, h2]
  · by_cases h1 : c.uuid = herald_char_signal_android_uuid
    · refine ⟨{ d with
        signalCharacteristic := some BLESensorConfiguration.androidSignalCharacteristicUUID,
        operatingSystem := BLEDeviceOperatingSystem.android }, ?_, ?_⟩
      · unfold discoveryStep
        simp only [if_neg hp, if_pos h1]
        simp [mapFind_mapUpdate, hd]
      · simp [h1]
    · by_cases h2 : c.uuid = herald_char_signal_ios_uuid
      · refine ⟨{ d with
          signalCharacteristic := some BLESensorConfiguration.iosSignalCharacteristicUUID,
          operatingSystem := BLEDeviceOperatingSystem.ios }, ?_, ?_⟩
        · unfold discoveryStep
          simp only [if_neg hp, if_neg h1, if_pos h2]
          simp [mapFind_mapUpdate, hd]
        · rw [if_neg h1, if_pos h2]
      · refine ⟨d, ?_, ?_⟩
        · simp [discoveryStep, hp, h1, h2, hd]
        · simp [h1, h2]

theorem discovery_fold_operatingSystem (key target : TargetIdentifier) (conn : Nat)
    (acc : Engine × Bool) (d0 : BLEDevice) (hd : mapFind acc.1.db target = some d0)
    (chars : List GattChrc) :
    ∃ d, mapFind (chars.foldl (discoveryStep key target conn) acc).1.db target = some d ∧
      d.operatingSystem = (lastSignal chars).getD d0.operatingSystem := by
  induction chars using List.reverseRecOn with
  | nil => exact ⟨d0, hd, by simp [lastSignal]⟩
  | append_singleton chars c ih =>
    obtain ⟨d1, h1, h2⟩ := ih
    rw [List.foldl_append, List.foldl_cons, List.foldl_nil]
    obtain ⟨d2, h3, h4⟩ := discoveryStep_operatingSystem key target conn _ c d1 h1
    refine ⟨d2, h3, ?_⟩
    rw [h4, lastSignal_append_singleton, h2]
    split_ifs <;> rfl

end Discovery

/-! ## The reconciliation sweep -/

section Sweep

open Engine

theorem eraseLoop_some (l m : List (TargetIdentifier × ConnectedDeviceState))
    (h : eraseLoop l = some m) : m = l ∧ ∀ p ∈ l, p.2.connection ≠ none := by
  induction l generalizing m with
  | nil =>
    simp [eraseLoop] at h
    exact ⟨h, by simp⟩
  | cons p rest ih =>
    unfold eraseLoop at h
    by_cases hp : p.2.connection = none
    · simp [hp] at h
    · rw [if_neg hp] at h
      cases hr : eraseLoop rest with
      | none => simp [hr] at h
      | some t =>
        obtain ⟨h1, h2⟩ := ih t hr
        simp [hr] at h
        refine ⟨by rw [← h, h1], ?_⟩
        intro q hq
        rcases List.mem_cons.mp hq with rfl | hq
        · exact hp
        · exact h2 q hq

theorem eraseLoop_of_all (l : List (TargetIdentifier × ConnectedDeviceState))
    (h : ∀ p ∈ l, p.2.connection ≠ none) : eraseLoop l = some l := by
  induction l with
  | nil => rfl
  | cons p rest ih =>
    unfold eraseLoop
    rw [if_neg (h p (List.mem_cons_self _ _)), ih (fun q hq => h q (List.mem_cons_of_mem _ hq))]
    rfl

/-- What the first loop of the sweep leaves in one Connection State: a handle only when the
state is not `disconnected` and the radio reports a live handle for its address, and then that
handle; the other fields are not written. -/
theorem sweepEntry_state (ans : SweepAnswers) (v : ConnectedDeviceState) (db : BLEDatabase)
    (calls : List RadioCall) :
    (∀ c, (sweepEntry ans v db calls).1.connection = some c →
        v.state ≠ BLEDeviceState.disconnected ∧ ans.lookup v.address = some c) ∧
      (sweepEntry ans v db calls).1.state = v.state ∧
      (sweepEntry ans v db calls).1.address = v.address ∧
      (sweepEntry ans v db calls).1.target = v.target ∧
      (sweepEntry ans v db calls).1.remoteInstigated = v.remoteInstigated := by
  unfold sweepEntry
  by_cases hd : v.state = BLEDeviceState.disconnected
  · simp [hd]
  · simp only [if_neg hd]
    cases hl : ans.lookup v.address with
    | none => simp
    | some conn =>
      by_cases hr : v.remoteInstigated = true
      · cases hs : ans.sinceConnected v.target with
        | none => simp [hr, hd]
        | some secs =>
          by_cases h30 : 30 < secs
          · simp [hr, h30]
          · simp [hr, h30, hd]
      · simp [hr, hd]

/-- The first loop of the sweep disconnects a connection exactly when the state is
remote-instigated and not `disconnected`, the radio reports a live handle and the time since
connected is defined and above 30 seconds; it then also clears the cached handle. In every
other case with a live handle and a state that is not `disconnected` the handle is kept. -/
theorem sweepEntry_disconnect (ans : SweepAnswers) (v : ConnectedDeviceState)
    (db : BLEDatabase) (calls : List RadioCall) :
    ((v.remoteInstigated = true ∧ v.state ≠ BLEDeviceState.disconnected ∧
        ∃ conn secs, ans.lookup v.address = some conn ∧
          ans.sinceConnected v.target = some secs ∧ 30 < secs ∧
          (sweepEntry ans v db calls).2.2 = calls ++ [RadioCall.connDisconnect conn] ∧
          (sweepEntry ans v db calls).1.connection = none) ∨
      ((sweepEntry ans v db calls).2.2 = calls ∧
        ¬ (v.remoteInstigated = true ∧ v.state ≠ BLEDeviceState.disconnected ∧
          ∃ conn secs, ans.lookup v.address = some conn ∧
            ans.sinceConnected v.target = some secs ∧ 30 < secs) ∧
        (v.state ≠ BLEDeviceState.disconnected →
          (sweepEntry ans v db calls).1.connection = ans.lookup v.address))) := by
  unfold sweepEntry
  by_cases hd : v.state = BLEDeviceState.disconnected
  · right
    simp [hd]
  · simp only [if_neg hd]
    cases hl : ans.lookup v.address with
    | none => right; simp
    | some conn =>
      by_cases hr : v.remoteInstigated = true
      · cases hs : ans.sinceConnected v.target with
        | none => right; simp [hr]
        | some secs =>
          by_cases h30 : 30 < secs
          · left
            exact ⟨hr, hd, conn, secs, rfl, rfl, h30, by simp [hr, h30], by simp [hr, h30]⟩
          · right
            simp [hr, h30]
      · right
        simp [hr]

theorem sweepLoop_mem (ans : SweepAnswers) (l : List (TargetIdentifier × ConnectedDeviceState))
    (db : BLEDatabase) (calls : List RadioCall) (q : TargetIdentifier × ConnectedDeviceState)
    (hq : q ∈ (sweepLoop ans l db calls).1) :
    ∃ p ∈ l, ∃ db2 calls2, q = (p.1, (sweepEntry ans p.2 db2 calls2).1) := by
  induction l generalizing db calls with
  | nil => simp [sweepLoop] at hq
  | cons p rest ih =>
    simp only [sweepLoop] at hq
    rcases List.mem_cons.mp hq with rfl | hq
    · exact ⟨p, List.mem_cons_self _ _, db, calls, rfl⟩
    · obtain ⟨p2, h1, h2⟩ := ih _ _ hq
      exact ⟨p2, List.mem_cons_of_mem _ h1, h2⟩

theorem mem_of_mapFind {V : Type} (m : List (TargetIdentifier × V)) (key : TargetIdentifier)
    (v : V) (h : mapFind m key = some v) : (key, v) ∈ m := by
  unfold mapFind at h
  cases hf : m.find? (fun p => decide (p.1 = key)) with
  | none => simp [hf] at h
  | some p =>
    simp [hf] at h
    have h1 := List.find?_some hf
    have h2 := List.mem_of_find?_eq_some hf
    simp at h1
    have : p = (key, v) := by rw [← h1, ← h]
    rw [← this]
    exact h2

/-- The postcondition of the sweep whenever its clean-up loop has nothing to erase: every
state in the cache has the handle the radio reported live for its address, and a state other
than `disconnected`. -/
theorem sweep_postcondition (ans : SweepAnswers) (e e2 : Engine)
    (h : restartScanningAndAdvertising ans e = some e2) (key : TargetIdentifier)
    (st : ConnectedDeviceState) (hs : mapFind e2.connectionStates key = some st) :
    st.connection ≠ none ∧ st.connection = ans.lookup st.address ∧
      st.state ≠ BLEDeviceState.disconnected := by
  unfold restartScanningAndAdvertising at h
  by_cases hem : e.connectionStates.isEmpty = true
  · simp only [hem, if_true, Option.map_some', Option.some.injEq] at h
    have h0 : e2.connectionStates = e.connectionStates := by
      rw [← h]
      unfold startScanning
      split_ifs <;> rfl
    rw [h0, List.isEmpty_iff.mp hem] at hs
    simp [mapFind] at hs
  · simp only [hem] at h
    cases hr : eraseLoop (sweepLoop ans e.connectionStates e.db e.radioCalls).1 with
    | none => simp [hr] at h
    | some m =>
      obtain ⟨h1, h2⟩ := eraseLoop_some _ _ hr
      simp only [hr, Bool.false_eq_true, if_false, Option.map_some', Option.some.injEq] at h
      have h0 : e2.connectionStates = m := by
        rw [← h]
        unfold startScanning
        split_ifs <;> rfl
      rw [h0, h1] at hs
      have hm := mem_of_mapFind _ _ _ hs
      have hc := h2 _ hm
      obtain ⟨p, _, db2, calls2, hq⟩ := sweepLoop_mem ans _ _ _ _ hm
      have hst : st = (sweepEntry ans p.2 db2 calls2).1 := (Prod.mk.inj hq).2
      obtain ⟨f1, f2, f3, _, _⟩ := sweepEntry_state ans p.2 db2 calls2
      simp only at hc
      cases hcc : st.connection with
      | none => exact absurd hcc hc
      | some c =>
        rw [hst] at hcc
        obtain ⟨g1, g2⟩ := f1 c hcc
        rw [← hst] at hcc
        refine ⟨by simp, ?_, ?_⟩
        · rw [hst, f3, g2]
        · rw [hst, f2]
          exact g1

theorem startScanning_of_scanning (e : Engine) (err : Int) (h : e.isScanning = true) :
    startScanning e err = e := by
  simp [startScanning, h]

/-- Every sweep that returns ends with the request to start advertising. -/
theorem sweep_requests_advertising (ans : SweepAnswers) (e e2 : Engine)
    (h : restartScanningAndAdvertising ans e = some e2) :
    ∃ calls, e2.radioCalls = calls ++ [RadioCall.advertiseStart] := by
  unfold restartScanningAndAdvertising at h
  simp only [Option.map_eq_some'] at h
  obtain ⟨e1, _, h2⟩ := h
  exact ⟨_, by rw [← h2]⟩

/-- A sweep over an empty cache while scanning is running issues no scan start. -/
theorem sweep_while_scanning (ans : SweepAnswers) (e : Engine)
    (hs : e.isScanning = true) (hem : e.connectionStates = []) :
    restartScanningAndAdvertising ans e =
      some { e with radioCalls := e.radioCalls ++ [RadioCall.advertiseStart] } := by
  unfold restartScanningAndAdvertising
  simp [hem, startScanning_of_scanning e _ hs]

end Sweep

/-! ## The claims about the callbacks, discovery and the sweep -/

/-- C11. A first `openConnection` on the empty cache whose `bt_conn_le_create` fails with
`-EINVAL` returns `false` and leaves the Connection State of the target in the cache with
`state = connecting` and a null `connection`. -/
theorem C11_failed_create_leaves_connecting :
    (Engine.openConnectionStart testEnv Engine.init [1, 2, 3, 4, 5, 6] (-22) 0).2 = some false ∧
      (mapFind (Engine.openConnectionStart testEnv Engine.init [1, 2, 3, 4, 5, 6]
          (-22) 0).1.connectionStates [1, 2, 3, 4, 5, 6]).map
        (fun s => (s.state, s.connection)) = some (BLEDeviceState.connecting, none) := by
  decide

/-- C12. When `connected(conn, err = 0)` arrives for a handle that no cached state holds,
the cache afterwards holds, under the identifier of the peer's address, a state with
`remoteInstigated = true`, `state = connected`, `connection = conn` and the peer's address;
when the handle is held by a state with `remoteInstigated = false` (one that `openConnection`
made), that state keeps `remoteInstigated = false` and becomes connected with that handle. -/
theorem C12_connected_flags_peer_connections (env : Env) (e : Engine) (conn : Nat) :
    (findConnection e.connectionStates conn = none →
        ∃ st, mapFind (Engine.connected env e conn 0).connectionStates
            (env.macData (env.dst conn).val) = some st ∧
          st.remoteInstigated = true ∧ st.state = BLEDeviceState.connected ∧
          st.connection = some conn ∧ st.address = env.dst conn) ∧
      (∀ key, findConnection e.connectionStates conn = some key →
        (e.stateOf key).remoteInstigated = false →
        ∃ st, mapFind (Engine.connected env e conn 0).connectionStates key = some st ∧
          st.remoteInstigated = false ∧ st.state = BLEDeviceState.connected ∧
          st.connection = some conn) := by
  refine ⟨?_, ?_⟩
  · intro hf
    obtain ⟨w, hw⟩ := mapFind_mapEmplace_isSome env.lt (env.macData (env.dst conn).val)
      (ConnectedDeviceState.new (env.macData (env.dst conn).val)) e.connectionStates
    refine ⟨{ w with connection := some conn, address := env.dst conn,
                     state := BLEDeviceState.connected, remoteInstigated := true },
      ?_, rfl, rfl, rfl, rfl⟩
    simp [Engine.connected, Engine.findOrCreateStateByConnection,
      statesFindOrCreateByConnection_new env hf, mapFind_mapUpdate, hw]
  · intro key hf hr
    obtain ⟨s, hs⟩ := mapFind_of_findConnection hf
    rw [stateOf_eq_of_mapFind hs] at hr
    refine ⟨{ s with connection := some conn, address := env.dst conn,
                     state := BLEDeviceState.connected }, ?_, hr, rfl, rfl⟩
    simp [Engine.connected, Engine.findOrCreateStateByConnection,
      statesFindOrCreateByConnection_found env hf, mapFind_mapUpdate, hs]

/-- C12 at a fresh engine (no state holds the handle 7) and at the engine in which
`openConnection` has just obtained the handle 7 for the target `01:02:03:04:05:06`. -/
theorem C12_connected_flags_peer_connections_witness :
    (∃ st, mapFind (Engine.connected testEnv Engine.init 7 0).connectionStates
          [1, 2, 3, 4, 5, 6] = some st ∧
        st.remoteInstigated = true ∧ st.state = BLEDeviceState.connected ∧
        st.connection = some 7 ∧ st.address = { type := 1, val := [1, 2, 3, 4, 5, 6] }) ∧
      (∃ st, mapFind (Engine.connected testEnv
            (Engine.openConnectionStart testEnv Engine.init [1, 2, 3, 4, 5, 6] 0 7).1
            7 0).connectionStates [1, 2, 3, 4, 5, 6] = some st ∧
        st.remoteInstigated = false ∧ st.state = BLEDeviceState.connected ∧
        st.connection = some 7) :=
  ⟨(C12_connected_flags_peer_connections testEnv Engine.init 7).1 (by decide),
    (C12_connected_flags_peer_connections testEnv
      (Engine.openConnectionStart testEnv Engine.init [1, 2, 3, 4, 5, 6] 0 7).1 7).2
      [1, 2, 3, 4, 5, 6] (by decide) (by decide)⟩

/-- C13. For every engine state and connection handle, `connected(conn, err)` with `err ≠ 0`
and `disconnected(conn, reason)` each leave the state they work on (the one
`findOrCreateStateByConnection` returns for `conn`) in the cache with `state = disconnected`
and a null handle, issue `bt_conn_unref(conn)` once and no other radio call, and leave the
Device Record of the peer's address marked disconnected. -/
theorem C13_failure_callbacks_disconnect (env : Env) (e : Engine) (conn err reason : Nat)
    (herr : err ≠ 0) :
    (∃ st, mapFind (Engine.connected env e conn err).connectionStates
          (Engine.findOrCreateStateByConnection env e conn true).2 = some st ∧
        st.state = BLEDeviceState.disconnected ∧ st.connection = none) ∧
      (Engine.connected env e conn err).radioCalls = e.radioCalls ++ [RadioCall.connUnref conn] ∧
      (∃ d, mapFind (Engine.connected env e conn err).db (env.macData (env.dst conn).val) =
          some d ∧ d.state = BLEDeviceState.disconnected) ∧
      (∃ st, mapFind (Engine.disconnected env e conn reason).connectionStates
          (Engine.findOrCreateStateByConnection env e conn false).2 = some st ∧
        st.state = BLEDeviceState.disconnected ∧ st.connection = none) ∧
      (Engine.disconnected env e conn reason).radioCalls =
        e.radioCalls ++ [RadioCall.connUnref conn] ∧
      (∃ d, mapFind (Engine.disconnected env e conn reason).db
          (env.macData (env.dst conn).val) = some d ∧
        d.state = BLEDeviceState.disconnected) := by
  obtain ⟨s1, hs1⟩ := statesFindOrCreateByConnection_mem env e.connectionStates conn true
  obtain ⟨s2, hs2⟩ := statesFindOrCreateByConnection_mem env e.connectionStates conn false
  obtain ⟨d1, hd1⟩ := mapFind_dbDevice e.db (env.macData (env.dst conn).val)
  refine ⟨⟨{ s1 with state := BLEDeviceState.disconnected, connection := none }, ?_, rfl, rfl⟩,
    ?_, ⟨{ d1 with state := BLEDeviceState.disconnected }, ?_, rfl⟩,
    ⟨{ s2 with state := BLEDeviceState.disconnected, connection := none }, ?_, rfl, rfl⟩,
    ?_, ⟨{ d1 with state := BLEDeviceState.disconnected }, ?_, rfl⟩⟩
  · simp [Engine.connected, Engine.findOrCreateStateByConnection, herr, mapFind_mapUpdate, hs1]
  · simp [Engine.connected, Engine.findOrCreateStateByConnection, herr]
  · simp [Engine.connected, Engine.findOrCreateStateByConnection, herr, mapFind_mapUpdate, hd1]
  · simp [Engine.disconnected, Engine.findOrCreateStateByConnection, mapFind_mapUpdate, hs2]
  · simp [Engine.disconnected, Engine.findOrCreateStateByConnection]
  · simp [Engine.disconnected, Engine.findOrCreateStateByConnection, mapFind_mapUpdate, hd1]

/-- C13 at the engine in which the peer `01:02:03:04:05:06` is connected under the handle 7,
with the error code 2 and the reason 19. -/
theorem C13_failure_callbacks_disconnect_witness :
    (∃ st, mapFind (Engine.connected testEnv (Engine.connected testEnv Engine.init 7 0) 7
            2).connectionStates
          (Engine.findOrCreateStateByConnection testEnv
            (Engine.connected testEnv Engine.init 7 0) 7 true).2 = some st ∧
        st.state = BLEDeviceState.disconnected ∧ st.connection = none) ∧
      (Engine.connected testEnv (Engine.connected testEnv Engine.init 7 0) 7 2).radioCalls =
        (Engine.connected testEnv Engine.init 7 0).radioCalls ++ [RadioCall.connUnref 7] ∧
      (∃ d, mapFind (Engine.connected testEnv (Engine.connected testEnv Engine.init 7 0) 7
            2).db (testEnv.macData (testEnv.dst 7).val) = some d ∧
        d.state = BLEDeviceState.disconnected) ∧
      (∃ st, mapFind (Engine.disconnected testEnv (Engine.connected testEnv Engine.init 7 0) 7
            19).connectionStates
          (Engine.findOrCreateStateByConnection testEnv
            (Engine.connected testEnv Engine.init 7 0) 7 false).2 = some st ∧
        st.state = BLEDeviceState.disconnected ∧ st.connection = none) ∧
      (Engine.disconnected testEnv (Engine.connected testEnv Engine.init 7 0) 7 19).radioCalls =
        (Engine.connected testEnv Engine.init 7 0).radioCalls ++ [RadioCall.connUnref 7] ∧
      (∃ d, mapFind (Engine.disconnected testEnv (Engine.connected testEnv Engine.init 7 0) 7
            19).db (testEnv.macData (testEnv.dst 7).val) = some d ∧
        d.state = BLEDeviceState.disconnected) :=
  C13_failure_callbacks_disconnect testEnv (Engine.connected testEnv Engine.init 7 0) 7 2 19
    (by decide)

/-- The engine in which `openConnection` to `01:02:03:04:05:06` has obtained the handle 7 and
the radio has reported the connection: the state of the target is connected, holds the handle
and is not `remoteInstigated`. -/
theorem ownConnection_state :
    mapFind (Engine.connected testEnv
        (Engine.openConnectionStart testEnv Engine.init [1, 2, 3, 4, 5, 6] 0 7).1 7
        0).connectionStates [1, 2, 3, 4, 5, 6] =
      some { ConnectedDeviceState.new [1, 2, 3, 4, 5, 6] with
        state := BLEDeviceState.connected, connection := some 7,
        address := { type := 1, val := [1, 2, 3, 4, 5, 6] }, remoteInstigated := false } := by
  decide

/-- C15. When discovery reports `service_not_found` for a connection, the Device Record of the
target of that connection's state has `ignore = true` afterwards, whatever it held before, and
its list of services is set, to the empty list. -/
theorem C15_service_not_found_ignores_device (env : Env) (e : Engine) (conn : Nat) :
    ∃ d, mapFind (Engine.discovery_service_not_found_cb env e conn).db
        ((Engine.findOrCreateStateByConnection env e conn false).1.stateOf
          (Engine.findOrCreateStateByConnection env e conn false).2).target = some d ∧
      d.ignore = true ∧ d.services = some [] := by
  obtain ⟨d0, hd0⟩ := mapFind_dbDevice e.db
    ((Engine.findOrCreateStateByConnection env e conn false).1.stateOf
      (Engine.findOrCreateStateByConnection env e conn false).2).target
  refine ⟨{ d0 with services := some [], ignore := true }, ?_, rfl, rfl⟩
  have hdb : (Engine.findOrCreateStateByConnection env e conn false).1.db = e.db := rfl
  simp only [Engine.discovery_service_not_found_cb, mapFind_mapUpdate, if_true, hdb, hd0]
  rfl

/-- C16. For every list of characteristics that `discovery_completed_cb` walks, the operating
system guess of the Device Record of the connection's target is afterwards `android` if the
last signal characteristic of the list is the Android one, `ios` if it is the iOS one, and what
it was before (`unknown` for a record the callback creates) if the list holds neither; a
characteristic that matches none of the three Herald UUIDs changes nothing. -/
theorem C16_operating_system_from_last_signal (env : Env) (e : Engine) (dm : GattDm) :
    (∃ d, mapFind (Engine.discovery_completed_cb env e dm).db
          ((Engine.findOrCreateStateByConnection env e dm.conn false).1.stateOf
            (Engine.findOrCreateStateByConnection env e dm.conn false).2).target = some d ∧
        d.operatingSystem = (lastSignal dm.chars).getD
          ((mapFind e.db
            ((Engine.findOrCreateStateByConnection env e dm.conn false).1.stateOf
              (Engine.findOrCreateStateByConnection env e dm.conn false).2).target).getD
            BLEDevice.new).operatingSystem) ∧
      BLEDevice.new.operatingSystem = BLEDeviceOperatingSystem.unknown ∧
      ∀ (key target : TargetIdentifier) (conn : Nat) (acc : Engine × Bool) (c : GattChrc),
        ¬ c.uuid = herald_char_payload_uuid → ¬ c.uuid = herald_char_signal_android_uuid →
        ¬ c.uuid = herald_char_signal_ios_uuid →
        Engine.discoveryStep key target conn acc c = acc := by
  refine ⟨?_, rfl, ?_⟩
  · generalize hr : Engine.findOrCreateStateByConnection env e dm.conn false = r
    have hdb : r.1.db = e.db := by rw [← hr]; rfl
    have h0 := mapFind_dbDevice_eq e.db (r.1.stateOf r.2).target
    obtain ⟨d, h1, h2⟩ := discovery_fold_operatingSystem r.2 (r.1.stateOf r.2).target dm.conn
      (({ r.1 with db := dbDevice r.1.db (r.1.stateOf r.2).target } : Engine), false) _
      (by rw [hdb]; exact h0) dm.chars
    simp only [Engine.discovery_completed_cb, hr]
    split_ifs
    · exact ⟨{ d with ignore := true, services := some [BLESensorConfiguration.serviceUUID] },
        by simp [mapFind_mapUpdate, h1], h2⟩
    · exact ⟨{ d with services := some [BLESensorConfiguration.serviceUUID] },
        by simp [mapFind_mapUpdate, h1], h2⟩
  · intro key target conn acc c h1 h2 h3
    simp [Engine.discoveryStep, h1, h2, h3]

/-- A witness of C16: new peer, empty list; a characteristic with the 16-bit UUID 0x2A00
matches none of the three Herald UUIDs and leaves the engine as it was. -/
theorem C16_operating_system_from_last_signal_witness :
    (∃ d, mapFind (Engine.discovery_completed_cb testEnv Engine.init
          { conn := 7, chars := [] }).db [1, 2, 3, 4, 5, 6] = some d ∧
        d.operatingSystem = BLEDeviceOperatingSystem.unknown) ∧
      Engine.discoveryStep [1, 2, 3, 4, 5, 6] [1, 2, 3, 4, 5, 6] 7 (Engine.init, false)
        { uuid := [0x2a, 0x00], value_handle := 2 } = (Engine.init, false) :=
  ⟨(C16_operating_system_from_last_signal testEnv Engine.init { conn := 7, chars := [] }).1,
    (C16_operating_system_from_last_signal testEnv Engine.init { conn := 7, chars := [] }).2.2
      [1, 2, 3, 4, 5, 6] [1, 2, 3, 4, 5, 6] 7 (Engine.init, false)
      { uuid := [0x2a, 0x00], value_handle := 2 } (by decide) (by decide) (by decide)⟩

/-- An evaluation of C16: discovery on a new peer that lists the iOS signal characteristic, an
unknown characteristic, the payload characteristic and then the Android signal characteristic
leaves the guess `android`. -/
theorem operating_system_guess_example :
    (mapFind (Engine.discovery_completed_cb testEnv Engine.init
        { conn := 7, chars := [
          { uuid := herald_char_signal_ios_uuid, value_handle := 1 },
          { uuid := [0x2a, 0x00], value_handle := 2 },
          { uuid := herald_char_payload_uuid, value_handle := 3 },
          { uuid := herald_char_signal_android_uuid, value_handle := 4 }] }).db
        [1, 2, 3, 4, 5, 6]).map BLEDevice.operatingSystem =
      some BLEDeviceOperatingSystem.android := by
  decide

/-- C17. For every engine state, connection and error code, `discovery_error_found_cb` leaves
the engine as it is: the Device Database (so every ignore flag and payload) and every cached
connection state are unchanged, and no radio call is issued. -/
theorem C17_discovery_error_changes_nothing (env : Env) (e : Engine) (conn : Nat) (err : Int) :
    Engine.discovery_error_found_cb env e conn err = e ∧
      (Engine.discovery_error_found_cb env e conn err).db = e.db ∧
      (Engine.discovery_error_found_cb env e conn err).connectionStates = e.connectionStates ∧
      (Engine.discovery_error_found_cb env e conn err).radioCalls = e.radioCalls :=
  ⟨rfl, rfl, rfl, rfl⟩

/-- C18. With one connected peer in the cache for which the radio reports no live handle, the
first loop of the sweep clears the handle and the clean-up loop then erases the element it is
iterating on and increments the erased iterator: the sweep has no defined result. -/
theorem C18_sweep_erase_is_undefined :
    (mapFind (Engine.connected testEnv Engine.init 7 0).connectionStates
        [1, 2, 3, 4, 5, 6]).map (fun s => (s.state, s.connection)) =
        some (BLEDeviceState.connected, some 7) ∧
      (Engine.sweepLoop noLiveConnection (Engine.connected testEnv Engine.init 7 0).connectionStates
        [] []).1.map (fun p => p.2.connection) = [none] ∧
      Engine.restartScanningAndAdvertising noLiveConnection
        (Engine.connected testEnv Engine.init 7 0) = none := by
  decide

/-- C19. A peer-initiated connection that the radio reports live and that has been connected
for 31 seconds is disconnected by the first loop of the sweep, which clears its handle; the
clean-up loop then erases the element it is iterating on and increments the erased iterator,
so the sweep has no defined result and the state is not known to be removed. -/
theorem C19_forced_disconnect_then_undefined :
    (Engine.sweepLoop (liveFor 31) (Engine.connected testEnv Engine.init 7 0).connectionStates
        [] []).2.2 = [RadioCall.connDisconnect 7] ∧
      (Engine.sweepLoop (liveFor 31) (Engine.connected testEnv Engine.init 7 0).connectionStates
        [] []).1.map (fun p => p.2.connection) = [none] ∧
      Engine.restartScanningAndAdvertising (liveFor 31)
        (Engine.connected testEnv Engine.init 7 0) = none ∧
      (Engine.restartScanningAndAdvertising (liveFor 30)
        (Engine.connected testEnv Engine.init 7 0)).map
          (fun e => (e.connectionStates.map (fun p => p.2.connection),
            e.radioCalls.filter (fun c => decide (c = RadioCall.connDisconnect 7)))) =
        some ([some 7], []) := by
  decide

/-- C20. With scanning disabled in the sensor configuration `start` does nothing, yet the
sweep on the same engine asks the radio to start scanning and records that it is scanning. -/
theorem C20_sweep_ignores_scanningEnabled :
    Engine.start false Engine.init 0 = Engine.init ∧
      Engine.restartScanningAndAdvertising noLiveConnection Engine.init =
        some { connectionStates := [], isScanning := true, db := [],
               radioCalls := [RadioCall.scanStart, RadioCall.advertiseStart] } := by
  decide

/-! ## `waitWithTimeout` -/

section Wait

variable {σ : Type}

end Wait

/-! ## `openConnection` up to its wait -/

section OpenConnection

open Engine

theorem stopScanning_connectionStates (e : Engine) :
    (stopScanning e).connectionStates = e.connectionStates := by
  unfold stopScanning
  split_ifs <;> rfl

theorem stopScanning_db (e : Engine) : (stopScanning e).db = e.db := by
  unfold stopScanning
  split_ifs <;> rfl

theorem stopScanning_isScanning (e : Engine) : (stopScanning e).isScanning = false := by
  unfold stopScanning
  split_ifs with h
  · rfl
  · simpa using h

theorem stopScanning_radioCalls (e : Engine) :
    (stopScanning e).radioCalls =
      e.radioCalls ++ (if e.isScanning then [RadioCall.scanStop] else []) := by
  unfold stopScanning
  split_ifs <;> simp

theorem findOrCreateState_mem (env : Env) (e : Engine) (target : TargetIdentifier) :
    mapFind (findOrCreateState env e target).connectionStates target =
      some ((mapFind e.connectionStates target).getD (ConnectedDeviceState.new target)) := by
  unfold findOrCreateState
  cases h : mapFind e.connectionStates target with
  | some s => simp [h]
  | none => simp [mapFind_mapEmplace_self env.lt target _ _ h]

theorem findOrCreateState_frame (env : Env) (e : Engine) (target : TargetIdentifier) :
    (findOrCreateState env e target).db = e.db ∧
      (findOrCreateState env e target).radioCalls = e.radioCalls ∧
      (findOrCreateState env e target).isScanning = e.isScanning := by
  unfold findOrCreateState
  cases h : mapFind e.connectionStates target <;> simp

/-- The engine at the call of `bt_conn_le_create`: scanning is off, the calls issued so far
are the stop of the scan (if it was running) and the stop of advertising, and the state of the
target is `connecting` and not `remoteInstigated`. -/
theorem openConnectionPrepare_spec (env : Env) (e : Engine) (toTarget : TargetIdentifier) :
    (openConnectionPrepare env e toTarget).isScanning = false ∧
      (openConnectionPrepare env e toTarget).radioCalls =
        e.radioCalls ++ (if e.isScanning then [RadioCall.scanStop] else []) ++
          [RadioCall.advertiseStop] ∧
      (openConnectionPrepare env e toTarget).db = e.db ∧
      mapFind (openConnectionPrepare env e toTarget).connectionStates toTarget =
        some { (mapFind e.connectionStates toTarget).getD (ConnectedDeviceState.new toTarget) with
          address := { type := 1, val := addressBytes toTarget },
          state := BLEDeviceState.connecting, remoteInstigated := false } := by
  obtain ⟨f1, f2, f3⟩ := findOrCreateState_frame env e toTarget
  refine ⟨?_, ?_, ?_, ?_⟩
  · simp [openConnectionPrepare, stopScanning_isScanning]
  · simp [openConnectionPrepare, stopScanning_radioCalls, f2, f3]
  · simp [openConnectionPrepare, stopScanning_db, f1]
  · simp [openConnectionPrepare, stopScanning_connectionStates, mapFind_mapUpdate,
      findOrCreateState_mem]

/-- The run of `openConnection` up to its wait, for a state without a connection, is the
engine at the call of `bt_conn_le_create` followed by that call and the branch on its result. -/
theorem openConnectionStart_of_null (env : Env) (e : Engine) (toTarget : TargetIdentifier)
    (success : Int) (handle : Nat)
    (hnull : ((findOrCreateState env e toTarget).stateOf toTarget).connection = none) :
    openConnectionStart env e toTarget success handle =
      if success ≠ 0 then
        ({ openConnectionPrepare env e toTarget with
            db := (mapUpdate (env.macData (addressBytes toTarget))
              (fun d => { d with state := BLEDeviceState.disconnected })
              (dbDevice e.db (env.macData (addressBytes toTarget)))),
            radioCalls := (openConnectionPrepare env e toTarget).radioCalls ++
              [RadioCall.connCreate { type := 1, val := addressBytes toTarget },
                RadioCall.advertiseStart] }, some false)
      else
        ({ openConnectionPrepare env e toTarget with
            connectionStates := (mapUpdate toTarget (fun s => { s with connection := some handle })
              (openConnectionPrepare env e toTarget).connectionStates),
            radioCalls := (openConnectionPrepare env e toTarget).radioCalls ++
              [RadioCall.connCreate { type := 1, val := addressBytes toTarget }] }, none) := by
  obtain ⟨f1, f2, f3⟩ := findOrCreateState_frame env e toTarget
  have hm := findOrCreateState_mem env e toTarget
  rw [stateOf_eq_of_mapFind hm] at hnull
  have h4 : (({ stopScanning ({ findOrCreateState env e toTarget with connectionStates :=
      (mapUpdate toTarget (fun s => { s with
        address := ({ type := 1, val := addressBytes toTarget } : BtAddrLe) })
        (findOrCreateState env e toTarget).connectionStates) } : Engine) with
      radioCalls := (stopScanning ({ findOrCreateState env e toTarget with connectionStates :=
        (mapUpdate toTarget (fun s => { s with
          address := ({ type := 1, val := addressBytes toTarget } : BtAddrLe) })
          (findOrCreateState env e toTarget).connectionStates) } : Engine)).radioCalls ++
        [RadioCall.advertiseStop] } : Engine).stateOf toTarget).connection = none := by
    simp [stateOf, stopScanning_connectionStates, mapFind_mapUpdate, hm, hnull]
  unfold openConnectionStart openConnectionPrepare
  simp only [h4]
  split_ifs <;> simp [stopScanning_db, f1]

theorem mapFind_append_singleton {V : Type} (l : List (TargetIdentifier × V))
    (t : TargetIdentifier) (v : V) (k : TargetIdentifier) :
    mapFind (l ++ [(t, v)]) k =
      match mapFind l k with
      | some x => some x
      | none => if t = k then some v else none := by
  induction l with
  | nil => simp [mapFind_cons, mapFind]
  | cons p l ih =>
    rw [List.cons_append, mapFind_cons, mapFind_cons]
    by_cases hp : p.1 = k
    · simp [hp]
    · simp only [hp, if_false]
      exact ih

/-- Reading a field of the record of `k`, or of a new record when there is none, gives the
same before and after `db->device(t)`. -/
theorem field_dbDevice {α : Type} (f : BLEDevice → α) (db : BLEDatabase)
    (t k : TargetIdentifier) :
    ((mapFind (dbDevice db t) k).map f).getD (f BLEDevice.new) =
      ((mapFind db k).map f).getD (f BLEDevice.new) := by
  unfold dbDevice
  split_ifs with h
  · rfl
  · rw [mapFind_append_singleton]
    cases hk : mapFind db k with
    | some x => simp
    | none =>
      by_cases htk : t = k
      · simp [htk]
      · simp [htk]

/-- Reading a field that the update `g` does not write gives the same before and after the
update of the record of `t`. -/
theorem field_mapUpdate {α : Type} (f : BLEDevice → α) (g : BLEDevice → BLEDevice)
    (hg : ∀ d, f (g d) = f d) (db : BLEDatabase) (t k : TargetIdentifier) :
    (mapFind (mapUpdate t g db) k).map f = (mapFind db k).map f := by
  rw [mapFind_mapUpdate]
  split_ifs
  · cases mapFind db k <;> simp [hg]
  · rfl

/-- A run of `openConnection` for a state that holds a connection issues no connect: it stops
the scan and advertising and returns `true`. -/
theorem openConnectionStart_reuses (env : Env) (e : Engine) (toTarget : TargetIdentifier)
    (success : Int) (handle conn : Nat)
    (hconn : ((findOrCreateState env e toTarget).stateOf toTarget).connection = some conn) :
    (openConnectionStart env e toTarget success handle).2 = some true ∧
      (openConnectionStart env e toTarget success handle).1.radioCalls =
        e.radioCalls ++ (if e.isScanning then [RadioCall.scanStop] else []) ++
          [RadioCall.advertiseStop] := by
  obtain ⟨f1, f2, f3⟩ := findOrCreateState_frame env e toTarget
  have hm := findOrCreateState_mem env e toTarget
  rw [stateOf_eq_of_mapFind hm] at hconn
  have h4 : (({ stopScanning ({ findOrCreateState env e toTarget with connectionStates :=
      (mapUpdate toTarget (fun s => { s with
        address := ({ type := 1, val := addressBytes toTarget } : BtAddrLe) })
        (findOrCreateState env e toTarget).connectionStates) } : Engine) with
      radioCalls := (stopScanning ({ findOrCreateState env e toTarget with connectionStates :=
        (mapUpdate toTarget (fun s => { s with
          address := ({ type := 1, val := addressBytes toTarget } : BtAddrLe) })
          (findOrCreateState env e toTarget).connectionStates) } : Engine)).radioCalls ++
        [RadioCall.advertiseStop] } : Engine).stateOf toTarget).connection = some conn := by
    simp [stateOf, stopScanning_connectionStates, mapFind_mapUpdate, hm, hconn]
  unfold openConnectionStart
  simp only [h4]
  simp [stopScanning_radioCalls, f2, f3]

end OpenConnection

/-! ## The wait of `openConnection` -/

section Timeout

open Engine

end Timeout

/-! ## Reads that do not complete, and `serviceDiscovery` -/

section PartialRead

open Engine

theorem readChunks_db (env : Env) (conn err : Nat) (chunks : List (List Nat)) :
    ∀ e : Engine, (readChunks env e conn err chunks).db = e.db := by
  induction chunks with
  | nil => intro e; rfl
  | cons c cs ih =>
    intro e
    have : readChunks env e conn err (c :: cs) =
        readChunks env (gatt_read_cb env e conn err (some c) c.length).1 conn err cs := rfl
    rw [this, ih, gatt_read_cb_chunk_db]

/-- The callback `disconnected` sets no payload: the payload of every Device Record (none for
a record not yet made) is what it was. -/
theorem disconnected_keeps_payload (env : Env) (e : Engine) (conn reason : Nat)
    (key : TargetIdentifier) :
    ((mapFind (disconnected env e conn reason).db key).map BLEDevice.payloadData).getD none =
      ((mapFind e.db key).map BLEDevice.payloadData).getD none := by
  have hdb : (disconnected env e conn reason).db =
      mapUpdate (env.macData (env.dst conn).val)
        (fun d => { d with state := BLEDeviceState.disconnected })
        (dbDevice e.db (env.macData (env.dst conn).val)) := by
    simp [disconnected, findOrCreateStateByConnection]
  rw [hdb, field_mapUpdate BLEDevice.payloadData
    (fun d => { d with state := BLEDeviceState.disconnected }) (fun _ => rfl)]
  exact field_dbDevice BLEDevice.payloadData e.db _ key

/-- Chunks of a read followed by `disconnected`, with no terminating call in between, leave the
payload of every Device Record as it was before the read. -/
theorem disconnect_mid_read_keeps_payload (env : Env) (e : Engine) (conn reason : Nat)
    (chunks : List (List Nat)) (key : TargetIdentifier) :
    ((mapFind (disconnected env (readChunks env e conn 0 chunks) conn reason).db key).map
        BLEDevice.payloadData).getD none =
      ((mapFind e.db key).map BLEDevice.payloadData).getD none := by
  rw [disconnected_keeps_payload, readChunks_db]

end PartialRead

section Discovery2

open Engine

theorem stateOf_findOrCreateState (env : Env) (e : Engine) (target : TargetIdentifier) :
    (findOrCreateState env e target).stateOf target =
      (mapFind e.connectionStates target).getD (ConnectedDeviceState.new target) :=
  stateOf_eq_of_mapFind (findOrCreateState_mem env e target)

theorem findOrCreateState_of_mem (env : Env) (e : Engine) (target : TargetIdentifier)
    (st : ConnectedDeviceState) (h : mapFind e.connectionStates target = some st) :
    findOrCreateState env e target = e := by
  simp [findOrCreateState, h]

end Discovery2

/-! ## The claims about `openConnection`, `waitWithTimeout`, reads, the UUIDs and `Sample` -/

/-- C21. In every run of `openConnection` that issues `bt_conn_le_create` (the state of the
target holds no connection), the engine at the call has `isScanning = false`, the calls issued
since the entry are the stop of a running scan and `stopAdvertising`, none of them a connect,
and the state of the target is `connecting` with `remoteInstigated = false`; the run then
issues the connect once, followed only by `startAdvertising` when the connect fails. -/
theorem C21_stops_radio_before_connect (env : Env) (e : Engine) (toTarget : TargetIdentifier)
    (success : Int) (handle : Nat)
    (hnull : ((Engine.findOrCreateState env e toTarget).stateOf toTarget).connection = none) :
    (Engine.openConnectionPrepare env e toTarget).isScanning = false ∧
      (Engine.openConnectionPrepare env e toTarget).radioCalls =
        e.radioCalls ++ (if e.isScanning then [RadioCall.scanStop] else []) ++
          [RadioCall.advertiseStop] ∧
      ((Engine.openConnectionPrepare env e toTarget).stateOf toTarget).state =
        BLEDeviceState.connecting ∧
      ((Engine.openConnectionPrepare env e toTarget).stateOf toTarget).remoteInstigated = false ∧
      (Engine.openConnectionPrepare env e toTarget).radioCalls.countP RadioCall.isConnCreate =
        e.radioCalls.countP RadioCall.isConnCreate ∧
      (Engine.openConnectionStart env e toTarget success handle).1.radioCalls =
        (Engine.openConnectionPrepare env e toTarget).radioCalls ++
          RadioCall.connCreate { type := 1, val := addressBytes toTarget } ::
            (if success ≠ 0 then [RadioCall.advertiseStart] else []) ∧
      (Engine.openConnectionStart env e toTarget success handle).1.radioCalls.countP
          RadioCall.isConnCreate = e.radioCalls.countP RadioCall.isConnCreate + 1 ∧
      (Engine.openConnectionStart env e toTarget success handle).1.isScanning = false := by
  obtain ⟨p1, p2, _, p4⟩ := openConnectionPrepare_spec env e toTarget
  have hcount : (Engine.openConnectionPrepare env e toTarget).radioCalls.countP
      RadioCall.isConnCreate = e.radioCalls.countP RadioCall.isConnCreate := by
    rw [p2]
    by_cases hs : e.isScanning = true <;> simp [hs, RadioCall.isConnCreate]
  have hstart := openConnectionStart_of_null env e toTarget success handle hnull
  refine ⟨p1, p2, ?_, ?_, hcount, ?_, ?_, ?_⟩
  · rw [stateOf_eq_of_mapFind p4]
  · rw [stateOf_eq_of_mapFind p4]
  · rw [hstart]
    by_cases hf : success = 0 <;> simp [hf]
  · rw [hstart]
    by_cases hf : success = 0 <;> simp [hf, hcount, RadioCall.isConnCreate]
  · rw [hstart]
    by_cases hf : success = 0 <;> simp [hf, p1]

/-- C21 at a fresh engine that is scanning, for the target `01:02:03:04:05:06` and a connect
that succeeds with the handle 7. -/
theorem C21_stops_radio_before_connect_witness :
    (Engine.openConnectionPrepare testEnv (Engine.startScanning Engine.init 0)
        [1, 2, 3, 4, 5, 6]).radioCalls =
        [RadioCall.scanStart, RadioCall.scanStop, RadioCall.advertiseStop] ∧
      (Engine.openConnectionStart testEnv (Engine.startScanning Engine.init 0)
        [1, 2, 3, 4, 5, 6] 0 7).1.radioCalls =
        [RadioCall.scanStart, RadioCall.scanStop, RadioCall.advertiseStop,
          RadioCall.connCreate { type := 1, val := [1, 2, 3, 4, 5, 6] }] :=
  ⟨(C21_stops_radio_before_connect testEnv (Engine.startScanning Engine.init 0)
      [1, 2, 3, 4, 5, 6] 0 7 (by decide)).2.1,
    (C21_stops_radio_before_connect testEnv (Engine.startScanning Engine.init 0)
      [1, 2, 3, 4, 5, 6] 0 7 (by decide)).2.2.2.2.2.1⟩

/-- C22. For every non-zero value returned by `bt_conn_le_create`, `openConnection` returns
`false` without waiting; the ignore flag of every Device Record (false for a record not yet
made) is what it was, the Device Record of the address connected to is marked disconnected, and
the calls issued end with the connect and `startAdvertising`, with no start of the scan, which
stays off. -/
theorem C22_connect_failure_is_transient (env : Env) (e : Engine) (toTarget : TargetIdentifier)
    (success : Int) (handle : Nat) (k_sleep : Nat → Engine → Engine) (uptime : Nat → Nat)
    (fuel : Nat)
    (hnull : ((Engine.findOrCreateState env e toTarget).stateOf toTarget).connection = none)
    (hfail : success ≠ 0) :
    Engine.openConnection env e toTarget success handle k_sleep uptime fuel =
        some ((Engine.openConnectionStart env e toTarget success handle).1, false) ∧
      (∀ key, ((mapFind (Engine.openConnectionStart env e toTarget success handle).1.db
          key).map BLEDevice.ignore).getD false =
        ((mapFind e.db key).map BLEDevice.ignore).getD false) ∧
      (∃ d, mapFind (Engine.openConnectionStart env e toTarget success handle).1.db
          (env.macData (addressBytes toTarget)) = some d ∧
        d.state = BLEDeviceState.disconnected) ∧
      (Engine.openConnectionStart env e toTarget success handle).1.radioCalls =
        e.radioCalls ++ (if e.isScanning then [RadioCall.scanStop] else []) ++
          [RadioCall.advertiseStop,
            RadioCall.connCreate { type := 1, val := addressBytes toTarget },
            RadioCall.advertiseStart] ∧
      (Engine.openConnectionStart env e toTarget success handle).1.isScanning = false := by
  obtain ⟨p1, p2, _, _⟩ := openConnectionPrepare_spec env e toTarget
  have hstart := openConnectionStart_of_null env e toTarget success handle hnull
  rw [if_pos hfail] at hstart
  refine ⟨?_, ?_, ?_, ?_, ?_⟩
  · unfold Engine.openConnection
    rw [hstart]
  · intro key
    rw [hstart]
    simp only
    rw [field_mapUpdate BLEDevice.ignore
      (fun d => { d with state := BLEDeviceState.disconnected }) (fun _ => rfl)]
    exact field_dbDevice BLEDevice.ignore e.db _ key
  · obtain ⟨d, hd⟩ := mapFind_dbDevice e.db (env.macData (addressBytes toTarget))
    refine ⟨{ d with state := BLEDeviceState.disconnected }, ?_, rfl⟩
    rw [hstart]
    simp [mapFind_mapUpdate, hd]
  · rw [hstart]
    simp [p2]
  · rw [hstart]
    exact p1

/-- C22 at a fresh engine, for the target `01:02:03:04:05:06` and the error `-ENOMEM`. -/
theorem C22_connect_failure_is_transient_witness :
    Engine.openConnection testEnv Engine.init [1, 2, 3, 4, 5, 6] (-12) 0 (fun _ x => x)
        (fun i => 25 * i) 0 =
      some ((Engine.openConnectionStart testEnv Engine.init [1, 2, 3, 4, 5, 6] (-12) 0).1,
        false) :=
  (C22_connect_failure_is_transient testEnv Engine.init [1, 2, 3, 4, 5, 6] (-12) 0
    (fun _ x => x) (fun i => 25 * i) 0 (by decide) (by decide)).1

/-- C24. With a budget of 0 ms, a predicate that is true at its only evaluation and two
readings of the clock in the same millisecond, `waitWithTimeout` returns 0 without sleeping,
although the predicate was true at its last evaluation. -/
theorem C24_zero_budget_returns_zero :
    waitWithTimeout 0 (fun _ (s : Unit) => s) (fun _ => true) (fun _ => 1000) 0 () =
      some { state := (), sleeps := 0, value := 0 } := by
  decide

/-- An evaluation of `waitWithTimeout`: budget 100 ms, a reading every 25 ms, a predicate that
turns false at its fourth evaluation (return value 0 after three sleeps), and one that stays
true (return value 100 after three sleeps). -/
theorem waitWithTimeout_examples :
    waitWithTimeout 100 (fun _ (s : Nat) => s + 1) (fun s => decide (s < 3))
        (fun i => 25 * i) 10 0 = some { state := 3, sleeps := 3, value := 0 } ∧
      waitWithTimeout 100 (fun _ (s : Nat) => s + 1) (fun _ => true)
        (fun i => 25 * i) 10 0 = some { state := 3, sleeps := 3, value := 100 } := by
  decide

/-- C25. With a read under way and no payload on the Device Record, one chunk `DE AD` followed
by `gatt_read_cb` with `err = 14` and null data makes the partial buffer `DE AD` the payload of
the Device Record. -/
theorem C25_read_error_commits_partial_payload :
    (mapFind readStarted.db [1, 2, 3, 4, 5, 6]).map BLEDevice.payloadData = some none ∧
      (mapFind (Engine.gatt_read_cb testEnv
          (Engine.gatt_read_cb testEnv readStarted 7 0 (some [0xDE, 0xAD]) 2).1 7 14 none
          0).1.db [1, 2, 3, 4, 5, 6]).map BLEDevice.payloadData = some (some [0xDE, 0xAD]) := by
  decide

/-- C26. The bytes of `herald_uuid`, `herald_char_signal_ios_uuid` and
`herald_char_payload_uuid`, read in reverse, are the bytes of the UUIDs
428132AF-4746-42D3-801E-4572D65BFD9B, 0EB0D5F2-EAE4-4A9A-8AF3-A4ADB02D4363 and
3E98C0F8-8F05-4829-A121-43E38F8933E7, and each constant has sixteen bytes. -/
theorem C26_uuid_constants_match :
    (herald_uuid.length = 16 ∧
      herald_uuid.reverse =
        [0x42, 0x81, 0x32, 0xAF, 0x47, 0x46, 0x42, 0xD3,
          0x80, 0x1E, 0x45, 0x72, 0xD6, 0x5B, 0xFD, 0x9B] ∧
      uuidText herald_uuid.reverse = "428132AF-4746-42D3-801E-4572D65BFD9B".toList) ∧
    (herald_char_signal_ios_uuid.length = 16 ∧
      herald_char_signal_ios_uuid.reverse =
        [0x0E, 0xB0, 0xD5, 0xF2, 0xEA, 0xE4, 0x4A, 0x9A,
          0x8A, 0xF3, 0xA4, 0xAD, 0xB0, 0x2D, 0x43, 0x63] ∧
      uuidText herald_char_signal_ios_uuid.reverse =
        "0EB0D5F2-EAE4-4A9A-8AF3-A4ADB02D4363".toList) ∧
    (herald_char_payload_uuid.length = 16 ∧
      herald_char_payload_uuid.reverse =
        [0x3E, 0x98, 0xC0, 0xF8, 0x8F, 0x05, 0x48, 0x29,
          0xA1, 0x21, 0x43, 0xE3, 0x8F, 0x89, 0x33, 0xE7] ∧
      uuidText herald_char_payload_uuid.reverse =
        "3E98C0F8-8F05-4829-A121-43E38F8933E7".toList) := by
  decide

/-- C27, as stated, fails: the bytes of `herald_char_signal_android_uuid`, read in reverse, are
not the bytes of F617B813-092E-437A-8324-E09A8082A1A1; the last two bytes differ. -/
theorem C27_android_uuid_differs :
    herald_char_signal_android_uuid.reverse ≠
        [0xF6, 0x17, 0xB8, 0x13, 0x09, 0x2E, 0x43, 0x7A,
          0x83, 0x24, 0xE0, 0x9A, 0x80, 0x82, 0xA1, 0xA1] ∧
      uuidText herald_char_signal_android_uuid.reverse ≠
        "F617B813-092E-437A-8324-E09A8082A1A1".toList ∧
      herald_char_signal_android_uuid.reverse.take 14 =
        [0xF6, 0x17, 0xB8, 0x13, 0x09, 0x2E, 0x43, 0x7A,
          0x83, 0x24, 0xE0, 0x9A, 0x80, 0x82] ∧
      herald_char_signal_android_uuid.reverse.drop 14 = [0x1A, 0x11] := by
  decide

/-- C27, amended. The bytes of `herald_char_signal_android_uuid`, read in reverse, are the bytes
of the UUID F617B813-092E-437A-8324-E09A80821A11, and the four Herald UUID constants are
pairwise distinct. -/
theorem C27_android_uuid_and_distinctness :
    herald_char_signal_android_uuid.length = 16 ∧
      herald_char_signal_android_uuid.reverse =
        [0xF6, 0x17, 0xB8, 0x13, 0x09, 0x2E, 0x43, 0x7A,
          0x83, 0x24, 0xE0, 0x9A, 0x80, 0x82, 0x1A, 0x11] ∧
      uuidText herald_char_signal_android_uuid.reverse =
        "F617B813-092E-437A-8324-E09A80821A11".toList ∧
      herald_uuid ≠ herald_char_signal_android_uuid ∧
      herald_uuid ≠ herald_char_signal_ios_uuid ∧
      herald_uuid ≠ herald_char_payload_uuid ∧
      herald_char_signal_android_uuid ≠ herald_char_signal_ios_uuid ∧
      herald_char_signal_android_uuid ≠ herald_char_payload_uuid ∧
      herald_char_signal_ios_uuid ≠ herald_char_payload_uuid := by
  decide

/-- C28. For every length `sz` and every `Data`, a `BluetoothUUID` built by either sizing
constructor reports `size() = FULL_128` and converts to 16, whatever the length is; the default
constructor gives `EMPTY` and converts to 0. -/
theorem C28_sizing_constructors_give_full_128 (sz : Nat) (src : Data) :
    (BluetoothUUID.ofSize sz).size = BluetoothUUIDSize.FULL_128 ∧
      (BluetoothUUID.ofSize sz).toSizeT = 16 ∧
      (BluetoothUUID.ofData src).size = BluetoothUUIDSize.FULL_128 ∧
      (BluetoothUUID.ofData src).toSizeT = 16 ∧
      BluetoothUUID.default.size = BluetoothUUIDSize.EMPTY ∧
      BluetoothUUID.default.toSizeT = 0 ∧
      (BluetoothUUID.ofData src).m_data = src ∧
      (BluetoothUUID.ofSize sz).m_data.length = sz :=
  ⟨rfl, rfl, rfl, rfl, rfl, rfl, rfl, by simp [BluetoothUUID.ofSize]⟩

/-- The sizing constructors at the lengths 0, 1, 2, 4 and 8. -/
theorem sizing_constructors_short_lengths :
    [0, 1, 2, 4, 8].map (fun sz => (BluetoothUUID.ofSize sz).toSizeT) = [16, 16, 16, 16, 16] ∧
      [[], [1], [1, 2], [1, 2, 3, 4]].map (fun d => (BluetoothUUID.ofData d).size) =
        [BluetoothUUIDSize.FULL_128, BluetoothUUIDSize.FULL_128, BluetoothUUIDSize.FULL_128,
          BluetoothUUIDSize.FULL_128] := by
  decide

/-- C29, as stated, fails: `serviceDiscovery` for the target `01:02:03:04:05:06` on a fresh
engine, whose cache holds no state, returns with a state for the target in the cache. -/
theorem C29_serviceDiscovery_leaves_state :
    Engine.init.connectionStates = [] ∧
      (Engine.serviceDiscovery testEnv Engine.init (some [1, 2, 3, 4, 5, 6]) 0 (fun _ x => x)
          (fun i => 25 * i) 0).map (fun e => (e.connectionStates, e.radioCalls)) =
        some ([([1, 2, 3, 4, 5, 6], ConnectedDeviceState.new [1, 2, 3, 4, 5, 6])], []) := by
  decide

/-- C29, amended. `serviceDiscovery` returns at once and issues no radio call when the activity
names no target, and when the state of the target is absent from the cache, not `connected`
or without a connection; when the state is `connected` and holds a connection it issues
`bt_gatt_dm_start` for it (and a disconnect when that call fails) and then waits. A target
that had no state in the cache has one afterwards, as its constructor makes it. -/
theorem C29_serviceDiscovery_radio_calls (env : Env) (e : Engine) (target : TargetIdentifier)
    (err : Int) (k_sleep : Nat → Engine → Engine) (uptime : Nat → Nat) (fuel : Nat) :
    Engine.serviceDiscovery env e none err k_sleep uptime fuel = some e ∧
      ((∀ st, mapFind e.connectionStates target = some st →
          st.state ≠ BLEDeviceState.connected ∨ st.connection = none) →
        Engine.serviceDiscovery env e (some target) err k_sleep uptime fuel =
            some (Engine.findOrCreateState env e target) ∧
          (Engine.findOrCreateState env e target).radioCalls = e.radioCalls) ∧
      (∀ st conn, mapFind e.connectionStates target = some st →
          st.state = BLEDeviceState.connected → st.connection = some conn →
        Engine.serviceDiscovery env e (some target) err k_sleep uptime fuel =
            (waitWithTimeout 5000 k_sleep (fun x => !Engine.hasServicesSet x target) uptime fuel
              (Engine.serviceDiscoveryStart env e (some target) err)).map (fun w => w.state) ∧
          (Engine.serviceDiscoveryStart env e (some target) err).radioCalls =
            e.radioCalls ++ RadioCall.gattDmStart conn ::
              (if err ≠ 0 then [RadioCall.connDisconnect conn] else []) ∧
          (Engine.serviceDiscoveryStart env e (some target) err).connectionStates =
            e.connectionStates) ∧
      (mapFind e.connectionStates target = none →
        mapFind (Engine.findOrCreateState env e target).connectionStates target =
          some (ConnectedDeviceState.new target)) := by
  refine ⟨rfl, ?_, ?_, ?_⟩
  · intro h
    refine ⟨?_, (findOrCreateState_frame env e target).2.1⟩
    unfold Engine.serviceDiscovery
    simp only [stateOf_findOrCreateState]
    cases hm : mapFind e.connectionStates target with
    | none => simp [ConnectedDeviceState.new]
    | some st =>
      rcases h st hm with h1 | h1
      · simp [h1]
      · simp [h1]
  · intro st conn hm hs hc
    have hfc := findOrCreateState_of_mem env e target st hm
    refine ⟨?_, ?_, ?_⟩
    · unfold Engine.serviceDiscovery
      simp [stateOf_findOrCreateState, hm, hs, hc]
    · unfold Engine.serviceDiscoveryStart
      simp only [hfc, stateOf_eq_of_mapFind hm, hs, hc]
      unfold Engine.gatt_discover
      by_cases he : err = 0 <;> simp [he]
    · unfold Engine.serviceDiscoveryStart
      simp only [hfc, stateOf_eq_of_mapFind hm, hs, hc]
      unfold Engine.gatt_discover
      by_cases he : err = 0 <;> simp [he]
  · intro hm
    rw [findOrCreateState_mem, hm]
    rfl

/-- C29, amended, at a fresh engine (no state for the target) and at the engine in which the
peer `01:02:03:04:05:06` is connected under the handle 7. -/
theorem C29_serviceDiscovery_radio_calls_witness :
    (Engine.serviceDiscovery testEnv Engine.init (some [1, 2, 3, 4, 5, 6]) 0 (fun _ x => x)
        (fun i => 25 * i) 0 =
        some (Engine.findOrCreateState testEnv Engine.init [1, 2, 3, 4, 5, 6]) ∧
      (Engine.findOrCreateState testEnv Engine.init [1, 2, 3, 4, 5, 6]).radioCalls =
        Engine.init.radioCalls) ∧
      (Engine.serviceDiscoveryStart testEnv (Engine.connected testEnv Engine.init 7 0)
        (some [1, 2, 3, 4, 5, 6]) 0).radioCalls =
        (Engine.connected testEnv Engine.init 7 0).radioCalls ++ RadioCall.gattDmStart 7 ::
          (if (0 : Int) ≠ 0 then [RadioCall.connDisconnect 7] else []) :=
  ⟨(C29_serviceDiscovery_radio_calls testEnv Engine.init [1, 2, 3, 4, 5, 6] 0 (fun _ x => x)
      (fun i => 25 * i) 0).2.1 (by decide),
    ((C29_serviceDiscovery_radio_calls testEnv (Engine.connected testEnv Engine.init 7 0)
      [1, 2, 3, 4, 5, 6] 0 (fun _ x => x) (fun i => 25 * i) 0).2.2.1
      { target := [1, 2, 3, 4, 5, 6], state := BLEDeviceState.connected, connection := some 7,
        address := { type := 1, val := [1, 2, 3, 4, 5, 6] }, readPayload := [],
        immediateSend := [], remoteInstigated := true }
      7 (by decide) (by decide) (by decide)).2.1⟩

/-- C30. For every date `d` (its seconds since the Unix epoch) and value `v`, `Sample(d, v)`
has `taken` of `d` seconds and `value = v`; the copy constructor and the copy assignment give a
sample with both fields of the source; `Sample(Date(1234), RSSI(-55))` has `taken` 1234 and
value -55. -/
theorem C30_sample_fields {ValT : Type} (d : Nat) (v : ValT) (s other : Sample ValT) :
    (Sample.construct d v).taken = d ∧ (Sample.construct d v).value = v ∧
      (Sample.copy other).taken = other.taken ∧ (Sample.copy other).value = other.value ∧
      (Sample.assign s other).taken = other.taken ∧
      (Sample.assign s other).value = other.value ∧
      (Sample.construct 1234 (-55 : Int)).taken = 1234 ∧
      (Sample.construct 1234 (-55 : Int)).value = -55 :=
  ⟨rfl, rfl, rfl, rfl, rfl, rfl, rfl, rfl⟩

/-! ## More on `clearBeforeDate` -/

namespace SampleList

variable {ValT : Type}

/-- More fuel does not change what the loop of `clearBeforeDate` returns. -/
theorem clearLoop_succ (t : Nat) :
    ∀ (fuel : Nat) (sl s2 : SampleList ValT), clearLoop fuel sl t = some s2 →
      clearLoop (fuel + 1) sl t = some s2 := by
  intro fuel
  induction fuel with
  | zero =>
    intro sl s2 h
    simp [clearLoop] at h
  | succ fuel ih =>
    intro sl s2 h
    rw [clearLoop] at h ⊢
    by_cases hne : sl.oldestPosition ≠ sl.newestPosition
    · rw [if_pos hne] at h ⊢
      cases hread : sl.data[sl.oldestPosition]? with
      | none => rw [hread] at h; cases h
      | some s =>
        rw [hread] at h
        simp only at h ⊢
        by_cases hlt : s.taken < t
        · rw [if_pos hlt] at h ⊢
          exact ih _ _ h
        · rw [if_neg hlt] at h ⊢
          exact h
    · rw [if_neg hne] at h ⊢
      exact h

theorem clearLoop_mono (t : Nat) (fuel : Nat) (sl s2 : SampleList ValT)
    (h : clearLoop fuel sl t = some s2) : ∀ k, clearLoop (fuel + k) sl t = some s2 := by
  intro k
  induction k with
  | zero => exact h
  | succ k ih => exact clearLoop_succ t _ _ _ ih

/-- On a list that satisfies the invariant, `size()` evaluations of the loop condition are
enough for `clearBeforeDate`, and the result is the one of the method. -/
theorem clearBeforeDate_fuel {N : Nat} (hN : N ≤ PTRDIFF_MAX) {sl : SampleList ValT}
    (hv : Valid N sl) (t : Nat) :
    ∃ s2, sl.clearBeforeDateFuel sl.size t = some s2 ∧ sl.clearBeforeDate t = some s2 ∧
      s2.data = sl.data := by
  have hsz := size_le_of_valid hN hv
  obtain ⟨d, o, n⟩ := sl
  obtain ⟨hlen, h⟩ := hv
  simp only at hlen h
  rcases h with ⟨h1, h2⟩ | ⟨ho, hn⟩
  · subst h1 h2
    exact ⟨_, by simp [clearBeforeDateFuel], by simp [clearBeforeDate, clearBeforeDateFuel], rfl⟩
  · have hne : ¬ SIZE_MAX = o := by unfold SIZE_MAX PTRDIFF_MAX at *; omega
    obtain ⟨s2, h1, _, h3, _⟩ := clearLoop_spec hN t (size ⟨d, o, n⟩) d o n hlen ho hn
      (le_refl _)
    refine ⟨s2, by simp only [clearBeforeDateFuel, if_neg hne]; exact h1, ?_, h3⟩
    simp only [clearBeforeDate, clearBeforeDateFuel, if_neg hne]
    have hk := clearLoop_mono t _ _ _ h1 (d.length - size ⟨d, o, n⟩)
    have : size ⟨d, o, n⟩ + (d.length - size ⟨d, o, n⟩) = d.length := by
      rw [hlen]; omega
    rw [this] at hk
    exact hk

theorem size_eq_zero_of_valid {N : Nat} (hN : N ≤ PTRDIFF_MAX) {sl : SampleList ValT}
    (hv : Valid N sl) (h0 : sl.size = 0) :
    sl.oldestPosition = SIZE_MAX ∧ sl.newestPosition = SIZE_MAX := by
  obtain ⟨d, o, n⟩ := sl
  obtain ⟨hlen, h⟩ := hv
  simp only at hlen h
  rcases h with h | ⟨ho, hn⟩
  · exact h
  · have := size_pos_nf hN d o n hlen ho hn
    omega

/-- Dropping the leading samples older than `t1` and then those older than `t2` is dropping
those older than `t2`, when `t1 ≤ t2`. -/
theorem dropWhile_dropWhile_olderThan {t1 t2 : Nat} (h : t1 ≤ t2)
    (L : List (Option (Sample ValT))) :
    (L.dropWhile (olderThan t1)).dropWhile (olderThan t2) = L.dropWhile (olderThan t2) := by
  induction L with
  | nil => rfl
  | cons x L ih =>
    by_cases h1 : olderThan t1 x = true
    · have h2 : olderThan t2 x = true := by
        cases x with
        | none => simp [olderThan] at h1
        | some s =>
          simp only [olderThan, decide_eq_true_eq] at h1 ⊢
          omega
      rw [List.dropWhile_cons_of_pos h1, List.dropWhile_cons_of_pos h2]
      exact ih
    · rw [List.dropWhile_cons_of_neg h1]

theorem get_eq_of_contents_eq {a b : SampleList ValT} (h : a.contents = b.contents) :
    a.size = b.size ∧ ∀ i, i < b.size → a.get i = b.get i := by
  have hlen : a.size = b.size := by
    rw [← length_contents a, ← length_contents b, h]
  refine ⟨hlen, ?_⟩
  intro i hi
  have ha : a.contents[i]? = some (a.get i) := by
    simp [contents, hlen, hi]
  have hb : b.contents[i]? = some (b.get i) := by
    simp [contents, hi]
  rw [h, hb] at ha
  exact (Option.some.inj ha).symm

end SampleList

/-! ## The merges of `ble.cpp` -/

section Ble

theorem bluetoothUUID_eq_iff (u v : BluetoothUUID) : u.eq v = true ↔ u = v := by
  cases u
  cases v
  simp [BluetoothUUID.eq]

theorem characteristic_eq_iff (a b : BLECharacteristic) : a.eq b = true ↔ a.uuid = b.uuid :=
  bluetoothUUID_eq_iff a.uuid b.uuid

theorem flagsIncluded_refl (a : BLECharacteristicType) : flagsIncluded a a :=
  fun _ h => h

theorem flagsIncluded_trans {a b c : BLECharacteristicType} (h1 : flagsIncluded a b)
    (h2 : flagsIncluded b c) : flagsIncluded a c :=
  fun w h => h2 w (h1 w h)

theorem eqValue_orType (t u : BLECharacteristicType) (w : BLECharacteristicTypeValue) :
    (t.orType u).eqValue w = (t.eqValue w || u.eqValue w) := by
  cases w <;> rfl

theorem flagsIncluded_orType_left (a b : BLECharacteristicType) :
    flagsIncluded a (a.orType b) := by
  intro w h
  rw [eqValue_orType, h]
  rfl

theorem flagsIncluded_orType_right (a b : BLECharacteristicType) :
    flagsIncluded b (a.orType b) := by
  intro w h
  rw [eqValue_orType, h]
  simp

open BLEService

/-- The inner loop of the merge of services merges `ch` into every characteristic with its
UUID, and `found` tells whether there was one. -/
theorem mergeMatching_eq (ch : BLECharacteristic) (l : List BLECharacteristic) :
    ∀ found, mergeMatching ch l found =
      (l.map (fun m => if m.eq ch then m.orCharacteristic ch else m),
        found || l.any (fun m => m.eq ch)) := by
  induction l with
  | nil => intro found; simp [mergeMatching]
  | cons m rest ih =>
    intro found
    unfold mergeMatching
    by_cases h : m.eq ch = true
    · simp [h, ih]
    · simp [h, ih]

theorem mergeStep_eq (chars : List BLECharacteristic) (ch : BLECharacteristic) :
    mergeStep chars ch =
      if chars.any (fun m => m.eq ch) then
        chars.map (fun m => if m.eq ch then m.orCharacteristic ch else m)
      else chars.map (fun m => if m.eq ch then m.orCharacteristic ch else m) ++ [ch] := by
  unfold mergeStep
  rw [mergeMatching_eq]
  by_cases h : chars.any (fun m => m.eq ch) = true
  · simp [h]
  · simp [h]

theorem map_merge_of_not_any (chars : List BLECharacteristic) (ch : BLECharacteristic)
    (h : chars.any (fun m => m.eq ch) = false) :
    chars.map (fun m => if m.eq ch then m.orCharacteristic ch else m) = chars := by
  induction chars with
  | nil => rfl
  | cons m rest ih =>
    simp only [List.any_cons, Bool.or_eq_false_iff] at h
    simp only [List.map_cons, h.1, Bool.false_eq_true, if_false, ih h.2]

theorem uuids_map_merge (chars : List BLECharacteristic) (ch : BLECharacteristic) :
    (chars.map (fun m => if m.eq ch then m.orCharacteristic ch else m)).map (fun m => m.uuid) =
      chars.map (fun m => m.uuid) := by
  induction chars with
  | nil => rfl
  | cons m rest ih =>
    simp only [List.map_cons, ih]
    by_cases h : m.eq ch = true
    · simp [h, BLECharacteristic.orCharacteristic]
    · simp [h]

theorem Covers.refl (l : List BLECharacteristic) : Covers l l :=
  fun c hc => ⟨c, hc, rfl, flagsIncluded_refl _⟩

theorem Covers.trans {l3 l2 l1 : List BLECharacteristic} (h32 : Covers l3 l2)
    (h21 : Covers l2 l1) : Covers l3 l1 := by
  intro c hc
  obtain ⟨m, hm, e1, f1⟩ := h21 c hc
  obtain ⟨k, hk, e2, f2⟩ := h32 m hm
  exact ⟨k, hk, e2.trans e1, flagsIncluded_trans f1 f2⟩

theorem mergeStep_covers_old (chars : List BLECharacteristic) (ch : BLECharacteristic) :
    Covers (mergeStep chars ch) chars := by
  intro c hc
  have hmem : (if c.eq ch then c.orCharacteristic ch else c) ∈
      chars.map (fun m => if m.eq ch then m.orCharacteristic ch else m) :=
    List.mem_map.mpr ⟨c, hc, rfl⟩
  have hin : (if c.eq ch then c.orCharacteristic ch else c) ∈ mergeStep chars ch := by
    rw [mergeStep_eq]
    by_cases hany : chars.any (fun m => m.eq ch) = true
    · rw [if_pos hany]
      exact hmem
    · rw [if_neg hany]
      exact List.mem_append_left _ hmem
  refine ⟨_, hin, ?_, ?_⟩
  · by_cases h : c.eq ch = true
    · simp [h, BLECharacteristic.orCharacteristic]
    · simp [h]
  · by_cases h : c.eq ch = true
    · simp only [h, if_true, BLECharacteristic.orCharacteristic]
      exact flagsIncluded_orType_left _ _
    · simp only [h, Bool.false_eq_true, if_false]
      exact flagsIncluded_refl _

theorem mergeStep_covers_new (chars : List BLECharacteristic) (ch : BLECharacteristic) :
    Covers (mergeStep chars ch) [ch] := by
  intro c hc
  rw [List.mem_singleton] at hc
  subst hc
  rw [mergeStep_eq]
  by_cases h : chars.any (fun m => m.eq c) = true
  · rw [if_pos h]
    obtain ⟨m, hm, hmc⟩ := List.any_eq_true.mp h
    refine ⟨m.orCharacteristic c, ?_, ?_, ?_⟩
    · refine List.mem_map.mpr ⟨m, hm, ?_⟩
      simp [hmc]
    · exact (characteristic_eq_iff m c).mp hmc
    · exact flagsIncluded_orType_right _ _
  · rw [if_neg h]
    exact ⟨c, by simp, rfl, flagsIncluded_refl _⟩

theorem foldl_mergeStep_covers (cs : List BLECharacteristic) :
    ∀ chars, Covers (cs.foldl mergeStep chars) chars ∧ Covers (cs.foldl mergeStep chars) cs := by
  induction cs with
  | nil =>
    intro chars
    exact ⟨Covers.refl _, fun c hc => by cases hc⟩
  | cons ch rest ih =>
    intro chars
    obtain ⟨h1, h2⟩ := ih (mergeStep chars ch)
    rw [List.foldl_cons]
    refine ⟨h1.trans (mergeStep_covers_old chars ch), ?_⟩
    intro c hc
    rcases List.mem_cons.mp hc with rfl | hc
    · exact h1.trans (mergeStep_covers_new chars c) c (List.mem_singleton.mpr rfl)
    · exact h2 c hc

theorem length_le_foldl_mergeStep (cs : List BLECharacteristic) :
    ∀ chars : List BLECharacteristic, chars.length ≤ (cs.foldl mergeStep chars).length := by
  induction cs with
  | nil => intro chars; exact le_refl _
  | cons ch rest ih =>
    intro chars
    rw [List.foldl_cons]
    refine le_trans ?_ (ih _)
    rw [mergeStep_eq]
    by_cases hany : chars.any (fun m => m.eq ch) = true
    · rw [if_pos hany]; simp
    · rw [if_neg hany]; simp

theorem mergeStep_nodup (chars : List BLECharacteristic) (ch : BLECharacteristic)
    (hd : (chars.map (fun m => m.uuid)).Nodup) :
    ((mergeStep chars ch).map (fun m => m.uuid)).Nodup := by
  rw [mergeStep_eq]
  by_cases h : chars.any (fun m => m.eq ch) = true
  · rw [if_pos h, uuids_map_merge]
    exact hd
  · rw [if_neg h, List.map_append, uuids_map_merge]
    refine List.Nodup.append hd (List.nodup_singleton _) ?_
    intro u hu hu2
    simp only [List.map_cons, List.map_nil, List.mem_singleton] at hu2
    subst hu2
    obtain ⟨m, hm, hmu⟩ := List.mem_map.mp hu
    apply h
    exact List.any_eq_true.mpr ⟨m, hm, (characteristic_eq_iff m ch).mpr hmu⟩

theorem foldl_mergeStep_nodup (cs : List BLECharacteristic) :
    ∀ chars, (chars.map (fun m => m.uuid)).Nodup →
      ((cs.foldl mergeStep chars).map (fun m => m.uuid)).Nodup := by
  induction cs with
  | nil => intro chars h; exact h
  | cons ch rest ih =>
    intro chars h
    rw [List.foldl_cons]
    exact ih _ (mergeStep_nodup chars ch h)

/-- On characteristics with pairwise distinct UUIDs the loop that merges into the first match
does what the loop that merges into every match does. -/
theorem mergeFirst_eq (c : BLECharacteristic) (l : List BLECharacteristic)
    (hd : (l.map (fun m => m.uuid)).Nodup) :
    mergeFirst c l =
      if l.any (fun m => m.eq c) then
        some (l.map (fun m => if m.eq c then m.orCharacteristic c else m))
      else none := by
  induction l with
  | nil => rfl
  | cons m rest ih =>
    rw [List.map_cons, List.nodup_cons] at hd
    unfold mergeFirst
    by_cases h : m.eq c = true
    · have hrest : rest.any (fun k => k.eq c) = false := by
        rw [Bool.eq_false_iff]
        intro hany
        obtain ⟨k, hk, hkc⟩ := List.any_eq_true.mp hany
        apply hd.1
        refine List.mem_map.mpr ⟨k, hk, ?_⟩
        rw [(characteristic_eq_iff k c).mp hkc, (characteristic_eq_iff m c).mp h]
      simp [h, map_merge_of_not_any rest c hrest]
    · rw [ih hd.2]
      by_cases h2 : rest.any (fun k => k.eq c) = true
      · simp [h, h2]
      · simp [h, h2]

end Ble

/-! ## The ignore flag in `discovery_completed_cb` -/

section DiscoveryIgnore

open Engine

/-- One turn of the loop of `discovery_completed_cb` and the ignore flag, the flag `found` and
the radio calls. -/
theorem discoveryStep_ignore (key target : TargetIdentifier) (conn : Nat)
    (acc : Engine × Bool) (c : GattChrc) (d : BLEDevice)
    (hd : mapFind acc.1.db target = some d) :
    (∃ d2, mapFind (discoveryStep key target conn acc c).1.db target = some d2 ∧
        d2.ignore = d.ignore) ∧
      (discoveryStep key target conn acc c).2 =
        (acc.2 || decide (c.uuid = herald_char_payload_uuid)) ∧
      (∀ x ∈ acc.1.radioCalls, x ∈ (discoveryStep key target conn acc c).1.radioCalls) ∧
      (c.uuid = herald_char_payload_uuid →
        RadioCall.gattRead conn c.value_handle 0 ∈
          (discoveryStep key target conn acc c).1.radioCalls) := by
  by_cases hp : c.uuid = herald_char_payload_uuid
  · refine ⟨⟨{ d with
      payloadCharacteristic := (some BLESensorConfiguration.payloadCharacteristicUUID) },
      ?_, rfl⟩, ?_, ?_, ?_⟩
    · simp [discoveryStep, hp, mapFind_mapUpdate, hd]
    · simp [discoveryStep, hp]
    · intro x hx
      simp [discoveryStep, hp, hx]
    · intro _
      simp [discoveryStep, hp]
  · have hcalls : (discoveryStep key target conn acc c).1.radioCalls = acc.1.radioCalls := by
      unfold discoveryStep
      simp only [if_neg hp]
      split_ifs <;> rfl
    have hfound : (discoveryStep key target conn acc c).2 = acc.2 := by
      unfold discoveryStep
      simp only [if_neg hp]
      split_ifs <;> rfl
    refine ⟨?_, ?_, ?_, fun h => absurd h hp⟩
    · unfold discoveryStep
      simp only [if_neg hp]
      split_ifs
      · exact ⟨{ d with
          signalCharacteristic := some BLESensorConfiguration.androidSignalCharacteristicUUID,
          operatingSystem := BLEDeviceOperatingSystem.android },
          by simp [mapFind_mapUpdate, hd], rfl⟩
      · exact ⟨{ d with
          signalCharacteristic := some BLESensorConfiguration.iosSignalCharacteristicUUID,
          operatingSystem := BLEDeviceOperatingSystem.ios },
          by simp [mapFind_mapUpdate, hd], rfl⟩
      · exact ⟨d, hd, rfl⟩
    · rw [hfound]
      simp [hp]
    · intro x hx
      rw [hcalls]
      exact hx

theorem discovery_fold_ignore (key target : TargetIdentifier) (conn : Nat)
    (chars : List GattChrc) :
    ∀ (acc : Engine × Bool) (d0 : BLEDevice), mapFind acc.1.db target = some d0 →
      (∃ d, mapFind (chars.foldl (discoveryStep key target conn) acc).1.db target = some d ∧
          d.ignore = d0.ignore) ∧
        (chars.foldl (discoveryStep key target conn) acc).2 =
          (acc.2 || chars.any (fun c => decide (c.uuid = herald_char_payload_uuid))) ∧
        (∀ x ∈ acc.1.radioCalls,
          x ∈ (chars.foldl (discoveryStep key target conn) acc).1.radioCalls) ∧
        (∀ c ∈ chars, c.uuid = herald_char_payload_uuid →
          RadioCall.gattRead conn c.value_handle 0 ∈
            (chars.foldl (discoveryStep key target conn) acc).1.radioCalls) := by
  induction chars with
  | nil =>
    intro acc d0 hd
    exact ⟨⟨d0, hd, rfl⟩, by simp, fun x hx => hx, fun c hc => by cases hc⟩
  | cons c cs ih =>
    intro acc d0 hd
    obtain ⟨⟨d1, s1, s1i⟩, s2, s3, s4⟩ := discoveryStep_ignore key target conn acc c d0 hd
    obtain ⟨⟨d2, i1, i1i⟩, i2, i3, i4⟩ := ih (discoveryStep key target conn acc c) d1 s1
    rw [List.foldl_cons]
    refine ⟨⟨d2, i1, i1i.trans s1i⟩, ?_, fun x hx => i3 x (s3 x hx), ?_⟩
    · rw [i2, s2, List.any_cons, Bool.or_assoc]
    · intro x hx hxp
      rcases List.mem_cons.mp hx with rfl | hx
      · exact i3 _ (s4 hxp)
      · exact i4 x hx hxp

end DiscoveryIgnore

/-! ## The claims about the invariants of `SampleList`, `ble.cpp`, discovery and the scan -/

section SampleListClaims2

open SampleList

variable {ValT : Type}

/-- The list of capacity five after the eight test pushes is wrapped: the oldest sample is in
slot 3 and the newest in slot 2, and it holds five samples. -/
theorem eightPushes_wrapped :
    ((empty (List.replicate 5 ⟨0, 0⟩)).pushAll eightPushes).oldestPosition = 3 ∧
      ((empty (List.replicate 5 ⟨0, 0⟩)).pushAll eightPushes).newestPosition = 2 ∧
      ((empty (List.replicate 5 ⟨0, 0⟩)).pushAll eightPushes).size = 5 ∧
      (List.range 5).map ((empty (List.replicate 5 ⟨0, 0⟩)).pushAll eightPushes).slot =
        [3, 4, 0, 1, 2] := by
  decide

/-- C31. For every capacity `N ≥ 2` (and at most `PTRDIFF_MAX`), every reachable list and
every `idx < size()`, the array index that `operator[]` computes is below `N`; and in a state
with `newestPosition < oldestPosition` either `idx + oldestPosition < N` and that is the index
read, or `idx + oldestPosition - N` is the index read and it is at most `newestPosition`: no
index falls into the gap between the two positions. -/
theorem C31_no_gap_in_the_middle {N : Nat} (h2 : 2 ≤ N) (hN : N ≤ PTRDIFF_MAX)
    {sl : SampleList ValT} (hr : Reachable N sl) (idx : Nat) (hi : idx < sl.size) :
    sl.slot idx < N ∧
      (sl.newestPosition < sl.oldestPosition →
        (idx + sl.oldestPosition < N ∧ sl.slot idx = idx + sl.oldestPosition) ∨
          (N ≤ idx + sl.oldestPosition ∧ sl.slot idx = idx + sl.oldestPosition - N ∧
            idx + sl.oldestPosition - N ≤ sl.newestPosition)) := by
  have hv := hr.valid h2 hN
  have hsz := size_le_of_valid hN hv
  obtain ⟨d, o, n⟩ := sl
  obtain ⟨hlen, h⟩ := hv
  simp only at hlen h hsz ⊢
  rcases h with ⟨h1, h2⟩ | ⟨ho, hn⟩
  · subst h1 h2
    rw [size_empty] at hi
    omega
  · rw [size_nf hN _ _ _ hlen ho hn] at hi hsz
    rw [slot_nf hN _ _ _ hlen ho idx (by split_ifs at hi hsz <;> omega)]
    split_ifs at hi ⊢ <;> omega

/-- C31 at the list of capacity five after the eight test pushes, a wrapped state
(`oldestPosition = 3`, `newestPosition = 2`): the index 1 is read from slot 4, before the end
of the array, and the index 3 from slot 1, which is at most `newestPosition`. -/
theorem C31_no_gap_in_the_middle_witness :
    ((empty (List.replicate 5 ⟨0, 0⟩)).pushAll eightPushes).newestPosition <
        ((empty (List.replicate 5 ⟨0, 0⟩)).pushAll eightPushes).oldestPosition ∧
      (((empty (List.replicate 5 ⟨0, 0⟩)).pushAll eightPushes).slot 1 < 5 ∧
        ((1 + ((empty (List.replicate 5 ⟨0, 0⟩)).pushAll eightPushes).oldestPosition < 5 ∧
          ((empty (List.replicate 5 ⟨0, 0⟩)).pushAll eightPushes).slot 1 =
            1 + ((empty (List.replicate 5 ⟨0, 0⟩)).pushAll eightPushes).oldestPosition) ∨
        (5 ≤ 1 + ((empty (List.replicate 5 ⟨0, 0⟩)).pushAll eightPushes).oldestPosition ∧
          ((empty (List.replicate 5 ⟨0, 0⟩)).pushAll eightPushes).slot 1 =
            1 + ((empty (List.replicate 5 ⟨0, 0⟩)).pushAll eightPushes).oldestPosition - 5 ∧
          1 + ((empty (List.replicate 5 ⟨0, 0⟩)).pushAll eightPushes).oldestPosition - 5 ≤
            ((empty (List.replicate 5 ⟨0, 0⟩)).pushAll eightPushes).newestPosition))) ∧
      (((empty (List.replicate 5 ⟨0, 0⟩)).pushAll eightPushes).slot 3 < 5 ∧
        ((3 + ((empty (List.replicate 5 ⟨0, 0⟩)).pushAll eightPushes).oldestPosition < 5 ∧
          ((empty (List.replicate 5 ⟨0, 0⟩)).pushAll eightPushes).slot 3 =
            3 + ((empty (List.replicate 5 ⟨0, 0⟩)).pushAll eightPushes).oldestPosition) ∨
        (5 ≤ 3 + ((empty (List.replicate 5 ⟨0, 0⟩)).pushAll eightPushes).oldestPosition ∧
          ((empty (List.replicate 5 ⟨0, 0⟩)).pushAll eightPushes).slot 3 =
            3 + ((empty (List.replicate 5 ⟨0, 0⟩)).pushAll eightPushes).oldestPosition - 5 ∧
          3 + ((empty (List.replicate 5 ⟨0, 0⟩)).pushAll eightPushes).oldestPosition - 5 ≤
            ((empty (List.replicate 5 ⟨0, 0⟩)).pushAll eightPushes).newestPosition))) :=
  ⟨by decide,
    ⟨(C31_no_gap_in_the_middle (by decide) (by decide)
        ((Reachable.fresh (List.replicate 5 ⟨0, 0⟩) (by decide)).pushAll eightPushes) 1
        (by decide)).1,
      (C31_no_gap_in_the_middle (by decide) (by decide)
        ((Reachable.fresh (List.replicate 5 ⟨0, 0⟩) (by decide)).pushAll eightPushes) 1
        (by decide)).2 (by decide)⟩,
    ⟨(C31_no_gap_in_the_middle (by decide) (by decide)
        ((Reachable.fresh (List.replicate 5 ⟨0, 0⟩) (by decide)).pushAll eightPushes) 3
        (by decide)).1,
      (C31_no_gap_in_the_middle (by decide) (by decide)
        ((Reachable.fresh (List.replicate 5 ⟨0, 0⟩) (by decide)).pushAll eightPushes) 3
        (by decide)).2 (by decide)⟩⟩

/-- C32. For every capacity `N ≥ 2` (and at most `PTRDIFF_MAX`), every reachable list and every
date, `clearBeforeDate` returns, and `size()` evaluations of its loop condition are enough (so
the loop advances `oldestPosition` at most `size() - 1` times before the final test); the
backing array is not written; on an empty list the method returns at once, without any
evaluation of the loop condition, and changes nothing. -/
theorem C32_clearBeforeDate_terminates {N : Nat} (h2 : 2 ≤ N) (hN : N ≤ PTRDIFF_MAX)
    {sl : SampleList ValT} (hr : Reachable N sl) (t : Nat) :
    ∃ s2, sl.clearBeforeDateFuel sl.size t = some s2 ∧ sl.clearBeforeDate t = some s2 ∧
      s2.data = sl.data ∧
      (sl.size = 0 → sl.clearBeforeDateFuel 0 t = some sl ∧ s2 = sl) := by
  have hv := hr.valid h2 hN
  obtain ⟨s2, h1, h3, h4⟩ := clearBeforeDate_fuel hN hv t
  refine ⟨s2, h1, h3, h4, ?_⟩
  intro h0
  obtain ⟨ho, _⟩ := size_eq_zero_of_valid hN hv h0
  have hret : sl.clearBeforeDateFuel 0 t = some sl := by
    simp [clearBeforeDateFuel, ho]
  refine ⟨hret, ?_⟩
  rw [h0, hret] at h1
  exact (Option.some.inj h1).symm

/-- C32 at the list of capacity five after the ten test pushes and the date 1304. -/
theorem C32_clearBeforeDate_terminates_witness :
    ∃ s2, ((empty (List.replicate 5 ⟨0, 0⟩)).pushAll tenPushes).clearBeforeDateFuel
          ((empty (List.replicate 5 ⟨0, 0⟩)).pushAll tenPushes).size 1304 = some s2 ∧
      ((empty (List.replicate 5 ⟨0, 0⟩)).pushAll tenPushes).clearBeforeDate 1304 = some s2 ∧
      s2.data = ((empty (List.replicate 5 ⟨0, 0⟩)).pushAll tenPushes).data ∧
      (((empty (List.replicate 5 ⟨0, 0⟩)).pushAll tenPushes).size = 0 →
        ((empty (List.replicate 5 ⟨0, 0⟩)).pushAll tenPushes).clearBeforeDateFuel 0 1304 =
          some ((empty (List.replicate 5 ⟨0, 0⟩)).pushAll tenPushes) ∧
        s2 = (empty (List.replicate 5 ⟨0, 0⟩)).pushAll tenPushes) :=
  C32_clearBeforeDate_terminates (N := 5) (by decide) (by decide)
    ((Reachable.fresh (List.replicate 5 ⟨0, 0⟩) (by decide)).pushAll tenPushes) 1304

/-- C33. For every capacity `N ≥ 2` (and at most `PTRDIFF_MAX`), in every list reachable by
`push`, `clearBeforeDate` and `clear`, `oldestPosition` and `newestPosition` are either both
`SIZE_MAX` or both below `N`; it is never the case that exactly one of them is `SIZE_MAX`, or
that one of them is `N` or more without being `SIZE_MAX`. -/
theorem C33_positions_invariant {N : Nat} (h2 : 2 ≤ N) (hN : N ≤ PTRDIFF_MAX)
    {sl : SampleList ValT} (hr : Reachable N sl) :
    ((sl.oldestPosition = SIZE_MAX ∧ sl.newestPosition = SIZE_MAX) ∨
        (sl.oldestPosition < N ∧ sl.newestPosition < N)) ∧
      (sl.oldestPosition = SIZE_MAX ↔ sl.newestPosition = SIZE_MAX) ∧
      (sl.oldestPosition ≠ SIZE_MAX → sl.oldestPosition < N) ∧
      (sl.newestPosition ≠ SIZE_MAX → sl.newestPosition < N) ∧
      sl.data.length = N := by
  obtain ⟨hlen, h⟩ := hr.valid h2 hN
  refine ⟨h, ?_, ?_, ?_, hlen⟩
  · rcases h with ⟨h1, h2⟩ | ⟨ho, hn⟩
    · simp [h1, h2]
    · unfold SIZE_MAX PTRDIFF_MAX at *
      constructor <;> intro hx <;> omega
  · rcases h with ⟨h1, h2⟩ | ⟨ho, hn⟩
    · intro hx; exact absurd h1 hx
    · intro _; exact ho
  · rcases h with ⟨h1, h2⟩ | ⟨ho, hn⟩
    · intro hx; exact absurd h2 hx
    · intro _; exact hn

/-- C33 at the list of capacity five after the ten test pushes. -/
theorem C33_positions_invariant_witness :
    ((((empty (List.replicate 5 ⟨0, 0⟩)).pushAll tenPushes).oldestPosition = SIZE_MAX ∧
        ((empty (List.replicate 5 ⟨0, 0⟩)).pushAll tenPushes).newestPosition = SIZE_MAX) ∨
      (((empty (List.replicate 5 ⟨0, 0⟩)).pushAll tenPushes).oldestPosition < 5 ∧
        ((empty (List.replicate 5 ⟨0, 0⟩)).pushAll tenPushes).newestPosition < 5)) ∧
      (((empty (List.replicate 5 ⟨0, 0⟩)).pushAll tenPushes).oldestPosition = SIZE_MAX ↔
        ((empty (List.replicate 5 ⟨0, 0⟩)).pushAll tenPushes).newestPosition = SIZE_MAX) ∧
      (((empty (List.replicate 5 ⟨0, 0⟩)).pushAll tenPushes).oldestPosition ≠ SIZE_MAX →
        ((empty (List.replicate 5 ⟨0, 0⟩)).pushAll tenPushes).oldestPosition < 5) ∧
      (((empty (List.replicate 5 ⟨0, 0⟩)).pushAll tenPushes).newestPosition ≠ SIZE_MAX →
        ((empty (List.replicate 5 ⟨0, 0⟩)).pushAll tenPushes).newestPosition < 5) ∧
      ((empty (List.replicate 5 ⟨0, 0⟩)).pushAll tenPushes).data.length = 5 :=
  C33_positions_invariant (by decide) (by decide)
    ((Reachable.fresh (List.replicate 5 ⟨0, 0⟩) (by decide)).pushAll tenPushes)

/-- C34. For every capacity `N ≥ 2` (and at most `PTRDIFF_MAX`), every reachable list and
dates `t1 ≤ t2`, `clearBeforeDate(t1)` followed by `clearBeforeDate(t2)` returns and leaves the
same contents as `clearBeforeDate(t2)` alone: the same `size()` and the same `operator[](i)`
for every `i < size()`. With `t1 = t2` this is idempotence. -/
theorem C34_clearBeforeDate_absorbs {N : Nat} (h2 : 2 ≤ N) (hN : N ≤ PTRDIFF_MAX)
    {sl : SampleList ValT} (hr : Reachable N sl) (t1 t2 : Nat) (ht : t1 ≤ t2) :
    ∃ s1 s12 s2, sl.clearBeforeDate t1 = some s1 ∧ s1.clearBeforeDate t2 = some s12 ∧
      sl.clearBeforeDate t2 = some s2 ∧ s12.contents = s2.contents ∧ s12.size = s2.size ∧
      ∀ i, i < s2.size → s12.get i = s2.get i := by
  have hv := hr.valid h2 hN
  obtain ⟨s1, a1, a2, _, a4⟩ := clearBeforeDate_spec hN hv t1
  obtain ⟨s12, b1, _, _, b4⟩ := clearBeforeDate_spec hN a2 t2
  obtain ⟨s2, c1, _, _, c4⟩ := clearBeforeDate_spec hN hv t2
  have hc : s12.contents = s2.contents := by
    rw [b4, a4, c4]
    exact dropWhile_dropWhile_olderThan ht _
  obtain ⟨hs, hg⟩ := get_eq_of_contents_eq hc
  exact ⟨s1, s12, s2, a1, b1, c1, hc, hs, hg⟩

/-- C34 at the list of capacity five after the ten test pushes and the dates 1304 and 1306. -/
theorem C34_clearBeforeDate_absorbs_witness :
    ∃ s1 s12 s2,
      ((empty (List.replicate 5 ⟨0, 0⟩)).pushAll tenPushes).clearBeforeDate 1304 = some s1 ∧
      s1.clearBeforeDate 1306 = some s12 ∧
      ((empty (List.replicate 5 ⟨0, 0⟩)).pushAll tenPushes).clearBeforeDate 1306 = some s2 ∧
      s12.contents = s2.contents ∧ s12.size = s2.size ∧
      ∀ i, i < s2.size → s12.get i = s2.get i :=
  C34_clearBeforeDate_absorbs (N := 5) (by decide) (by decide)
    ((Reachable.fresh (List.replicate 5 ⟨0, 0⟩) (by decide)).pushAll tenPushes) 1304 1306
    (by decide)

end SampleListClaims2

/-- C35. For every `BLECharacteristic` and `BluetoothUUID`, `operator!=` gives what
`operator==` gives: for a characteristic and its own UUID both are true, and for a
characteristic and a different UUID both are false. -/
theorem C35_ne_uuid_is_eq_uuid :
    (∀ (c : BLECharacteristic) (id : BluetoothUUID),
        c.neUUID id = c.eqUUID id) ∧
      (sampleCharacteristic 0x19 BLECharacteristicType.default).eqUUID
        (BluetoothUUID.ofData [0x2A, 0x19]) = true ∧
      (sampleCharacteristic 0x19 BLECharacteristicType.default).neUUID
        (BluetoothUUID.ofData [0x2A, 0x19]) = true ∧
      (sampleCharacteristic 0x19 BLECharacteristicType.default).eqUUID
        (BluetoothUUID.ofData [0x2A, 0x00]) = false ∧
      (sampleCharacteristic 0x19 BLECharacteristicType.default).neUUID
        (BluetoothUUID.ofData [0x2A, 0x00]) = false :=
  ⟨fun _ _ => rfl, by decide, by decide, by decide, by decide⟩

/-- C36. A default-constructed `BLECharacteristicType` compares equal to `READ` and to no other
value; after `t |= v` the test `t == v` is true and `t == w` is as before for every other value
`w`; after `t |= u` the test `t == w` holds exactly when it held for `t` or for `u`; `|=` is
idempotent, and a test that held before `|=` holds after it. -/
theorem C36_type_is_a_flag_set (t u : BLECharacteristicType)
    (v w : BLECharacteristicTypeValue) :
    (BLECharacteristicType.default.eqValue w = true ↔ w = BLECharacteristicTypeValue.READ) ∧
      (t.orValue v).eqValue v = true ∧
      (w ≠ v → (t.orValue v).eqValue w = t.eqValue w) ∧
      (t.orType u).eqValue w = (t.eqValue w || u.eqValue w) ∧
      (t.orValue v).orValue v = t.orValue v ∧
      (t.orType u).orType u = t.orType u ∧
      (t.eqValue w = true → (t.orValue v).eqValue w = true) ∧
      (t.eqValue w = true → (t.orType u).eqValue w = true) ∧
      (t.neValue w = !t.eqValue w) := by
  refine ⟨?_, ?_, ?_, eqValue_orType t u w, ?_, ?_, ?_, ?_, rfl⟩
  · cases w <;> decide
  · cases v <;> rfl
  · intro h
    cases v <;> cases w <;> first | rfl | exact absurd rfl h
  · cases v <;> rfl
  · cases t
    simp [BLECharacteristicType.orType]
  · intro h
    cases v <;> cases w <;> first | exact h | rfl
  · intro h
    rw [eqValue_orType, h]
    rfl

/-- C36 at the default type, merged with `NOTIFY`, tested for `WRITE_WITH_ACK`. -/
theorem C36_type_is_a_flag_set_witness :
    (BLECharacteristicTypeValue.WRITE_WITH_ACK ≠ BLECharacteristicTypeValue.NOTIFY →
      (BLECharacteristicType.default.orValue BLECharacteristicTypeValue.NOTIFY).eqValue
          BLECharacteristicTypeValue.WRITE_WITH_ACK =
        BLECharacteristicType.default.eqValue BLECharacteristicTypeValue.WRITE_WITH_ACK) ∧
      (BLECharacteristicType.default.orValue BLECharacteristicTypeValue.NOTIFY).eqValue
        BLECharacteristicTypeValue.NOTIFY = true :=
  ⟨(C36_type_is_a_flag_set BLECharacteristicType.default BLECharacteristicType.default
      BLECharacteristicTypeValue.NOTIFY BLECharacteristicTypeValue.WRITE_WITH_ACK).2.2.1,
    (C36_type_is_a_flag_set BLECharacteristicType.default BLECharacteristicType.default
      BLECharacteristicTypeValue.NOTIFY BLECharacteristicTypeValue.WRITE_WITH_ACK).2.1⟩

/-- C37. After `toUpdate |= toMerge` on services, the service UUID of `toUpdate` is unchanged;
for every characteristic of `toMerge`, `toUpdate` holds a characteristic with its UUID and at
least its flags; and for every characteristic that `toUpdate` held before, it holds one with
that UUID and at least those flags. -/
theorem C37_service_merge_is_a_union (toUpdate toMerge : BLEService) :
    (toUpdate.orService toMerge).uuid = toUpdate.uuid ∧
      (∀ c ∈ toMerge.characteristics, ∃ m ∈ (toUpdate.orService toMerge).characteristics,
        m.uuid = c.uuid ∧ flagsIncluded c.type m.type) ∧
      (∀ c ∈ toUpdate.characteristics, ∃ m ∈ (toUpdate.orService toMerge).characteristics,
        m.uuid = c.uuid ∧ flagsIncluded c.type m.type) ∧
      toUpdate.characteristics.length ≤ (toUpdate.orService toMerge).characteristics.length := by
  obtain ⟨h1, h2⟩ := foldl_mergeStep_covers toMerge.characteristics toUpdate.characteristics
  exact ⟨rfl, h2, h1, length_le_foldl_mergeStep _ _⟩

/-- An evaluation of C37: a service with a `READ` characteristic `2A19`, merged with a service
that lists `2A19` with `NOTIFY` and a new characteristic `2A00`. -/
theorem service_merge_example :
    (sampleService [sampleCharacteristic 0x19 BLECharacteristicType.default]).orService
        (sampleService
          [sampleCharacteristic 0x19
              (BLECharacteristicType.default.orValue BLECharacteristicTypeValue.NOTIFY),
            sampleCharacteristic 0x00 BLECharacteristicType.default]) =
      sampleService
        [sampleCharacteristic 0x19
            (BLECharacteristicType.default.orValue BLECharacteristicTypeValue.NOTIFY),
          sampleCharacteristic 0x00 BLECharacteristicType.default] := by
  decide

/-- C38. If the characteristics of a service have pairwise distinct UUIDs, they still have
after `service |= otherService`, whatever `otherService` lists, and after
`service |= characteristic`; and on such a service `service |= characteristic` gives what the
merge of a service that holds just that characteristic gives. -/
theorem C38_merge_keeps_uuids_distinct (service otherService : BLEService)
    (characteristic : BLECharacteristic)
    (hd : (service.characteristics.map (fun m => m.uuid)).Nodup) :
    ((service.orService otherService).characteristics.map (fun m => m.uuid)).Nodup ∧
      ((service.orCharacteristic characteristic).characteristics.map
        (fun m => m.uuid)).Nodup ∧
      service.orCharacteristic characteristic =
        service.orService { uuid := otherService.uuid, characteristics := [characteristic] } := by
  have h3 : service.orCharacteristic characteristic =
      service.orService { uuid := otherService.uuid, characteristics := [characteristic] } := by
    unfold BLEService.orCharacteristic BLEService.orService
    rw [mergeFirst_eq characteristic _ hd]
    simp only [List.foldl_cons, List.foldl_nil]
    rw [mergeStep_eq]
    by_cases h : service.characteristics.any (fun m => m.eq characteristic) = true
    · simp only [h, if_true]
    · simp only [h, Bool.false_eq_true, if_false]
      rw [map_merge_of_not_any _ _ (by simpa using h)]
  refine ⟨foldl_mergeStep_nodup _ _ hd, ?_, h3⟩
  rw [h3]
  exact foldl_mergeStep_nodup _ _ hd

/-- C38 at a service with the characteristic `2A19`, merged with a service that lists `2A00`
twice, and with the characteristic `2A19`. -/
theorem C38_merge_keeps_uuids_distinct_witness :
    (((sampleService [sampleCharacteristic 0x19 BLECharacteristicType.default]).orService
        (sampleService [sampleCharacteristic 0x00 BLECharacteristicType.default,
          sampleCharacteristic 0x00 BLECharacteristicType.default])).characteristics.map
        (fun m => m.uuid)).Nodup ∧
      (((sampleService [sampleCharacteristic 0x19 BLECharacteristicType.default]).orCharacteristic
        (sampleCharacteristic 0x19 BLECharacteristicType.default)).characteristics.map
        (fun m => m.uuid)).Nodup ∧
      (sampleService [sampleCharacteristic 0x19 BLECharacteristicType.default]).orCharacteristic
          (sampleCharacteristic 0x19 BLECharacteristicType.default) =
        (sampleService [sampleCharacteristic 0x19 BLECharacteristicType.default]).orService
          { uuid := (sampleService [sampleCharacteristic 0x00 BLECharacteristicType.default,
              sampleCharacteristic 0x00 BLECharacteristicType.default]).uuid,
            characteristics := [sampleCharacteristic 0x19 BLECharacteristicType.default] } :=
  C38_merge_keeps_uuids_distinct
    (sampleService [sampleCharacteristic 0x19 BLECharacteristicType.default])
    (sampleService [sampleCharacteristic 0x00 BLECharacteristicType.default,
      sampleCharacteristic 0x00 BLECharacteristicType.default])
    (sampleCharacteristic 0x19 BLECharacteristicType.default) (by decide)

/-- C39. For every list of characteristics that `discovery_completed_cb` walks, the Device
Record of the connection's target has afterwards `ignore = true` when the list does not hold
the Herald payload characteristic, and the ignore flag it had before (that of a new record if
there was none) when the list holds it; for every payload characteristic of the list a GATT
read of its value handle at offset 0 has been issued; and in both cases the services of the
record are the list of the Herald service UUID alone, set by the last update. -/
theorem C39_ignore_iff_no_payload_characteristic (env : Env) (e : Engine) (dm : GattDm) :
    ∃ d, mapFind (Engine.discovery_completed_cb env e dm).db
          ((Engine.findOrCreateStateByConnection env e dm.conn false).1.stateOf
            (Engine.findOrCreateStateByConnection env e dm.conn false).2).target = some d ∧
      d.ignore =
        (if dm.chars.any (fun c => decide (c.uuid = herald_char_payload_uuid)) then
          ((mapFind e.db
            ((Engine.findOrCreateStateByConnection env e dm.conn false).1.stateOf
              (Engine.findOrCreateStateByConnection env e dm.conn false).2).target).getD
            BLEDevice.new).ignore
        else true) ∧
      d.services = some [BLESensorConfiguration.serviceUUID] ∧
      (∀ c ∈ dm.chars, c.uuid = herald_char_payload_uuid →
        RadioCall.gattRead dm.conn c.value_handle 0 ∈
          (Engine.discovery_completed_cb env e dm).radioCalls) ∧
      (dm.chars.all (fun c => !decide (c.uuid = herald_char_payload_uuid)) = true →
        (Engine.discovery_completed_cb env e dm).radioCalls =
          e.radioCalls ++ [RadioCall.gattDmDataRelease]) := by
  generalize hr : Engine.findOrCreateStateByConnection env e dm.conn false = r
  have hdb : r.1.db = e.db := by rw [← hr]; rfl
  have hcalls : r.1.radioCalls = e.radioCalls := by rw [← hr]; rfl
  have h0 := mapFind_dbDevice_eq e.db (r.1.stateOf r.2).target
  obtain ⟨⟨d, h1, h2⟩, h3, _, h5⟩ := discovery_fold_ignore r.2 (r.1.stateOf r.2).target dm.conn
    dm.chars (({ r.1 with db := dbDevice r.1.db (r.1.stateOf r.2).target } : Engine), false) _
    (by rw [hdb]; exact h0)
  simp only [Bool.false_or] at h3
  by_cases hany : dm.chars.any (fun c => decide (c.uuid = herald_char_payload_uuid)) = true
  · refine ⟨{ d with services := some [BLESensorConfiguration.serviceUUID] }, ?_, ?_, rfl,
      ?_, ?_⟩
    · simp [Engine.discovery_completed_cb, hr, h3, hany, mapFind_mapUpdate, h1]
    · simp [hany, h2]
    · intro c hc hp
      have := h5 c hc hp
      simp [Engine.discovery_completed_cb, hr, h3, hany, this]
    · intro hall
      exfalso
      obtain ⟨c, hc, hcp⟩ := List.any_eq_true.mp hany
      have := List.all_eq_true.mp hall c hc
      simp only [hcp, Bool.not_true] at this
      cases this
  · refine ⟨{ d with ignore := true, services := some [BLESensorConfiguration.serviceUUID] },
      ?_, ?_, rfl, ?_, ?_⟩
    · simp [Engine.discovery_completed_cb, hr, h3, hany, mapFind_mapUpdate, h1]
    · simp [hany]
    · intro c hc hp
      exfalso
      apply hany
      exact List.any_eq_true.mpr ⟨c, hc, by simp [hp]⟩
    · intro _
      have hnone : ∀ (cs : List GattChrc) (acc : Engine × Bool),
          cs.any (fun c => decide (c.uuid = herald_char_payload_uuid)) = false →
          (cs.foldl (Engine.discoveryStep r.2 (r.1.stateOf r.2).target dm.conn) acc).1.radioCalls
            = acc.1.radioCalls := by
        intro cs
        induction cs with
        | nil => intro acc _; rfl
        | cons c cs ih =>
          intro acc hcs
          simp only [List.any_cons, Bool.or_eq_false_iff, decide_eq_false_iff_not] at hcs
          rw [List.foldl_cons, ih _ hcs.2]
          unfold Engine.discoveryStep
          simp only [if_neg hcs.1]
          split_ifs <;> rfl
      have hn := hnone dm.chars
        (({ r.1 with db := dbDevice r.1.db (r.1.stateOf r.2).target } : Engine), false)
        (by simpa using hany)
      simp only at hn
      rw [← hcalls]
      simp only [Engine.discovery_completed_cb, hr]
      split_ifs <;> simp [hn]

/-- An evaluation of C39: discovery on a new peer that lists only the payload characteristic
leaves `ignore = false`, and discovery that lists only the iOS signal characteristic leaves
`ignore = true`; both leave the services `[serviceUUID]`. -/
theorem discovery_ignore_example :
    (mapFind (Engine.discovery_completed_cb testEnv Engine.init
        { conn := 7, chars := [{ uuid := herald_char_payload_uuid, value_handle := 3 }] }).db
        [1, 2, 3, 4, 5, 6]).map (fun d => (d.ignore, d.services)) =
        some (false, some [BLESensorConfiguration.serviceUUID]) ∧
      (mapFind (Engine.discovery_completed_cb testEnv Engine.init
        { conn := 7, chars := [{ uuid := herald_char_signal_ios_uuid, value_handle := 1 }] }).db
        [1, 2, 3, 4, 5, 6]).map (fun d => (d.ignore, d.services)) =
        some (true, some [BLESensorConfiguration.serviceUUID]) := by
  decide

/-- C40. For every scan event, `scan_cb` asks the Device Database for the device of the MAC
address and the advertisement bytes; if the record returned has `ignore = true` the database
is left as that call left it and no RSSI is recorded; if it has `ignore = false` the RSSI of
the event is set on that record and no other record changes. The connection states and the
radio are not touched. -/
theorem C40_scan_records_rssi_unless_ignored (env : Env)
    (device : BLEDatabase → TargetIdentifier → Data → BLEDatabase × TargetIdentifier)
    (e : Engine) (addr : BtAddrLe) (rssi : Int) (adv_type : Nat) (buf : Data) (d : BLEDevice)
    (hrec : mapFind (device e.db (env.macData addr.val) buf).1
      (device e.db (env.macData addr.val) buf).2 = some d) :
    (d.ignore = true →
        (Engine.scan_cb env device e addr rssi adv_type buf).db =
          (device e.db (env.macData addr.val) buf).1) ∧
      (d.ignore = false →
        mapFind (Engine.scan_cb env device e addr rssi adv_type buf).db
            (device e.db (env.macData addr.val) buf).2 = some { d with rssi := some rssi } ∧
          ∀ k, k ≠ (device e.db (env.macData addr.val) buf).2 →
            mapFind (Engine.scan_cb env device e addr rssi adv_type buf).db k =
              mapFind (device e.db (env.macData addr.val) buf).1 k) ∧
      (Engine.scan_cb env device e addr rssi adv_type buf).connectionStates =
        e.connectionStates ∧
      (Engine.scan_cb env device e addr rssi adv_type buf).radioCalls = e.radioCalls ∧
      (Engine.scan_cb env device e addr rssi adv_type buf).isScanning = e.isScanning := by
  refine ⟨?_, ?_, ?_, ?_, ?_⟩
  · intro hi
    simp [Engine.scan_cb, hrec, hi]
  · intro hi
    refine ⟨?_, ?_⟩
    · simp [Engine.scan_cb, hrec, hi, mapFind_mapUpdate]
    · intro k hk
      simp only [Engine.scan_cb, hrec, Option.getD_some, hi, Bool.false_eq_true, if_false,
        mapFind_mapUpdate]
      rw [if_neg (fun h => hk h.symm)]
  · simp only [Engine.scan_cb]
    split_ifs <;> rfl
  · simp only [Engine.scan_cb]
    split_ifs <;> rfl
  · simp only [Engine.scan_cb]
    split_ifs <;> rfl

/-- C40 at a fresh engine, for a scan event of `01:02:03:04:05:06` with RSSI -55, and at an
engine whose database holds that device as ignored. -/
theorem C40_scan_records_rssi_unless_ignored_witness :
    (mapFind (Engine.scan_cb testEnv deviceByMac Engine.init
        { type := 1, val := [1, 2, 3, 4, 5, 6] } (-55) 0 [2, 1, 6]).db [1, 2, 3, 4, 5, 6] =
      some { BLEDevice.new with rssi := some (-55) }) ∧
    ((Engine.scan_cb testEnv deviceByMac ignoredPeer
        { type := 1, val := [1, 2, 3, 4, 5, 6] } (-55) 0 [2, 1, 6]).db =
      [([1, 2, 3, 4, 5, 6], { BLEDevice.new with ignore := true })]) :=
  ⟨((C40_scan_records_rssi_unless_ignored testEnv deviceByMac Engine.init
      { type := 1, val := [1, 2, 3, 4, 5, 6] } (-55) 0 [2, 1, 6] BLEDevice.new
      (by decide)).2.1 (by decide)).1,
    (C40_scan_records_rssi_unless_ignored testEnv deviceByMac ignoredPeer
      { type := 1, val := [1, 2, 3, 4, 5, 6] } (-55) 0 [2, 1, 6]
      { BLEDevice.new with ignore := true } (by decide)).1 (by decide)⟩

end Herald
